import Mathlib

/-!
# NG liquid-block state machine (gowaves, `pkg/ng`, `pkg/proto`)

A shallow embedding of

* `pkg/proto/block_creator.go` : `BlockCreatorImpl.FromMicroblockRow`
* `pkg/ng/state.go`            : `State.AddBlock`, `State.AddMicroblock`,
                                 `State.BlockApplied`, `State.blockApplied`
* `pkg/proto/proto.go`         : `Header.MarshalBinary`, `Header.UnmarshalBinary`,
                                 `PeerInfo` and `PeersMessage` with their
                                 codecs, `Handshake.MarshalBinary`
* `pkg/state/recent_blocks.go` : `recentBlocks` with `addBlockID`,
                                 `addNewBlockID`, `fillRecentIds`, `height`,
                                 `flush`
* `pkg/proto/protobuf_converters.go` : `ProtobufConverter.Transaction`,
                                 `ProtobufConverter.SignedTransaction`,
                                 `ProtobufConverter.TransferScriptActions` and
                                 the helpers they call

Stateful code is embedded by explicit state passing.  Every operation returns
the new state together with the list of calls it made on its collaborators
(the *trace*), so that statements such as "the applier is never called" can be
expressed.
-/

namespace NG

/-! ## Data model (`pkg/proto`) -/

/-- A `crypto.Signature` (64 bytes).  Only equality of signatures is ever used
by the embedded code, so the byte array is represented by the number it
encodes. -/
abbrev Signature := Nat

/-- A `proto.BlockID`; at this revision of the code it is a signature
(`Parent` and `BlockSignature` are produced by `c.signature(..)` in
`protobuf_converters.go`). -/
abbrev BlockID := Signature

/-- A `crypto.PublicKey` (32 bytes), used only as an uninterpreted value. -/
abbrev PublicKey := Nat

/-- The address scheme byte `proto.Scheme`. -/
abbrev Scheme := Nat

/-- A `proto.Transaction`; blocks only carry transactions around, so a
transaction is an uninterpreted value. -/
abbrev Transaction := Nat

/-- Errors returned by the collaborators.  `state.IsNotFound` is the only
inspection the embedded code performs on an error. -/
inductive Error where
  | notFound
  | other (code : Nat)
deriving DecidableEq, Repr

/-- The predicate `state.IsNotFound(err)`. -/
def IsNotFound : Error → Bool
  | .notFound => true
  | .other _ => false

/-- Modelled from the spec: `proto.TransactionsRepresentation` is not among
the sources; the spec (section 4.C) describes the transactions of a block as
an ordered sequence. -/
abbrev Transactions := List Transaction

/-- Modelled from the spec: `TransactionsRepresentation.Join` is not among the
sources; section 4.C reads `keyBlock.transactions ++ concat(micros[i].transactions)`,
so `Join` is concatenation of the ordered sequences. -/
def Transactions.Join (a other : Transactions) : Transactions :=
  a ++ other

/-- The struct `proto.NxtConsensus` (fields as built by
`ProtobufConverter.consensus`). -/
structure NxtConsensus where
  GenSignature : List Nat
  BaseTarget : Nat
deriving DecidableEq, Repr

/-- The struct `proto.BlockHeader`, with the fields of the composite literal in
`ProtobufConverter.BlockHeader`. -/
structure BlockHeader where
  Version : Nat
  Timestamp : Nat
  Parent : Signature
  FeaturesCount : Nat
  Features : List Int
  RewardVote : Int
  NxtConsensus : NxtConsensus
  TransactionCount : Nat
  GenPublicKey : PublicKey
  BlockSignature : Signature
deriving DecidableEq, Repr

/-- The struct `proto.Block`: an embedded `BlockHeader` plus the transactions
(`ProtobufConverter.Block`). -/
structure Block extends BlockHeader where
  Transactions : Transactions
deriving DecidableEq, Repr

/-- The struct `proto.MicroBlock`, with the fields of the composite literal in
`ProtobufConverter.MicroBlock`.  `PrevResBlockSigField` is the spec's
`referenceID`, `TotalResBlockSigField` its `updatedSignature`. -/
structure MicroBlock where
  VersionField : Nat
  PrevResBlockSigField : Signature
  TotalResBlockSigField : Signature
  TransactionCount : Nat
  Transactions : Transactions
  SenderPK : PublicKey
  Signature : Signature
deriving DecidableEq, Repr

/-- Modelled from the spec: the method `Block.BlockID()` is not among the
sources; by section 4.C "the new block's BlockID is the new blockSignature". -/
def Block.BlockID (b : Block) : BlockID :=
  b.BlockSignature

/-- The struct `proto.MicroblockRow`. -/
structure MicroblockRow where
  KeyBlock : Block
  MicroBlocks : List MicroBlock
deriving DecidableEq, Repr

/-! ## Block synthesis (`block_creator.go`) -/

/-- The signature of `proto.CreateBlock`, in the argument order of its call in
`FromMicroblockRow`: transactions, timestamp, parent, generator public key,
consensus, version, features, reward vote, scheme. -/
abbrev CreateBlockFn :=
  Transactions → Nat → Signature → PublicKey → NxtConsensus → Nat → List Int → Int → Scheme →
    Except Error Block

/-- Modelled from the spec: `proto.CreateBlock` is not among the sources.  By
section 4.C the synthesised block has "all fields copied" from the arguments;
the counts are the lengths of the sequences and the signature is left at its
zero value (it is assigned by the caller). -/
def CreateBlock : CreateBlockFn :=
  fun t timestamp parent genPublicKey nxtConsensus version features rewardVote _ =>
    .ok
      { Version := version
        Timestamp := timestamp
        Parent := parent
        FeaturesCount := features.length
        Features := features
        RewardVote := rewardVote
        NxtConsensus := nxtConsensus
        TransactionCount := t.length
        GenPublicKey := genPublicKey
        BlockSignature := 0
        Transactions := t }

/-- Modelled from the spec: what section 4.C requires of `proto.CreateBlock`
whenever it succeeds, namely that the block it returns carries the arguments it
was given. -/
def CreateBlockContract (create : CreateBlockFn) : Prop :=
  ∀ t timestamp parent genPublicKey nxtConsensus version features rewardVote s b,
    create t timestamp parent genPublicKey nxtConsensus version features rewardVote s = .ok b →
      b.Transactions = t ∧ b.Timestamp = timestamp ∧ b.Parent = parent ∧
      b.GenPublicKey = genPublicKey ∧ b.NxtConsensus = nxtConsensus ∧ b.Version = version ∧
      b.Features = features ∧ b.RewardVote = rewardVote

/-- The loop of `FromMicroblockRow` (lines 20-23): the pair `(t, BlockSignature)`
after the micro-blocks have been visited in order. -/
def microLoop : Transactions × Signature → List MicroBlock → Transactions × Signature
  | acc, [] => acc
  | acc, row :: rest => microLoop (acc.1.Join row.Transactions, row.TotalResBlockSigField) rest

/-- The method `BlockCreatorImpl.FromMicroblockRow` (lines 16-40); `create` is
`proto.CreateBlock` and `s` the scheme held by the receiver. -/
def FromMicroblockRow (create : CreateBlockFn) (s : Scheme) (seq : MicroblockRow) :
    Except Error Block :=
  let keyBlock := seq.KeyBlock
  let r := microLoop (keyBlock.Transactions, keyBlock.BlockSignature) seq.MicroBlocks
  match create r.1 keyBlock.Timestamp keyBlock.Parent keyBlock.GenPublicKey
      keyBlock.NxtConsensus keyBlock.Version keyBlock.Features keyBlock.RewardVote s with
  | .error err => .error err
  | .ok block => .ok { block with BlockSignature := r.2 }

/-! ## Collaborators of the NG state (`pkg/ng/state.go`) -/

/-- One call made by an operation of the NG state on one of its collaborators,
together with the outcome the code branches on.  `muLock`/`muUnlock` are
`a.mu.Lock()` and the deferred `a.mu.Unlock()`; `Mutex`, `Lock`, `Unlock` are
`a.state.Mutex()` and the lock and unlock of the ledger mutex. -/
inductive Event where
  | muLock
  | muUnlock
  | knownAdd (block : Block) (added : Bool)
  | PushBlock (block : Block) (ok : Bool)
  | PushMicro (micro : MicroBlock) (ok : Bool)
  | Pop
  | ContainsID (id : BlockID) (found : Bool)
  | PreviousBlock (ok : Bool)
  | StorageBlock (ok : Bool)
  | newFromBlock (block : Block)
  | Mutex
  | Lock
  | Unlock
  | RollbackTo (id : BlockID) (err : Option Error)
  | Height (res : Option Nat)
  | RollbackToHeight (height : Nat) (ok : Bool)
  | AddDeserializedBlock (block : Block) (ok : Bool)
  | BlockByHeight (height : Nat) (ok : Bool)
  | Apply (blocks : List Block) (ok : Bool)
deriving DecidableEq, Repr

/-- The event is a call that may change the liquid storage: a push, `Pop` or
`newFromBlock`. -/
def Event.isStorageWrite : Event → Bool
  | .PushBlock _ _ => true
  | .PushMicro _ _ => true
  | .Pop => true
  | .newFromBlock _ => true
  | _ => false

/-- The event is a call of a method of the ledger (`a.state`), its mutex
included. -/
def Event.isLedger : Event → Bool
  | .Mutex => true
  | .Lock => true
  | .Unlock => true
  | .RollbackTo _ _ => true
  | .Height _ => true
  | .RollbackToHeight _ _ => true
  | .AddDeserializedBlock _ _ => true
  | .BlockByHeight _ _ => true
  | _ => false

/-- The event is a rollback of the ledger (`RollbackTo` or `RollbackToHeight`). -/
def Event.isRollback : Event → Bool
  | .RollbackTo _ _ => true
  | .RollbackToHeight _ _ => true
  | _ => false

/-- The event is a call of `applier.Apply`. -/
def Event.isApply : Event → Bool
  | .Apply _ _ => true
  | _ => false

/-- The methods of the liquid storage (`*storage`) that `state.go` calls, over
an arbitrary representation `S` of the storage.  Mutating methods return the
error (if any) and the storage afterwards. -/
structure StorageOps (S : Type) where
  PushBlock : S → Block → Option Error × S
  PushMicro : S → MicroBlock → Option Error × S
  Pop : S → S
  ContainsID : S → BlockID → Bool
  PreviousBlock : S → Except Error Block
  newFromBlock : S → Block → S
  Block : S → Except Error Block

/-- The method `knownBlocks.add`, over an arbitrary representation `K`. -/
structure KnownOps (K : Type) where
  add : K → Block → Bool × K

/-- The methods of the ledger (`state.State`) and of the applier
(`types.BlocksApplier`) that `state.go` calls.  Both act on the same ledger,
whose state is a value of `W`; mutating methods return the error (if any) and
the ledger afterwards. -/
structure LedgerOps (W : Type) where
  RollbackTo : W → BlockID → Option Error × W
  Height : W → Except Error Nat
  RollbackToHeight : W → Nat → Option Error × W
  AddDeserializedBlock : W → Block → Option Error × W
  BlockByHeight : W → Nat → Except Error Block
  Apply : W → List Block → Option Error × W

/-- The struct `ng.State`.  The fields `applier` and `state` are handles on the
ledger; `ledger` is the state of the ledger behind them.  The mutex `mu`
appears in the traces only. -/
structure State (S K W : Type) where
  storage : S
  prevAddedBlock : Option Block
  ledger : W
  knownBlocks : K

/-- The condition of line 41:
`a.prevAddedBlock != nil && a.prevAddedBlock.BlockID() == block.BlockID()`. -/
def sameAsPrev (prevAddedBlock : Option Block) (block : Block) : Bool :=
  match prevAddedBlock with
  | none => false
  | some prev => prev.BlockID == block.BlockID

/-- The 64-bit unsigned subtraction `height - 1` of line 73. -/
def heightMinusOne (height : Nat) : Nat :=
  (height + 2 ^ 64 - 1) % 2 ^ 64

section Operations

variable {S K W : Type}

/-- Lines 94-107 of `AddBlock`: apply the block; on failure pop the storage and
try to re-apply the previously added block.  `tr` is the trace so far. -/
def addBlockApply (so : StorageOps S) (lo : LedgerOps W) (a : State S K W) (block : Block)
    (tr : List Event) : State S K W × List Event :=
  let r := lo.Apply a.ledger [block]
  match r.1 with
  | some _ =>
    let a1 := { a with ledger := r.2, storage := so.Pop a.storage }
    match a.prevAddedBlock with
    | some prev =>
      let r2 := lo.Apply a1.ledger [prev]
      ({ a1 with ledger := r2.2 },
        tr ++ [.Apply [block] false, .Pop, .Apply [prev] r2.1.isNone, .muUnlock])
    | none => (a1, tr ++ [.Apply [block] false, .Pop, .muUnlock])
  | none =>
    ({ a with ledger := r.2, prevAddedBlock := some block },
      tr ++ [.Apply [block] true, .muUnlock])

/-- Lines 61-85 of `AddBlock`, the liquid rebase, followed by the apply step
when every call of the rebase succeeded. -/
def addBlockRebase (so : StorageOps S) (lo : LedgerOps W) (a : State S K W) (block : Block)
    (tr : List Event) : State S K W × List Event :=
  match so.PreviousBlock a.storage with
  | .error _ => (a, tr ++ [.PreviousBlock false, .muUnlock])
  | .ok prevBlock =>
    match lo.Height a.ledger with
    | .error _ => (a, tr ++ [.PreviousBlock true, .Lock, .Height none, .Unlock, .muUnlock])
    | .ok height =>
      let r1 := lo.RollbackToHeight a.ledger (heightMinusOne height)
      let tr1 := tr ++ [.PreviousBlock true, .Lock, .Height (some height),
        .RollbackToHeight (heightMinusOne height) r1.1.isNone]
      match r1.1 with
      | some _ => ({ a with ledger := r1.2 }, tr1 ++ [.Unlock, .muUnlock])
      | none =>
        let r2 := lo.AddDeserializedBlock r1.2 prevBlock
        let tr2 := tr1 ++ [.AddDeserializedBlock prevBlock r2.1.isNone, .Unlock]
        match r2.1 with
        | some _ => ({ a with ledger := r2.2 }, tr2 ++ [.muUnlock])
        | none => addBlockApply so lo { a with ledger := r2.2 } block tr2

/-- Lines 51-92 of `AddBlock`: roll the ledger back to the parent of the block
under the ledger mutex and dispatch on the error, then continue with the
rebase or the apply step.  `tr` is the trace so far. -/
def addBlockRollback (so : StorageOps S) (lo : LedgerOps W) (a : State S K W) (block : Block)
    (tr : List Event) : State S K W × List Event :=
  let rb := lo.RollbackTo a.ledger block.Parent
  let a1 := { a with ledger := rb.2 }
  let tr1 := tr ++ [.Mutex, .Lock, .RollbackTo block.Parent rb.1, .Unlock]
  match rb.1 with
  | none => addBlockApply so lo a1 block tr1
  | some err =>
    if IsNotFound err = true then
      if so.ContainsID a1.storage block.Parent = true then
        addBlockRebase so lo a1 block (tr1 ++ [.ContainsID block.Parent true])
      else
        addBlockApply so lo a1 block (tr1 ++ [.ContainsID block.Parent false])
    else
      ({ a1 with storage := so.Pop a1.storage }, tr1 ++ [.Pop, .muUnlock])

/-- The method `State.AddBlock` (lines 32-108): lines 32-49 here, the rest in
`addBlockRollback`, `addBlockRebase` and `addBlockApply`. -/
def AddBlock (so : StorageOps S) (ko : KnownOps K) (lo : LedgerOps W) (a : State S K W)
    (block : Block) : State S K W × List Event :=
  let k := ko.add a.knownBlocks block
  let a1 := { a with knownBlocks := k.2 }
  let tr1 := [Event.muLock, .knownAdd block k.1]
  if k.1 = false then (a1, tr1 ++ [.muUnlock])
  else if sameAsPrev a1.prevAddedBlock block = true then (a1, tr1 ++ [.muUnlock])
  else
    let p := so.PushBlock a1.storage block
    let a2 := { a1 with storage := p.2 }
    match p.1 with
    | some _ => (a2, tr1 ++ [.PushBlock block false, .muUnlock])
    | none => addBlockRollback so lo a2 block (tr1 ++ [.PushBlock block true])

/-- The method `State.AddMicroblock` (lines 110-175). -/
def AddMicroblock (so : StorageOps S) (lo : LedgerOps W) (a : State S K W)
    (micro : MicroBlock) : State S K W × List Event :=
  match a.prevAddedBlock with
  | none => (a, [.muLock, .muUnlock])
  | some prev =>
    let p := so.PushMicro a.storage micro
    let a1 := { a with storage := p.2 }
    match p.1 with
    | some _ => (a1, [.muLock, .PushMicro micro false, .muUnlock])
    | none =>
      let tr1 := [Event.muLock, .PushMicro micro true]
      match so.Block a1.storage with
      | .error _ => (a1, tr1 ++ [.StorageBlock false, .muUnlock])
      | .ok block =>
        let tr2 := tr1 ++ [.StorageBlock true]
        if prev.Parent ≠ block.Parent then (a1, tr2 ++ [.muUnlock])
        else
          match lo.Height a1.ledger with
          | .error _ => (a1, tr2 ++ [.Height none, .muUnlock])
          | .ok curHeight =>
            let tr3 := tr2 ++ [.Height (some curHeight)]
            match lo.BlockByHeight a1.ledger curHeight with
            | .error _ => (a1, tr3 ++ [.BlockByHeight curHeight false, .muUnlock])
            | .ok curBlock =>
              let tr4 := tr3 ++ [.BlockByHeight curHeight true]
              if curBlock.Parent ≠ block.Parent then (a1, tr4 ++ [.muUnlock])
              else
                let rb := lo.RollbackTo a1.ledger curBlock.Parent
                let a2 := { a1 with ledger := rb.2 }
                let tr5 := tr4 ++ [.Mutex, .Lock, .RollbackTo curBlock.Parent rb.1, .Unlock]
                match rb.1 with
                | some _ => (a2, tr5 ++ [.muUnlock])
                | none =>
                  let r := lo.Apply a2.ledger [block]
                  match r.1 with
                  | some _ =>
                    ({ a2 with ledger := r.2, storage := so.Pop a2.storage },
                      tr5 ++ [.Apply [block] false, .Pop, .muUnlock])
                  | none =>
                    ({ a2 with ledger := r.2, prevAddedBlock := some block },
                      tr5 ++ [.Apply [block] true, .muUnlock])

/-- The method `State.blockApplied` (lines 192-208); `tr` is the trace so far. -/
def blockApplied (so : StorageOps S) (a : State S K W) (block : Block) (tr : List Event) :
    State S K W × List Event :=
  match a.prevAddedBlock with
  | none =>
    ({ a with prevAddedBlock := some block, storage := so.newFromBlock a.storage block },
      tr ++ [.muLock, .newFromBlock block, .muUnlock])
  | some prev =>
    if prev.BlockID = block.BlockID then (a, tr ++ [.muLock, .muUnlock])
    else
      ({ a with prevAddedBlock := some block, storage := so.newFromBlock a.storage block },
        tr ++ [.muLock, .newFromBlock block, .muUnlock])

/-- The method `State.BlockApplied` (lines 177-189). -/
def BlockApplied (so : StorageOps S) (lo : LedgerOps W) (a : State S K W) :
    State S K W × List Event :=
  match lo.Height a.ledger with
  | .error _ => (a, [.Height none])
  | .ok h =>
    match lo.BlockByHeight a.ledger h with
    | .error _ => (a, [.Height (some h), .BlockByHeight h false])
    | .ok block => blockApplied so a block [.Height (some h), .BlockByHeight h true]

end Operations

/-! ## Liquid storage and known blocks (spec sections 3, 4.A and 4.B) -/

/-- Modelled from the spec: the struct `ng.storage` is not among the sources.
Section 3 gives its state as the tuple `(keyBlock, micros)`; `new(scheme)`
keeps the scheme for the block synthesiser. -/
structure storage where
  scheme : Scheme
  keyBlock : Option Block
  micros : List MicroBlock
deriving DecidableEq, Repr

/-- Modelled from the spec: `newStorage` (section 4.A, `new(scheme)`: empty
storage, no key-block). -/
def newStorage (scheme : Scheme) : storage :=
  { scheme := scheme, keyBlock := none, micros := [] }

/-- Modelled from the spec: `storage.newFromBlock` (section 4.A: storage with
`keyBlock=b, micros=[]`). -/
def storage.newFromBlock (a : storage) (b : Block) : storage :=
  { a with keyBlock := some b, micros := [] }

/-- Modelled from the spec: `storage.PushBlock` (section 4.A: replaces keyBlock,
clears micros; "this is always valid; replace unconditionally"). -/
def storage.PushBlock (a : storage) (b : Block) : Option Error × storage :=
  (none, { a with keyBlock := some b, micros := [] })

/-- Modelled from the spec: the current tip BlockID of section 4.A, "the last
updatedSignature, or the keyBlock BlockID if micros is empty". -/
def storage.tipID (a : storage) : Option BlockID :=
  match a.keyBlock with
  | none => none
  | some k =>
    match a.micros.getLast? with
    | some m => some m.TotalResBlockSigField
    | none => some k.BlockID

/-- Modelled from the spec: `storage.PushMicro` (section 4.A: appends `m`;
fails with `EmptyStorage` (code 1) without a keyBlock and with
`ReferenceMismatch` (code 2) if `m.referenceID` is not the current tip). -/
def storage.PushMicro (a : storage) (m : MicroBlock) : Option Error × storage :=
  match a.tipID with
  | none => (some (.other 1), a)
  | some tip =>
    if m.PrevResBlockSigField = tip then (none, { a with micros := a.micros ++ [m] })
    else (some (.other 2), a)

/-- Modelled from the spec: `storage.Pop` (section 4.A: removes the last micro
if any; else removes the keyBlock). -/
def storage.Pop (a : storage) : storage :=
  match a.micros with
  | [] => { a with keyBlock := none }
  | _ :: _ => { a with micros := a.micros.dropLast }

/-- Modelled from the spec: `storage.Block` (section 4.A: the synthesised tip;
fails with `EmptyStorage` without a keyBlock; delegates to the block
synthesiser with the full micro list). -/
def storage.Block (create : CreateBlockFn) (a : storage) : Except Error Block :=
  match a.keyBlock with
  | none => .error (.other 1)
  | some k => FromMicroblockRow create a.scheme { KeyBlock := k, MicroBlocks := a.micros }

/-- Modelled from the spec: `storage.PreviousBlock` (section 4.A: the tip minus
the last micro; fails with `EmptyStorage` without a keyBlock; if micros is
empty, returns the keyBlock unchanged). -/
def storage.PreviousBlock (create : CreateBlockFn) (a : storage) : Except Error NG.Block :=
  match a.keyBlock with
  | none => .error (.other 1)
  | some k =>
    match a.micros with
    | [] => .ok k
    | _ :: _ =>
      FromMicroblockRow create a.scheme { KeyBlock := k, MicroBlocks := a.micros.dropLast }

/-- Modelled from the spec: `storage.ContainsID` (section 4.A: true iff `id`
equals the keyBlock BlockID or the `updatedSignature` of any micro). -/
def storage.ContainsID (a : storage) (id : BlockID) : Bool :=
  (match a.keyBlock with
    | none => false
    | some k => k.BlockID == id) ||
  a.micros.any (fun m => m.TotalResBlockSigField == id)

/-- The liquid storage of the spec as an implementation of the storage
methods. -/
def liquidOps (create : CreateBlockFn) : StorageOps storage where
  PushBlock := storage.PushBlock
  PushMicro := storage.PushMicro
  Pop := storage.Pop
  ContainsID := storage.ContainsID
  PreviousBlock := storage.PreviousBlock create
  newFromBlock := storage.newFromBlock
  Block := storage.Block create

/-- Modelled from the spec: the struct `ng.knownBlocks` is not among the
sources.  Section 4.B: a fixed-capacity insertion-ordered map; `ids` lists the
remembered identifiers, oldest first. -/
structure knownBlocks where
  capacity : Nat
  ids : List BlockID
deriving DecidableEq, Repr

/-- Modelled from the spec: `knownBlocks.add` (section 4.B: returns `false` if
the id is present; otherwise inserts, evicts the oldest when capacity is
exceeded, and returns `true`). -/
def knownBlocks.add (k : knownBlocks) (block : Block) : Bool × knownBlocks :=
  if block.BlockID ∈ k.ids then (false, k)
  else
    let ids := k.ids ++ [block.BlockID]
    (true, { k with ids := if k.capacity < ids.length then ids.tail else ids })

/-- The known-blocks memory of the spec as an implementation of `add`. -/
def knownOps : KnownOps knownBlocks where
  add := knownBlocks.add

/-! ## A reference ledger

The ledger and the applier are interfaces in the code (section 6 of the spec
gives their contracts).  The following list-based ledger implements those
contracts; it is used to run the state machine on concrete inputs. -/

/-- Keep the chain up to and including the last block with the given id, if
there is one. -/
def chainRollback : List Block → BlockID → Option (List Block)
  | [], _ => none
  | b :: rest, id =>
    match chainRollback rest id with
    | some r => some (b :: r)
    | none => if b.BlockID = id then some [b] else none

/-- The BlockID of the last applied block. -/
def chainTip (w : List Block) : Option BlockID :=
  w.getLast?.map Block.BlockID

/-- Append the blocks one by one; each must extend the current tip. -/
def chainApply : List Block → List Block → Option (List Block)
  | w, [] => some w
  | w, b :: rest =>
    if chainTip w = some b.Parent then chainApply (w ++ [b]) rest else none

/-- A ledger holding the applied chain (oldest block first), with the
contracts of section 6: heights start at 1, `RollbackTo` fails with NotFound
on an unknown id and with another error ("fork too deep", code 5) when it would
remove more than `maxRollback` blocks, `Apply` is atomic and leaves the ledger
unchanged on failure. -/
def chainLedger (maxRollback : Nat) : LedgerOps (List Block) where
  RollbackTo := fun w id =>
    match chainRollback w id with
    | some w1 => if w.length - w1.length ≤ maxRollback then (none, w1) else (some (.other 5), w)
    | none => (some .notFound, w)
  Height := fun w => .ok w.length
  RollbackToHeight := fun w h => if h ≤ w.length then (none, w.take h) else (some (.other 3), w)
  AddDeserializedBlock := fun w b => (none, w ++ [b])
  BlockByHeight := fun w h =>
    match (if h = 0 then none else w.get? (h - 1)) with
    | some b => .ok b
    | none => .error .notFound
  Apply := fun w blocks =>
    match chainApply w blocks with
    | some w1 => (none, w1)
    | none => (some (.other 4), w)

/-- A block with the given id, parent and transactions; every other field is
zero. -/
def mkBlock (id parent : BlockID) (txs : Transactions) : Block :=
  { Version := 0, Timestamp := 0, Parent := parent, FeaturesCount := 0, Features := [],
    RewardVote := 0, NxtConsensus := { GenSignature := [], BaseTarget := 0 },
    TransactionCount := txs.length, GenPublicKey := 0, BlockSignature := id,
    Transactions := txs }

/-- A micro-block with the given reference, updated signature and
transactions; every other field is zero. -/
def mkMicro (ref updated : BlockID) (txs : Transactions) : MicroBlock :=
  { VersionField := 0, PrevResBlockSigField := ref, TotalResBlockSigField := updated,
    TransactionCount := txs.length, Transactions := txs, SenderPK := 0, Signature := 0 }

/-- The state after scenario 1 of section 8 up to `blockApplied(B0)`: the
ledger holds the genesis block (id 1) and `B0` (id 2), the liquid storage is
anchored at `B0`, nothing is remembered yet. -/
def stateAfterB0 : State storage knownBlocks (List Block) :=
  { storage := { scheme := 84, keyBlock := some (mkBlock 2 1 []), micros := [] }
    prevAddedBlock := some (mkBlock 2 1 [])
    ledger := [mkBlock 1 0 [], mkBlock 2 1 []]
    knownBlocks := { capacity := 64, ids := [] } }

/-- The state after scenario 1 of section 8: `addBlock(B1)` with `B1` of id 3,
parent 2 and one transaction, run on `stateAfterB0`. -/
def stateAfterB1 : State storage knownBlocks (List Block) :=
  (AddBlock (liquidOps CreateBlock) knownOps (chainLedger 100) stateAfterB0 (mkBlock 3 2 [7])).1

/-- The constructor `NewState` (lines 22-30): `storage` is
`newStorage(services.Scheme)`, `knownBlocks` is the empty `knownBlocks{}`,
`prevAddedBlock` is nil; `ledger` is the state of the ledger behind
`services.State` and `services.BlocksApplier`. -/
def NewState {S K W : Type} (emptyStorage : S) (emptyKnown : K) (ledger : W) : State S K W :=
  { storage := emptyStorage
    prevAddedBlock := none
    ledger := ledger
    knownBlocks := emptyKnown }

/-- A freshly started node: `NewState` over the liquid storage of the spec and
an empty ledger. -/
def stateFresh : State storage knownBlocks (List Block) :=
  NewState (newStorage 84) { capacity := 64, ids := [] } []

/-- The reference ledger with an applier that rejects every block. -/
def rejectingLedger (maxRollback : Nat) : LedgerOps (List Block) :=
  { chainLedger maxRollback with Apply := fun w _ => (some (.other 4), w) }

/-! ## Properties of traces -/

/-- The event reports the failure of one of the four calls of the liquid
rebase of `AddBlock` (lines 61-84): `PreviousBlock`, `Height`,
`RollbackToHeight`, `AddDeserializedBlock`. -/
def Event.isRebaseFailure : Event → Bool
  | .PreviousBlock false => true
  | .Height none => true
  | .RollbackToHeight _ false => true
  | .AddDeserializedBlock _ false => true
  | _ => false

/-- The part an event plays with respect to a mutex: it acquires it, releases
it, is a call that has to happen while it is held (`inside`), a call that has
to happen while it is not held (`outside`), or is indifferent to it. -/
inductive LockRole where
  | acquire
  | release
  | inside
  | outside
  | neutral
deriving DecidableEq, Repr

/-- Run a trace against a mutex: `held` tells whether the mutex is held before
the trace; the result is `none` if an event breaks its role (acquire while
held, release while not held, an `inside` call while not held, an `outside`
call while held) and otherwise `some` of whether the mutex is held at the
end. -/
def lockRun (role : Event → LockRole) : Bool → List Event → Option Bool
  | held, [] => some held
  | held, e :: rest =>
    match role e with
    | .acquire => if held = true then none else lockRun role true rest
    | .release => if held = true then lockRun role false rest else none
    | .inside => if held = true then lockRun role held rest else none
    | .outside => if held = true then none else lockRun role held rest
    | .neutral => lockRun role held rest

/-- Roles with respect to the ledger mutex (spec section 5): `Lock` and
`Unlock` acquire and release it, the mutating ledger calls `RollbackTo`,
`RollbackToHeight` and `AddDeserializedBlock` have to happen while it is held,
`Apply` while it is not held. -/
def ledgerRole : Event → LockRole
  | .Lock => .acquire
  | .Unlock => .release
  | .RollbackTo _ _ => .inside
  | .RollbackToHeight _ _ => .inside
  | .AddDeserializedBlock _ _ => .inside
  | .Apply _ _ => .outside
  | _ => .neutral

/-- Roles with respect to the mutex `mu` of the NG state: `muLock` and
`muUnlock` acquire and release it, every other event is a step of the body
and, for the body to execute under the mutex, has to happen while it is
held. -/
def muRole : Event → LockRole
  | .muLock => .acquire
  | .muUnlock => .release
  | _ => .inside

/-- The event is one of the two ledger reads `Height` and `BlockByHeight`. -/
def Event.isLedgerRead : Event → Bool
  | .Height _ => true
  | .BlockByHeight _ _ => true
  | _ => false

/-! ## Wire header (`pkg/proto/proto.go`) -/

/-- The kinds of run-time panic the embedded code can raise. -/
inductive PanicKind where
  | nilDereference
  | indexOutOfRange
  | sliceBounds
  | unsupportedTransaction
deriving DecidableEq, Repr

/-- The outcome of a Go function that may panic instead of returning. -/
inductive Outcome (α : Type) where
  | done (a : α)
  | panic (kind : PanicKind)
deriving DecidableEq, Repr

/-- The constant `headerMagic`. -/
def headerMagic : Nat := 0x12345678

/-- The constant `HeaderLength`. -/
def HeaderLength : Nat := 17

/-- The struct `proto.Header`; the fields are `uint32` except `ContentID`,
which is `uint8`. -/
structure Header where
  Length : Nat
  Magic : Nat
  ContentID : Nat
  PayloadLength : Nat
  PayloadCsum : Nat
deriving DecidableEq, Repr

/-- The values of the fields fit their Go types. -/
def Header.wellTyped (h : Header) : Prop :=
  h.Length < 2 ^ 32 ∧ h.Magic < 2 ^ 32 ∧ h.ContentID < 2 ^ 8 ∧ h.PayloadLength < 2 ^ 32 ∧
    h.PayloadCsum < 2 ^ 32

instance (h : Header) : Decidable h.wellTyped := by
  unfold Header.wellTyped
  infer_instance

/-- The four bytes written by `binary.BigEndian.PutUint32`:
`byte(v >> 24)`, `byte(v >> 16)`, `byte(v >> 8)`, `byte(v)`. -/
def putUint32 (v : Nat) : List Nat :=
  [v / 2 ^ 24 % 256, v / 2 ^ 16 % 256, v / 2 ^ 8 % 256, v % 256]

/-- The function `binary.BigEndian.Uint32` on a slice of (at least) four bytes:
`b[3] | b[2]<<8 | b[1]<<16 | b[0]<<24`. -/
def uint32 (b : List Nat) : Nat :=
  b.getD 3 0 + b.getD 2 0 * 2 ^ 8 + b.getD 1 0 * 2 ^ 16 + b.getD 0 0 * 2 ^ 24

/-- The Go slice expression `data[lo:hi]` (for `lo <= hi <= len(data)`). -/
def slice (data : List Nat) (lo hi : Nat) : List Nat :=
  (data.drop lo).take (hi - lo)

/-- Writing `bytes` into `data` from offset `off` on, as `PutUint32(data[off:off+4], v)`
does through the shared backing array. -/
def writeAt (data : List Nat) (off : Nat) (bytes : List Nat) : List Nat :=
  data.take off ++ bytes ++ data.drop (off + bytes.length)

/-- The method `Header.MarshalBinary` (lines 277-287). -/
def Header.MarshalBinary (h : Header) : Except Error (List Nat) :=
  let data := List.replicate 17 0
  let data := writeAt data 0 (putUint32 h.Length)
  let data := writeAt data 4 (putUint32 headerMagic)
  let data := data.set 8 h.ContentID
  let data := writeAt data 9 (putUint32 h.PayloadLength)
  let data := writeAt data 13 (putUint32 h.PayloadCsum)
  .ok data

/-- The method `Header.UnmarshalBinary` (lines 289-300) with receiver `h`: the
receiver afterwards and the error returned, or a panic when a slice or index
expression is out of range.  A slice expression is checked against the length
of `data`; Go checks it against the capacity, so the model covers inputs
without spare capacity (all inputs of at least 17 bytes among them). -/
def Header.UnmarshalBinary (h : Header) (data : List Nat) : Outcome (Header × Option Error) :=
  if data.length < 4 then .panic .sliceBounds
  else
    let h1 := { h with Length := uint32 (slice data 0 4) }
    if data.length < 8 then .panic .sliceBounds
    else
      let h2 := { h1 with Magic := uint32 (slice data 4 8) }
      if h2.Magic ≠ headerMagic then .done (h2, some (.other 20))
      else if data.length < 9 then .panic .indexOutOfRange
      else
        let h3 := { h2 with ContentID := data.getD 8 0 }
        if data.length < 13 then .panic .sliceBounds
        else
          let h4 := { h3 with PayloadLength := uint32 (slice data 9 13) }
          if data.length < 17 then .panic .sliceBounds
          else
            let h5 := { h4 with PayloadCsum := uint32 (slice data 13 17) }
            .done (h5, none)

/-- The header of a Peers message with two peers; the field `Magic` is left
at zero. -/
def peersHeader : Header :=
  { Length := 29, Magic := 0, ContentID := 2, PayloadLength := 12, PayloadCsum := 0xDEADBEEF }

/-! ## Protobuf converter (`pkg/proto/protobuf_converters.go`)

The generated protobuf package `g`, the package `crypto` and the transaction
types of `pkg/proto` are not among the sources.  The protobuf messages are
given the fields the converter reads; a pointer to a message is an `Option`
(`none` is the nil pointer).  The functions of the other packages are
parameters (`Externals`).  Of a converted transaction only its dynamic type
(`TxType`) is represented: the values of its fields influence neither the
control flow of the converter nor its `err` field. -/

/-- The message `g.Amount`. -/
structure PbAmount where
  AssetId : List Nat
  Amount : Int

/-- The oneof field `Recipient` of the message `g.Recipient`: an address, an
alias, or not set. -/
inductive PbRecipient where
  | Address (address : List Nat)
  | Alias (name : List Nat)
  | unset

/-- The message `g.AssetPair`. -/
structure PbAssetPair where
  AmountAssetId : List Nat
  PriceAssetId : List Nat

/-- The message `g.Order`; `OrderSide` is the enum `g.Order_Side`. -/
structure PbOrder where
  OrderSide : Int
  SenderPublicKey : List Nat
  MatcherPublicKey : List Nat
  AssetPair : Option PbAssetPair
  Price : Int
  Amount : Int
  Timestamp : Int
  Expiration : Int
  MatcherFee : Option PbAmount
  Version : Int
  Proofs : List (List Nat)

/-- The enum value `g.Order_BUY`. -/
def Order_BUY : Int := 0

/-- The enum value `g.Order_SELL`. -/
def Order_SELL : Int := 1

/-- The message `g.Script`. -/
structure PbScript where
  Bytes : List Nat

/-- The message `g.MassTransferTransactionData_Transfer`. -/
structure PbTransfer where
  Address : Option PbRecipient
  Amount : Int

/-- The oneof field `Value` of a data entry. -/
inductive PbDataValue where
  | IntValue (v : Int)
  | BoolValue (v : Bool)
  | BinaryValue (v : List Nat)
  | StringValue (v : List Nat)
  | unset

/-- The message `g.DataTransactionData_DataEntry`. -/
structure PbDataEntry where
  Key : List Nat
  Value : PbDataValue

/-- The message `g.GenesisTransactionData`. -/
structure PbGenesis where
  RecipientAddress : List Nat
  Amount : Int

/-- The message `g.PaymentTransactionData`. -/
structure PbPayment where
  RecipientAddress : List Nat
  Amount : Int

/-- The message `g.IssueTransactionData`. -/
structure PbIssue where
  Name : List Nat
  Description : List Nat
  Amount : Int
  Decimals : Int
  Reissuable : Bool
  Script : Option PbScript

/-- The message `g.TransferTransactionData`. -/
structure PbTransferData where
  Recipient : Option PbRecipient
  Amount : Option PbAmount
  Attachment : List Nat

/-- The message `g.ReissueTransactionData`. -/
structure PbReissue where
  AssetAmount : Option PbAmount
  Reissuable : Bool

/-- The message `g.BurnTransactionData`. -/
structure PbBurn where
  AssetAmount : Option PbAmount

/-- The message `g.ExchangeTransactionData`; the elements of `Orders` are
pointers. -/
structure PbExchange where
  Amount : Int
  Price : Int
  BuyMatcherFee : Int
  SellMatcherFee : Int
  Orders : List (Option PbOrder)

/-- The message `g.LeaseTransactionData`. -/
structure PbLease where
  Recipient : Option PbRecipient
  Amount : Int

/-- The message `g.LeaseCancelTransactionData`. -/
structure PbLeaseCancel where
  LeaseId : List Nat

/-- The message `g.CreateAliasTransactionData`. -/
structure PbCreateAlias where
  Alias : List Nat

/-- The message `g.MassTransferTransactionData`; the elements of `Transfers`
are pointers. -/
structure PbMassTransfer where
  AssetId : List Nat
  Transfers : List (Option PbTransfer)
  Attachment : List Nat

/-- The message `g.DataTransactionData`; the elements of `Data` are
pointers. -/
structure PbData where
  Data : List (Option PbDataEntry)

/-- The message `g.SetScriptTransactionData`. -/
structure PbSetScript where
  Script : Option PbScript

/-- The message `g.SponsorFeeTransactionData`. -/
structure PbSponsorFee where
  MinFee : Option PbAmount

/-- The message `g.SetAssetScriptTransactionData`. -/
structure PbSetAssetScript where
  AssetId : List Nat
  Script : Option PbScript

/-- The message `g.InvokeScriptTransactionData`; `Payments` is a slice (nil
or not) of pointers. -/
structure PbInvokeScript where
  DApp : Option PbRecipient
  FunctionCall : List Nat
  Payments : Option (List (Option PbAmount))

/-- The oneof field `Data` of `g.Transaction`: one wrapper type
`*g.Transaction_X` per kind of transaction, holding a pointer to the payload,
or no (or an unknown) wrapper. -/
inductive PbTxData where
  | Genesis (d : Option PbGenesis)
  | Payment (d : Option PbPayment)
  | Issue (d : Option PbIssue)
  | Transfer (d : Option PbTransferData)
  | Reissue (d : Option PbReissue)
  | Burn (d : Option PbBurn)
  | Exchange (d : Option PbExchange)
  | Lease (d : Option PbLease)
  | LeaseCancel (d : Option PbLeaseCancel)
  | CreateAlias (d : Option PbCreateAlias)
  | MassTransfer (d : Option PbMassTransfer)
  | DataTransaction (d : Option PbData)
  | SetScript (d : Option PbSetScript)
  | SponsorFee (d : Option PbSponsorFee)
  | SetAssetScript (d : Option PbSetAssetScript)
  | InvokeScript (d : Option PbInvokeScript)
  | unset

/-- The message `g.Transaction`. -/
structure PbTransaction where
  ChainId : Int
  SenderPublicKey : List Nat
  Fee : Option PbAmount
  Timestamp : Int
  Version : Int
  Data : PbTxData

/-- The message `g.SignedTransaction`. -/
structure PbSignedTransaction where
  Transaction : Option PbTransaction
  Proofs : List (List Nat)

/-- The message `g.InvokeScriptResult_Payment`. -/
structure PbResultPayment where
  Address : List Nat
  Amount : Option PbAmount

/-- The concrete types implementing the interface `proto.Transaction`: the 24
types built by `ProtobufConverter.Transaction`, and `other` for any further
implementation. -/
inductive TxType where
  | Genesis
  | Payment
  | IssueV1
  | IssueV2
  | TransferV1
  | TransferV2
  | ReissueV1
  | ReissueV2
  | BurnV1
  | BurnV2
  | ExchangeV1
  | ExchangeV2
  | LeaseV1
  | LeaseV2
  | LeaseCancelV1
  | LeaseCancelV2
  | CreateAliasV1
  | CreateAliasV2
  | MassTransferV1
  | DataV1
  | SetScriptV1
  | SponsorshipV1
  | SetAssetScriptV1
  | InvokeScriptV1
  | other (id : Nat)
deriving DecidableEq, Repr

/-- The concrete types implementing the interface `proto.Order`. -/
inductive OrderType where
  | OrderV1
  | OrderV2
  | OrderV3
deriving DecidableEq, Repr

/-- A non-nil value of the interface `proto.Order` as far as the converter
looks at it: its dynamic type and what its method `GetVersion` returns. -/
structure OrderValue where
  type : OrderType
  version : Nat
deriving DecidableEq, Repr

/-- The struct `proto.OptionalAsset`. -/
structure OptionalAsset where
  Present : Bool
  ID : List Nat
deriving DecidableEq, Repr

/-- The zero value `crypto.Digest{}` (32 zero bytes). -/
def zeroDigest : List Nat := List.replicate 32 0

/-- The zero value `OptionalAsset{}`. -/
def OptionalAsset.zero : OptionalAsset := { Present := false, ID := zeroDigest }

/-- The struct `proto.TransferScriptAction`; `Recipient` holds the rebuilt
address. -/
structure TransferScriptAction where
  Recipient : List Nat
  Amount : Int
  Asset : OptionalAsset
deriving DecidableEq, Repr

/-- The functions and methods of this repository that the converter calls and
that are not among the sources, as parameters: each returns its value or an
error (`Option Error` for a method that only reports an error). -/
structure Externals where
  RebuildAddress : Nat → List Nat → Except Error (List Nat)
  NewDigestFromBytes : List Nat → Except Error (List Nat)
  NewPublicKeyFromBytes : List Nat → Except Error (List Nat)
  NewSignatureFromBytes : List Nat → Except Error (List Nat)
  aliasValid : Nat → List Nat → Option Error
  functionCallUnmarshal : List Nat → Option Error
  orderGenerateID : PbOrder → OrderType → Option Error
  orderGetVersion : PbOrder → OrderType → Nat
  GenerateID : PbTransaction → TxType → Option Error

/-- The struct `ProtobufConverter`.  The field `recorded` is a history
variable that is not in the code: it is set whenever an error is assigned to
`err` and never cleared, so that "an error was recorded during the conversion"
can be stated after `reset`. -/
structure Converter where
  err : Option Error
  recorded : Bool
deriving DecidableEq, Repr

/-- A method of the converter: from the converter before the call to its
result and the converter after the call, or to a panic. -/
def Conv (α : Type) : Type := Converter → Outcome (α × Converter)

instance : Monad Conv where
  pure a := fun c => .done (a, c)
  bind m f := fun c =>
    match m c with
    | .done (a, c1) => f a c1
    | .panic kind => .panic kind

namespace ProtobufConverter

/-- Read the field `c.err`. -/
def getErr : Conv (Option Error) := fun c => .done (c.err, c)

/-- The assignment `c.err = err` of a non-nil error. -/
def setErr (err : Error) : Conv Unit := fun _ => .done ((), { err := some err, recorded := true })

/-- A run-time panic. -/
def crash {α : Type} (kind : PanicKind) : Conv α := fun _ => .panic kind

/-- Dereferencing a pointer: a nil pointer panics. -/
def deref {α : Type} (p : Option α) : Conv α :=
  match p with
  | some a => pure a
  | none => crash .nilDereference

/-- The statement `if err != nil { c.err = err }` for the error `e` returned by
a call. -/
def recordIf (e : Option Error) : Conv Unit :=
  match e with
  | some err => setErr err
  | none => pure ()

/-- The method `reset` (lines 522-524). -/
def reset : Conv Unit := fun c => .done ((), { c with err := none })

/-- The method `Address` (lines 65-71). -/
def Address (env : Externals) (scheme : Nat) (addr : List Nat) : Conv (Except Error (List Nat)) :=
  pure (env.RebuildAddress scheme addr)

/-- The method `uint64` (lines 73-82). -/
def uint64 (value : Int) : Conv Nat := do
  if (← getErr) ≠ none then pure 0
  else if value < 0 then do
    setErr (.other 1)
    pure 0
  else pure value.toNat

/-- The method `byte` (lines 84-92); `byte(value)` keeps the low 8 bits. -/
def byte (value : Int) : Conv Nat := do
  if (← getErr) ≠ none then pure 0
  else if value < 0 ∨ value > 0xff then do
    setErr (.other 2)
    pure (value % 256).toNat
  else pure (value % 256).toNat

/-- The method `digest` (lines 94-104). -/
def digest (env : Externals) (d : List Nat) : Conv (List Nat) := do
  if (← getErr) ≠ none then pure zeroDigest
  else
    match env.NewDigestFromBytes d with
    | .error err => do
      setErr err
      pure zeroDigest
    | .ok r => pure r

/-- The method `optionalAsset` (lines 106-114). -/
def optionalAsset (env : Externals) (asset : List Nat) : Conv OptionalAsset := do
  if (← getErr) ≠ none then pure OptionalAsset.zero
  else if asset.length = 0 then pure OptionalAsset.zero
  else do
    let id ← digest env asset
    pure { Present := true, ID := id }

/-- The method `extractOptionalAsset` (lines 139-148). -/
def extractOptionalAsset (env : Externals) (amount : Option PbAmount) : Conv OptionalAsset := do
  if (← getErr) ≠ none then pure OptionalAsset.zero
  else
    match amount with
    | none => do
      setErr (.other 3)
      pure OptionalAsset.zero
    | some a => optionalAsset env a.AssetId

/-- The method `amount` (lines 150-163). -/
def amount (amount : Option PbAmount) : Conv Nat := do
  if (← getErr) ≠ none then pure 0
  else
    match amount with
    | none => do
      setErr (.other 3)
      pure 0
    | some a =>
      if a.Amount < 0 then do
        setErr (.other 4)
        pure 0
      else pure a.Amount.toNat

/-- The method `convertAmount` (lines 116-121). -/
def convertAmount (env : Externals) (a : Option PbAmount) : Conv (OptionalAsset × Nat) := do
  if (← getErr) ≠ none then pure (OptionalAsset.zero, 0)
  else do
    let asset ← extractOptionalAsset env a
    let value ← amount a
    pure (asset, value)

/-- The method `convertAssetAmount` (lines 123-137). -/
def convertAssetAmount (env : Externals) (aa : Option PbAmount) : Conv (List Nat × Nat) := do
  if (← getErr) ≠ none then pure (zeroDigest, 0)
  else
    match aa with
    | none => do
      setErr (.other 3)
      pure (zeroDigest, 0)
    | some a =>
      match env.NewDigestFromBytes a.AssetId with
      | .error err => do
        setErr err
        pure (zeroDigest, 0)
      | .ok id => do
        let value ← uint64 a.Amount
        pure (id, value)

/-- The method `publicKey` (lines 165-175). -/
def publicKey (env : Externals) (pk : List Nat) : Conv (List Nat) := do
  if (← getErr) ≠ none then pure (List.replicate 32 0)
  else
    match env.NewPublicKeyFromBytes pk with
    | .error err => do
      setErr err
      pure (List.replicate 32 0)
    | .ok r => pure r

/-- The method `string` (lines 177-182). -/
def string (bytes : List Nat) : Conv (List Nat) := do
  if (← getErr) ≠ none then pure []
  else pure bytes

/-- The method `script` (lines 184-194). -/
def script (s : Option PbScript) : Conv (Option (List Nat)) := do
  if (← getErr) ≠ none then pure none
  else
    match s with
    | none => pure none
    | some sc => pure (some sc.Bytes)

/-- The method `alias` (lines 196-207), named `alias_` here because `alias` is
a keyword; the alias built is not represented. -/
def alias_ (env : Externals) (scheme : Nat) (a : List Nat) : Conv Unit := do
  if (← getErr) ≠ none then pure ()
  else
    match env.aliasValid scheme a with
    | some err => setErr err
    | none => pure ()

/-- The method `Recipient` (lines 209-225); of the recipient built only the
rebuilt address is represented. -/
def Recipient (env : Externals) (scheme : Nat) (recipient : Option PbRecipient) :
    Conv (Except Error (Option (List Nat))) :=
  match recipient with
  | none => pure (.error (.other 5))
  | some (.Address address) => do
    match ← Address env scheme address with
    | .error err => pure (.error err)
    | .ok addr => pure (.ok (some addr))
  | some (.Alias a) => do
    alias_ env scheme a
    pure (.ok none)
  | some .unset => pure (.error (.other 6))

/-- The method `assetPair` (lines 227-235): the field accesses
`pair.AmountAssetId` and `pair.PriceAssetId` dereference `pair`. -/
def assetPair (env : Externals) (pair : Option PbAssetPair) :
    Conv (OptionalAsset × OptionalAsset) := do
  if (← getErr) ≠ none then pure (OptionalAsset.zero, OptionalAsset.zero)
  else do
    let p ← deref pair
    let amountAsset ← optionalAsset env p.AmountAssetId
    let priceAsset ← optionalAsset env p.PriceAssetId
    pure (amountAsset, priceAsset)

/-- The method `orderType` (lines 237-239). -/
def orderType (side : Int) : Conv Nat :=
  byte side

/-- The method `proofs` (lines 241-250): nil, or the proofs copied. -/
def proofs (ps : List (List Nat)) : Conv (Option (List (List Nat))) := do
  if (← getErr) ≠ none then pure none
  else pure (some ps)

/-- The method `proof` (lines 252-266). -/
def proof (env : Externals) (ps : List (List Nat)) : Conv (Option (List Nat)) := do
  if (← getErr) ≠ none then pure none
  else
    match ps with
    | [] => do
      setErr (.other 7)
      pure none
    | p :: _ =>
      match env.NewSignatureFromBytes p with
      | .error err => do
        setErr err
        pure none
      | .ok sig => pure (some sig)

/-- The version switch of `extractOrder` (lines 298-317): the helpers called
for the order of each version and the dynamic type of the order built. -/
def orderByVersion (env : Externals) (o : PbOrder) : Conv OrderType :=
  if o.Version = 3 then do
    let _ ← byte o.Version
    let _ ← proofs o.Proofs
    let _ ← extractOptionalAsset env o.MatcherFee
    pure OrderType.OrderV3
  else if o.Version = 2 then do
    let _ ← byte o.Version
    let _ ← proofs o.Proofs
    pure OrderType.OrderV2
  else do
    let _ ← proof env o.Proofs
    pure OrderType.OrderV1

/-- The body of the loop of `extractOrder` for an order of the requested side
(lines 286-321): the order built, never nil. -/
def buildOrder (env : Externals) (o : PbOrder) : Conv OrderValue := do
  let _ ← publicKey env o.SenderPublicKey
  let _ ← publicKey env o.MatcherPublicKey
  let _ ← assetPair env o.AssetPair
  let _ ← orderType o.OrderSide
  let _ ← uint64 o.Price
  let _ ← uint64 o.Amount
  let _ ← uint64 o.Timestamp
  let _ ← uint64 o.Expiration
  let _ ← amount o.MatcherFee
  let type ← orderByVersion env o
  recordIf (env.orderGenerateID o type)
  pure { type := type, version := env.orderGetVersion o type }

/-- The loop of `extractOrder` (lines 284-325) over the orders not yet
visited. -/
def extractOrderLoop (env : Externals) (side : Int) : List (Option PbOrder) → Conv (Option OrderValue)
  | [] => do
    setErr (.other 8)
    pure none
  | p :: rest => do
    let o ← deref p
    if o.OrderSide = side then do
      let order ← buildOrder env o
      pure (some order)
    else extractOrderLoop env side rest

/-- The method `extractOrder` (lines 280-326): nil, or the order built from
the first order of the requested side. -/
def extractOrder (env : Externals) (orders : List (Option PbOrder)) (side : Int) :
    Conv (Option OrderValue) := do
  if (← getErr) ≠ none then pure none
  else extractOrderLoop env side orders

/-- The method `buyOrder` (lines 328-330). -/
def buyOrder (env : Externals) (orders : List (Option PbOrder)) : Conv (Option OrderValue) :=
  extractOrder env orders Order_BUY

/-- The method `sellOrder` (lines 332-334). -/
def sellOrder (env : Externals) (orders : List (Option PbOrder)) : Conv (Option OrderValue) :=
  extractOrder env orders Order_SELL

/-- The loop of `transfers` (lines 341-359): `true` if every transfer was
converted, `false` if the method returned nil from inside the loop. -/
def transfersLoop (env : Externals) (scheme : Nat) : List (Option PbTransfer) → Conv Bool
  | [] => pure true
  | p :: rest =>
    match p with
    | none => do
      setErr (.other 9)
      pure false
    | some tr => do
      match ← Recipient env scheme tr.Address with
      | .error err => do
        setErr err
        pure false
      | .ok _ => do
        let _ ← uint64 tr.Amount
        if (← getErr) ≠ none then pure false
        else transfersLoop env scheme rest

/-- The method `transfers` (lines 336-361); the entries built are not
represented. -/
def transfers (env : Externals) (scheme : Nat) (ts : List (Option PbTransfer)) : Conv Bool := do
  if (← getErr) ≠ none then pure false
  else transfersLoop env scheme ts

/-- The method `entry` (lines 363-385); the entry built is not represented. -/
def entry (e : Option PbDataEntry) : Conv Unit := do
  if (← getErr) ≠ none then pure ()
  else
    match e with
    | none => setErr (.other 10)
    | some _ => pure ()

/-- The loop of `entries` (lines 402-404). -/
def entriesLoop : List (Option PbDataEntry) → Conv Unit
  | [] => pure ()
  | e :: rest => do
    entry e
    entriesLoop rest

/-- The method `entries` (lines 397-406). -/
def entries (es : List (Option PbDataEntry)) : Conv Unit := do
  if (← getErr) ≠ none then pure ()
  else entriesLoop es

/-- The bytes handed to the decoder by `functionCall` (lines 414-421), or the
panic of an index expression out of range: `data[0]` needs one byte, and
`data[3]`, evaluated only when `data[0] == 1`, needs four. -/
def functionCallBytes (data : List Nat) : Outcome (List Nat) :=
  match data with
  | [] => .panic .indexOutOfRange
  | d0 :: _ =>
    if d0 = 1 then
      if data.length < 4 then .panic .indexOutOfRange
      else if data.getD 3 0 = 9 then
        .done (writeAt (List.replicate (data.length - 2) 0 |>.set 0 d0) 1 (data.drop 3))
      else .done data
    else .done data

/-- The method `functionCall` (lines 408-430): the bytes handed to
`FunctionCall.UnmarshalBinary` when the decoder is reached; the call decoded
is not represented. -/
def functionCall (env : Externals) (data : List Nat) : Conv (Option (List Nat)) := do
  if (← getErr) ≠ none then pure none
  else
    match functionCallBytes data with
    | .panic kind => crash kind
    | .done d =>
      match env.functionCallUnmarshal d with
      | some err => do
        setErr err
        pure (some d)
      | none => pure (some d)

/-- The loop of `payments` (lines 437-440). -/
def paymentsLoop (env : Externals) : List (Option PbAmount) → Conv Unit
  | [] => pure ()
  | p :: rest => do
    let _ ← convertAmount env p
    paymentsLoop env rest

/-- The method `payments` (lines 432-442). -/
def payments (env : Externals) (ps : Option (List (Option PbAmount))) : Conv Unit :=
  match ps with
  | none => pure ()
  | some l => paymentsLoop env l

/-- The loop of `TransferScriptActions` (lines 449-460) over the payments not
yet visited; `res` holds the actions built so far.  The elements of
`payments` are pointers. -/
def transferScriptActionsLoop (env : Externals) (scheme : Nat) :
    List (Option PbResultPayment) → List TransferScriptAction →
      Conv (Option (List TransferScriptAction) × Option Error)
  | [], res => pure (some res, none)
  | p :: rest, res => do
    let pm ← deref p
    let (asset, value) ← convertAmount env pm.Amount
    match ← Address env scheme pm.Address with
    | .error _ => do
      let e ← getErr
      pure (none, e)
    | .ok addr =>
      transferScriptActionsLoop env scheme rest
        (res ++ [{ Recipient := addr, Amount := Int.ofNat value, Asset := asset }])

/-- The method `TransferScriptActions` (lines 444-462): the pair
`(result, error)` it returns. -/
def TransferScriptActions (env : Externals) (scheme : Nat)
    (payments : List (Option PbResultPayment)) :
    Conv (Option (List TransferScriptAction) × Option Error) := do
  let e ← getErr
  if e ≠ none then pure (none, e)
  else transferScriptActionsLoop env scheme payments []

/-- The version switch `switch tx.Version { case 2: ... default: ... }`. -/
def byVersion (version : Int) (v2 v1 : TxType) : TxType :=
  if version = 2 then v2 else v1

/-- The type switch of `Transaction` (lines 531-876): either a value returned
from inside the switch (`.inl`) or the dynamic type of `rtx` (`.inr`). -/
def transactionData (env : Externals) (tx : PbTransaction) (scheme : Nat) :
    Conv (Except Error TxType ⊕ TxType) :=
  match tx.Data with
  | .Genesis p => do
    let d ← deref p
    match ← Address env scheme d.RecipientAddress with
    | .error err => do
      reset
      pure (.inl (.error err))
    | .ok _ => pure (.inr .Genesis)
  | .Payment p => do
    let d ← deref p
    match ← Address env scheme d.RecipientAddress with
    | .error err => do
      reset
      pure (.inl (.error err))
    | .ok _ => do
      let _ ← publicKey env tx.SenderPublicKey
      let _ ← uint64 d.Amount
      let _ ← amount tx.Fee
      pure (.inr .Payment)
  | .Issue p => do
    let _ ← publicKey env tx.SenderPublicKey
    let d ← deref p
    let _ ← string d.Name
    let _ ← string d.Description
    let _ ← uint64 d.Amount
    let _ ← byte d.Decimals
    let _ ← amount tx.Fee
    if tx.Version = 2 then do
      let _ ← script d.Script
      pure (.inr .IssueV2)
    else pure (.inr .IssueV1)
  | .Transfer p => do
    let d ← deref p
    let _ ← convertAmount env d.Amount
    let _ ← convertAmount env tx.Fee
    match ← Recipient env scheme d.Recipient with
    | .error err => do
      reset
      pure (.inl (.error err))
    | .ok _ => do
      let _ ← publicKey env tx.SenderPublicKey
      let _ ← string d.Attachment
      pure (.inr (byVersion tx.Version .TransferV2 .TransferV1))
  | .Reissue p => do
    let d ← deref p
    let _ ← convertAssetAmount env d.AssetAmount
    let _ ← publicKey env tx.SenderPublicKey
    let _ ← amount tx.Fee
    pure (.inr (byVersion tx.Version .ReissueV2 .ReissueV1))
  | .Burn p => do
    let d ← deref p
    let _ ← convertAssetAmount env d.AssetAmount
    let _ ← publicKey env tx.SenderPublicKey
    let _ ← amount tx.Fee
    pure (.inr (byVersion tx.Version .BurnV2 .BurnV1))
  | .Exchange p => do
    let _ ← amount tx.Fee
    let d ← deref p
    let bo ← buyOrder env d.Orders
    let so ← sellOrder env d.Orders
    if tx.Version = 2 then do
      let _ ← publicKey env tx.SenderPublicKey
      let _ ← uint64 d.Price
      let _ ← uint64 d.Amount
      let _ ← uint64 d.BuyMatcherFee
      let _ ← uint64 d.SellMatcherFee
      pure (.inr .ExchangeV2)
    else do
      let b ← deref bo
      if b.version ≠ 1 then do
        reset
        pure (.inl (.error (.other 11)))
      else do
        let s ← deref so
        if s.version ≠ 1 then do
          reset
          pure (.inl (.error (.other 11)))
        else if b.type ≠ .OrderV1 then do
          reset
          pure (.inl (.error (.other 12)))
        else if s.type ≠ .OrderV1 then do
          reset
          pure (.inl (.error (.other 12)))
        else do
          let _ ← publicKey env tx.SenderPublicKey
          let _ ← uint64 d.Price
          let _ ← uint64 d.Amount
          let _ ← uint64 d.BuyMatcherFee
          let _ ← uint64 d.SellMatcherFee
          pure (.inr .ExchangeV1)
  | .Lease p => do
    let d ← deref p
    match ← Recipient env scheme d.Recipient with
    | .error err => do
      reset
      pure (.inl (.error err))
    | .ok _ => do
      let _ ← publicKey env tx.SenderPublicKey
      let _ ← uint64 d.Amount
      let _ ← amount tx.Fee
      pure (.inr (byVersion tx.Version .LeaseV2 .LeaseV1))
  | .LeaseCancel p => do
    let _ ← publicKey env tx.SenderPublicKey
    let d ← deref p
    let _ ← digest env d.LeaseId
    let _ ← amount tx.Fee
    pure (.inr (byVersion tx.Version .LeaseCancelV2 .LeaseCancelV1))
  | .CreateAlias p => do
    let _ ← publicKey env tx.SenderPublicKey
    let d ← deref p
    alias_ env scheme d.Alias
    let _ ← amount tx.Fee
    pure (.inr (byVersion tx.Version .CreateAliasV2 .CreateAliasV1))
  | .MassTransfer p => do
    let _ ← publicKey env tx.SenderPublicKey
    let d ← deref p
    let _ ← optionalAsset env d.AssetId
    let _ ← transfers env scheme d.Transfers
    let _ ← amount tx.Fee
    let _ ← string d.Attachment
    pure (.inr .MassTransferV1)
  | .DataTransaction p => do
    let _ ← publicKey env tx.SenderPublicKey
    let d ← deref p
    entries d.Data
    let _ ← amount tx.Fee
    pure (.inr .DataV1)
  | .SetScript p => do
    let _ ← publicKey env tx.SenderPublicKey
    let d ← deref p
    let _ ← script d.Script
    let _ ← amount tx.Fee
    pure (.inr .SetScriptV1)
  | .SponsorFee p => do
    let d ← deref p
    let _ ← convertAssetAmount env d.MinFee
    let _ ← publicKey env tx.SenderPublicKey
    let _ ← amount tx.Fee
    pure (.inr .SponsorshipV1)
  | .SetAssetScript p => do
    let _ ← publicKey env tx.SenderPublicKey
    let d ← deref p
    let _ ← digest env d.AssetId
    let _ ← script d.Script
    let _ ← amount tx.Fee
    pure (.inr .SetAssetScriptV1)
  | .InvokeScript p => do
    let d ← deref p
    match ← Recipient env scheme d.DApp with
    | .error err => do
      reset
      pure (.inl (.error err))
    | .ok _ => do
      let _ ← convertAmount env tx.Fee
      let _ ← publicKey env tx.SenderPublicKey
      let _ ← functionCall env d.FunctionCall
      payments env d.Payments
      pure (.inr .InvokeScriptV1)
  | .unset => do
    reset
    pure (.inl (.error (.other 13)))

/-- The method `Transaction` (lines 526-886) for a non-nil `tx`. -/
def Transaction (env : Externals) (tx : PbTransaction) : Conv (Except Error TxType) := do
  let _ ← uint64 tx.Timestamp
  let scheme ← byte tx.ChainId
  let _ ← byte tx.Version
  match ← transactionData env tx scheme with
  | .inl ret => pure ret
  | .inr rtx => do
    match ← getErr with
    | some err => do
      reset
      pure (.error err)
    | none =>
      match env.GenerateID tx rtx with
      | some _ => pure (.error (.other 14))
      | none => pure (.ok rtx)

/-- The method `extractFirstSignature` (lines 888-902); `proofs` is a
pointer, dereferenced by `proofs.Proofs` once `c.err` is known to be nil. -/
def extractFirstSignature (env : Externals) (proofs : Option (List (List Nat))) :
    Conv (Option (List Nat)) := do
  if (← getErr) ≠ none then pure none
  else do
    let ps ← deref proofs
    match ps with
    | [] => do
      setErr (.other 15)
      pure none
    | p :: _ =>
      match env.NewSignatureFromBytes p with
      | .error err => do
        setErr err
        pure none
      | .ok s => pure (some s)

/-- The cases of the type switch of `SignedTransaction` (lines 916-1011) that
take the signature from the first proof. -/
def signedWithSignature : TxType → Bool
  | .Genesis => true
  | .Payment => true
  | .IssueV1 => true
  | .TransferV1 => true
  | .ReissueV1 => true
  | .BurnV1 => true
  | .ExchangeV1 => true
  | .LeaseV1 => true
  | .LeaseCancelV1 => true
  | .CreateAliasV1 => true
  | _ => false

/-- The cases of the type switch of `SignedTransaction` that store the
proofs. -/
def signedWithProofs : TxType → Bool
  | .IssueV2 => true
  | .TransferV2 => true
  | .ReissueV2 => true
  | .BurnV2 => true
  | .ExchangeV2 => true
  | .LeaseV2 => true
  | .LeaseCancelV2 => true
  | .CreateAliasV2 => true
  | .MassTransferV1 => true
  | .DataV1 => true
  | .SetScriptV1 => true
  | .SponsorshipV1 => true
  | .SetAssetScriptV1 => true
  | .InvokeScriptV1 => true
  | _ => false

/-- The type switch of `SignedTransaction` (lines 915-1014): the pair
`(transaction, error)` returned, or the panic of the default branch. -/
def signedSwitch (env : Externals) (proofs : Option (List (List Nat))) (t : TxType) :
    Conv (Option TxType × Option Error) :=
  if signedWithSignature t = true then do
    let _ ← extractFirstSignature env proofs
    let err ← getErr
    reset
    pure (some t, err)
  else if signedWithProofs t = true then pure (some t, none)
  else crash .unsupportedTransaction

/-- The method `SignedTransaction` (lines 904-1015) for a non-nil `stx`. -/
def SignedTransaction (env : Externals) (stx : PbSignedTransaction) :
    Conv (Option TxType × Option Error) := do
  let tx ← deref stx.Transaction
  match ← Transaction env tx with
  | .error err => pure (none, some err)
  | .ok t => do
    let proofs ← proofs stx.Proofs
    match ← getErr with
    | some err => do
      reset
      pure (none, some err)
    | none => signedSwitch env proofs t

end ProtobufConverter

/-- Modelled from the spec: reference implementations of the external
functions, accepting values by their size only (section 6: "64-byte
signatures, 32-byte public keys, 20-byte address hashes, 4-byte checksums";
digests have 32 bytes).  The checksum of a rebuilt address is left at zero and
every well-sized value gets an ID; they are used to run the converter on
concrete inputs. -/
def sizeExternals : Externals where
  RebuildAddress := fun scheme body =>
    if body.length = 20 then .ok ([1, scheme] ++ body ++ [0, 0, 0, 0]) else .error (.other 30)
  NewDigestFromBytes := fun b => if b.length = 32 then .ok b else .error (.other 31)
  NewPublicKeyFromBytes := fun b => if b.length = 32 then .ok b else .error (.other 32)
  NewSignatureFromBytes := fun b => if b.length = 64 then .ok b else .error (.other 33)
  aliasValid := fun _ a => if 4 ≤ a.length ∧ a.length ≤ 30 then none else some (.other 34)
  functionCallUnmarshal := fun d => if d.length = 0 then some (.other 35) else none
  orderGenerateID := fun _ _ => none
  orderGetVersion := fun o t =>
    match t with
    | .OrderV1 => 1
    | _ => (o.Version % 256).toNat
  GenerateID := fun _ _ => none

/-- A converter that has not recorded any error. -/
def freshConverter : Converter := { err := none, recorded := false }

/-- An Exchange transaction of version 1 without any order. -/
def exchangeWithoutOrders : PbTransaction :=
  { ChainId := 84, SenderPublicKey := List.replicate 32 1,
    Fee := some { AssetId := [], Amount := 300000 }, Timestamp := 1000, Version := 1,
    Data := .Exchange (some { Amount := 1, Price := 1, BuyMatcherFee := 1, SellMatcherFee := 1,
                              Orders := [] }) }

/-- A Transfer transaction of version 2 with a negative amount. -/
def transferNegative : PbTransaction :=
  { ChainId := 84, SenderPublicKey := List.replicate 32 1,
    Fee := some { AssetId := [], Amount := 100000 }, Timestamp := 1000, Version := 2,
    Data := .Transfer (some { Recipient := some (.Address (List.replicate 20 7)),
                              Amount := some { AssetId := [], Amount := -5 },
                              Attachment := [] }) }

/-- A well-formed Transfer transaction of version 2. -/
def transferGood : PbTransaction :=
  { ChainId := 84, SenderPublicKey := List.replicate 32 1,
    Fee := some { AssetId := [], Amount := 100000 }, Timestamp := 1000, Version := 2,
    Data := .Transfer (some { Recipient := some (.Address (List.replicate 20 7)),
                              Amount := some { AssetId := [], Amount := 5 },
                              Attachment := [] }) }


/-- An order of version 1 of the given side. -/
def orderV1 (side : Int) : PbOrder :=
  { OrderSide := side, SenderPublicKey := List.replicate 32 2,
    MatcherPublicKey := List.replicate 32 3,
    AssetPair := some { AmountAssetId := [], PriceAssetId := List.replicate 32 4 },
    Price := 10, Amount := 20, Timestamp := 1000, Expiration := 2000,
    MatcherFee := some { AssetId := [], Amount := 300000 }, Version := 1,
    Proofs := [List.replicate 64 5] }

/-- An Exchange transaction of version 1 with a BUY and a SELL order and a
negative timestamp. -/
def exchangeNegativeTimestamp : PbTransaction :=
  { ChainId := 84, SenderPublicKey := List.replicate 32 1,
    Fee := some { AssetId := [], Amount := 300000 }, Timestamp := -1, Version := 1,
    Data := .Exchange (some { Amount := 1, Price := 1, BuyMatcherFee := 1, SellMatcherFee := 1,
                              Orders := [some (orderV1 Order_BUY), some (orderV1 Order_SELL)] }) }

/-- The same Exchange transaction with a valid timestamp. -/
def exchangeGood : PbTransaction :=
  { exchangeNegativeTimestamp with Timestamp := 1000 }

namespace ProtobufConverter

/-- The postcondition `Q` holds whenever the method returns from converter
`c`, and a panic, if any, is not the "unsupported transaction" one. -/
def post {α : Type} (m : Conv α) (c : Converter) (Q : α → Converter → Prop) : Prop :=
  match m c with
  | .done (a, c1) => Q a c1
  | .panic kind => kind ≠ .unsupportedTransaction

/-- What a helper may do to the converter: leave it as it is, or leave it with
an error recorded. -/
def Step (c c1 : Converter) : Prop :=
  c1 = c ∨ (c1.err ≠ none ∧ c1.recorded = true)

/-- A method that, when it returns, has left the converter as it was or with
an error recorded (it never clears `err`). -/
def Sticky {α : Type} (m : Conv α) : Prop :=
  ∀ c, post m c (fun _ c1 => Step c c1)

/-- The transaction type has a case in the type switch of
`SignedTransaction`. -/
def handled (t : TxType) : Prop :=
  signedWithSignature t = true ∨ signedWithProofs t = true

/-- What the type switch of `Transaction` guarantees, relative to the
converter `c0` at the start of the conversion: a value returned from inside the
switch is an error and `err` has been reset; otherwise `err` was never cleared
and `rtx` has a type handled by `SignedTransaction`. -/
def switchSpec (c0 : Converter) (r : Except Error TxType ⊕ TxType) (c1 : Converter) : Prop :=
  match r with
  | .inl ret => c1.err = none ∧ ∃ e, ret = .error e
  | .inr rtx => Step c0 c1 ∧ handled rtx

/-- The rest `k` of the type switch meets `switchSpec` from every converter
reached from `c0` without clearing `err`. -/
def Good (c0 : Converter) (k : Conv (Except Error TxType ⊕ TxType)) : Prop :=
  ∀ c, Step c0 c → post k c (switchSpec c0)

end ProtobufConverter

/-! ## Peers and handshake messages (`pkg/proto/proto.go`) -/

/-- The constant `ContentIDPeers`. -/
def ContentIDPeers : Nat := 0x2

/-- The two bytes written by `binary.BigEndian.PutUint16`: `byte(v >> 8)`,
`byte(v)`. -/
def putUint16 (v : Nat) : List Nat :=
  [v / 2 ^ 8 % 256, v % 256]

/-- The function `binary.BigEndian.Uint16` on a slice of (at least) two bytes:
`b[1] | b[0]<<8`. -/
def uint16 (b : List Nat) : Nat :=
  b.getD 1 0 + b.getD 0 0 * 2 ^ 8

/-- The eight bytes written by `binary.BigEndian.PutUint64`. -/
def putUint64 (v : Nat) : List Nat :=
  [v / 2 ^ 56 % 256, v / 2 ^ 48 % 256, v / 2 ^ 40 % 256, v / 2 ^ 32 % 256,
    v / 2 ^ 24 % 256, v / 2 ^ 16 % 256, v / 2 ^ 8 % 256, v % 256]

/-- The builtin `copy(dst, src)`: the content of `dst` afterwards, that is the
first `min(len(dst), len(src))` bytes of `src` followed by the rest of `dst`. -/
def copy (dst src : List Nat) : List Nat :=
  src.take dst.length ++ dst.drop src.length

/-- The 12-byte prefix `net.v4InV6Prefix` of an IPv4 address in its 16-byte
form. -/
def v4InV6Prefix : List Nat := [0, 0, 0, 0, 0, 0, 0, 0, 0, 0, 0xff, 0xff]

/-- The function `net.IPv4` of the standard library: the 16-byte form of the
address `a.b.c.d`. -/
def IPv4 (a b c d : Nat) : List Nat := v4InV6Prefix ++ [a, b, c, d]

/-- The method `net.IP.To4` of the standard library: the 4-byte form of an
IPv4 address, and nil (the empty list) for any other value. -/
def To4 (ip : List Nat) : List Nat :=
  if ip.length = 4 then ip
  else if ip.length = 16 ∧ ip.take 12 = v4InV6Prefix then ip.drop 12
  else []

/-- The struct `proto.PeerInfo`; `addr` is a `net.IP` (a byte slice) and `port`
a `uint16`. -/
structure PeerInfo where
  addr : List Nat
  port : Nat
deriving DecidableEq, Repr

/-- The method `PeerInfo.MarshalBinary` (lines 340-347). -/
def PeerInfo.MarshalBinary (m : PeerInfo) : Except Error (List Nat) :=
  let buffer := List.replicate 6 0
  let buffer := writeAt buffer 0 (copy (slice buffer 0 4) (To4 m.addr))
  let buffer := writeAt buffer 4 (putUint16 m.port)
  .ok buffer

/-- The method `PeerInfo.UnmarshalBinary` (lines 349-358) with receiver `m`:
the receiver afterwards and the error returned. -/
def PeerInfo.UnmarshalBinary (m : PeerInfo) (data : List Nat) : PeerInfo × Option Error :=
  if data.length < 6 then (m, some (.other 21))
  else
    let m := { m with addr := IPv4 (data.getD 0 0) (data.getD 1 0) (data.getD 2 0)
                                (data.getD 3 0) }
    let m := { m with port := uint16 (slice data 4 6) }
    (m, none)

/-- The struct `proto.PeersMessage`, with its embedded `Header`. -/
structure PeersMessage extends Header where
  PeersCount : Nat
  Peers : List PeerInfo
deriving DecidableEq, Repr

/-- The loop of `PeersMessage.MarshalBinary` (lines 377-383) over the peers not
yet visited; `body` holds the bytes appended so far. -/
def marshalPeers : List PeerInfo → List Nat → Except Error (List Nat)
  | [], body => .ok body
  | k :: rest, body =>
    match k.MarshalBinary with
    | .error err => .error err
    | .ok peer => marshalPeers rest (body ++ peer)

/-- The method `PeersMessage.MarshalBinary` (lines 366-387): the receiver
afterwards (its `ContentID` is assigned) and the values returned. -/
def PeersMessage.MarshalBinary (m : PeersMessage) : PeersMessage × Except Error (List Nat) :=
  let m := { m with ContentID := ContentIDPeers }
  match m.toHeader.MarshalBinary with
  | .error err => (m, .error err)
  | .ok header =>
    let body := List.replicate 4 0
    let body := writeAt body 0 (putUint32 m.PeersCount)
    match marshalPeers m.Peers body with
    | .error err => (m, .error err)
    | .ok body => (m, .ok (header ++ body))

/-- The loop `for i := uint32(0); i < m.Header.PayloadLength; i += 6` of
`PeersMessage.UnmarshalBinary` (lines 394-400) from the value `i` of the loop
variable on; `i+6` is computed in 32 bits.  The first argument bounds the
number of iterations still to run: `i` grows by 6 in every iteration that is
completed, so `PayloadLength - i` iterations always suffice. -/
def peersLoop (data : List Nat) : Nat → Nat → PeersMessage → Outcome (PeersMessage × Option Error)
  | 0, _, m => .done (m, none)
  | fuel + 1, i, m =>
    if i < m.PayloadLength then
      let hi := (i + 6) % 2 ^ 32
      if hi < i ∨ data.length < hi then .panic .sliceBounds
      else
        match PeerInfo.UnmarshalBinary { addr := [], port := 0 } (slice data i hi) with
        | (_, some err) => .done (m, some err)
        | (peer, none) => peersLoop data fuel hi { m with Peers := m.Peers ++ [peer] }
    else .done (m, none)

/-- The method `PeersMessage.UnmarshalBinary` (lines 389-403) with receiver
`m`: the receiver afterwards and the error returned, or a panic when a slice
expression is out of range.  Here and in `peersLoop` a slice expression is
checked against the length of `data`; Go checks it against the capacity, so
the model covers inputs without spare capacity. -/
def PeersMessage.UnmarshalBinary (m : PeersMessage) (data : List Nat) :
    Outcome (PeersMessage × Option Error) :=
  if data.length < 17 then .panic .sliceBounds
  else
    match m.toHeader.UnmarshalBinary (slice data 0 17) with
    | .panic kind => .panic kind
    | .done (h, some err) => .done ({ m with toHeader := h }, some err)
    | .done (h, none) =>
      peersLoop data h.PayloadLength 0 { m with toHeader := h }

/-- The struct `proto.Handshake`; `NameLength` and `NodeNameLength` are
`uint8`, the versions and `DeclaredAddrLength` are `uint32`, `NodeNonce` and
`Timestamp` are `uint64`, the strings and the address are byte sequences. -/
structure Handshake where
  NameLength : Nat
  Name : List Nat
  VersionMajor : Nat
  VersionMinor : Nat
  VersionPatch : Nat
  NodeNameLength : Nat
  NodeName : List Nat
  NodeNonce : Nat
  DeclaredAddrLength : Nat
  DeclaredAddrBytes : List Nat
  Timestamp : Nat
deriving DecidableEq, Repr

/-- The values of the fields fit their Go types. -/
def Handshake.wellTyped (h : Handshake) : Prop :=
  h.NameLength < 2 ^ 8 ∧ h.VersionMajor < 2 ^ 32 ∧ h.VersionMinor < 2 ^ 32 ∧
    h.VersionPatch < 2 ^ 32 ∧ h.NodeNameLength < 2 ^ 8 ∧ h.NodeNonce < 2 ^ 64 ∧
    h.DeclaredAddrLength < 2 ^ 32 ∧ h.Timestamp < 2 ^ 64

instance (h : Handshake) : Decidable h.wellTyped := by
  unfold Handshake.wellTyped
  infer_instance

/-- The method `Handshake.marshalBinaryName` (lines 449-455); `h.NameLength+1`
and `1+h.NameLength` are computed in 8 bits. -/
def Handshake.marshalBinaryName (h : Handshake) : Outcome (Except Error (List Nat)) :=
  let data := List.replicate ((h.NameLength + 1) % 2 ^ 8) 0
  if data.length < 1 then .panic .indexOutOfRange
  else
    let data := data.set 0 h.NameLength
    let hi := (1 + h.NameLength) % 2 ^ 8
    if hi < 1 ∨ data.length < hi then .panic .sliceBounds
    else .done (.ok (writeAt data 1 (copy (slice data 1 hi) h.Name)))

/-- The method `Handshake.marshalBinaryVersion` (lines 457-465). -/
def Handshake.marshalBinaryVersion (h : Handshake) : Outcome (Except Error (List Nat)) :=
  let data := List.replicate 12 0
  let data := writeAt data 0 (putUint32 h.VersionMajor)
  let data := writeAt data 4 (putUint32 h.VersionMinor)
  let data := writeAt data 8 (putUint32 h.VersionPatch)
  .done (.ok data)

/-- The method `Handshake.marshalBinaryNodeName` (lines 467-474);
`h.NodeNameLength+1` and `1+h.NodeNameLength` are computed in 8 bits. -/
def Handshake.marshalBinaryNodeName (h : Handshake) : Outcome (Except Error (List Nat)) :=
  let data := List.replicate ((h.NodeNameLength + 1) % 2 ^ 8) 0
  if data.length < 1 then .panic .indexOutOfRange
  else
    let data := data.set 0 h.NodeNameLength
    let hi := (1 + h.NodeNameLength) % 2 ^ 8
    if hi < 1 ∨ data.length < hi then .panic .sliceBounds
    else .done (.ok (writeAt data 1 (copy (slice data 1 hi) h.NodeName)))

/-- The method `Handshake.marshalBinaryAddr` (lines 476-486); the sums
`20+h.DeclaredAddrLength` and `12+h.DeclaredAddrLength` are computed in 32
bits, and `PutUint64` needs a slice of at least eight bytes. -/
def Handshake.marshalBinaryAddr (h : Handshake) : Outcome (Except Error (List Nat)) :=
  let data := List.replicate ((20 + h.DeclaredAddrLength) % 2 ^ 32) 0
  if data.length < 8 then .panic .sliceBounds
  else
    let data := writeAt data 0 (putUint64 h.NodeNonce)
    if data.length < 12 then .panic .sliceBounds
    else
      let data := writeAt data 8 (putUint32 h.DeclaredAddrLength)
      let lo := (12 + h.DeclaredAddrLength) % 2 ^ 32
      if lo < 12 ∨ data.length < lo then .panic .sliceBounds
      else
        let data := writeAt data 12 (copy (slice data 12 lo) h.DeclaredAddrBytes)
        let hi := (20 + h.DeclaredAddrLength) % 2 ^ 32
        if hi < lo ∨ data.length < hi then .panic .sliceBounds
        else if hi - lo < 8 then .panic .indexOutOfRange
        else .done (.ok (writeAt data lo (putUint64 h.Timestamp)))

/-- The method `Handshake.MarshalBinary` (lines 488-510). -/
def Handshake.MarshalBinary (h : Handshake) : Outcome (Except Error (List Nat)) :=
  match h.marshalBinaryName with
  | .panic kind => .panic kind
  | .done (.error err) => .done (.error err)
  | .done (.ok data1) =>
    match h.marshalBinaryVersion with
    | .panic kind => .panic kind
    | .done (.error err) => .done (.error err)
    | .done (.ok data2) =>
      match h.marshalBinaryNodeName with
      | .panic kind => .panic kind
      | .done (.error err) => .done (.error err)
      | .done (.ok data3) =>
        match h.marshalBinaryAddr with
        | .panic kind => .panic kind
        | .done (.error err) => .done (.error err)
        | .done (.ok data4) =>
          let data1 := data1 ++ data2
          let data1 := data1 ++ data3
          let data1 := data1 ++ data4
          .done (.ok data1)

/-- A Peers message without peers, with the header fields the sender fills
in. -/
def peersEmpty : PeersMessage :=
  { Length := 8, Magic := 0x12345678, ContentID := 2, PayloadLength := 4, PayloadCsum := 0,
    PeersCount := 0, Peers := [] }

/-- A Peers message with the single peer `10.0.0.1:6868`. -/
def peersOne : PeersMessage :=
  { Length := 14, Magic := 0x12345678, ContentID := 2, PayloadLength := 10, PayloadCsum := 0,
    PeersCount := 1, Peers := [{ addr := [10, 0, 0, 1], port := 6868 }] }

/-- The zero value of `PeersMessage`, used as the receiver of a decoding. -/
def peersZero : PeersMessage :=
  { Length := 0, Magic := 0, ContentID := 0, PayloadLength := 0, PayloadCsum := 0,
    PeersCount := 0, Peers := [] }

/-- What decoding the encoding of `peersEmpty` into `peersZero` gives: one
peer, made of the first six bytes of the header. -/
def peersEmptyDecoded : PeersMessage :=
  { peersEmpty with Peers := [{ addr := IPv4 0 0 0 8, port := 0x1234 }] }

/-- What decoding the encoding of `peersOne` into `peersZero` gives: two peers
made of the first twelve bytes of the header, and the `PeersCount` of the
receiver. -/
def peersOneDecoded : PeersMessage :=
  { Length := 14, Magic := 0x12345678, ContentID := 2, PayloadLength := 10, PayloadCsum := 0,
    PeersCount := 0,
    Peers := [{ addr := IPv4 0 0 0 14, port := 0x1234 }, { addr := IPv4 0x56 0x78 2 0, port := 0 }] }

/-- A handshake with the two-byte application name `wa`, the node name `n`
and the declared address `10.0.0.1:6868` (eight bytes). -/
def handshakeSmall : Handshake :=
  { NameLength := 2, Name := [119, 97], VersionMajor := 0, VersionMinor := 13,
    VersionPatch := 1, NodeNameLength := 1, NodeName := [110], NodeNonce := 5,
    DeclaredAddrLength := 8, DeclaredAddrBytes := [10, 0, 0, 1, 0, 0, 26, 212],
    Timestamp := 1000 }

/-- A handshake whose application name has 255 bytes. -/
def handshakeLongName : Handshake :=
  { handshakeSmall with NameLength := 255, Name := List.replicate 255 97 }

/-! ## Recent blocks (`pkg/state/recent_blocks.go`)

A slice of block IDs is an `Option (List Signature)`, `none` being the nil
slice (the code tests `rb.stableIds == nil`); a map from block IDs to heights
is a function into `Option Nat`.  Heights are `uint64`, `rangeSize` is an
`int`. -/

/-- The collaborator `blockReadWriter`, which is not among the sources: the two
methods that `recentBlocks` calls, as parameters. -/
structure blockReadWriter where
  currentHeight : Except Error Nat
  blockIDByHeight : Nat → Except Error Signature

/-- The struct `recentBlocks`. -/
structure recentBlocks where
  stableHeight : Nat
  newestHeight : Nat
  rangeSize : Int
  stableIds : Option (List Signature)
  isStable : Signature → Option Nat
  newestIds : Option (List Signature)
  isNewest : Signature → Option Nat
  rw : Option blockReadWriter

/-- The elements of a slice; the nil slice has none. -/
def elems (s : Option (List Signature)) : List Signature :=
  s.getD []

/-- The builtin `append(s, xs...)`: appending nothing to the nil slice gives
the nil slice. -/
def sliceAppend (s : Option (List Signature)) (xs : List Signature) :
    Option (List Signature) :=
  match s, xs with
  | none, [] => none
  | _, _ => some (elems s ++ xs)

/-- The assignment `m[k] = v` on a map. -/
def mapSet (m : Signature → Option Nat) (k : Signature) (v : Nat) : Signature → Option Nat :=
  fun x => if x = k then some v else m x

/-- The builtin `delete(m, k)`. -/
def mapDelete (m : Signature → Option Nat) (k : Signature) : Signature → Option Nat :=
  fun x => if x = k then none else m x

/-- The function `newRecentBlocks` (lines 19-26); the error it returns is
always nil. -/
def newRecentBlocks (rangeSize : Int) (rw : Option blockReadWriter) : recentBlocks :=
  { stableHeight := 0, newestHeight := 0, rangeSize := rangeSize, stableIds := none,
    isStable := fun _ => none, newestIds := none, isNewest := fun _ => none, rw := rw }

/-- The method `addBlockID` (lines 55-67): the receiver afterwards and the
error returned, or the panic of `rb.stableIds[0]` on an empty slice. -/
def recentBlocks.addBlockID (rb : recentBlocks) (blockID : Signature) :
    Outcome (recentBlocks × Option Error) :=
  if ((elems rb.stableIds).length : Int) < rb.rangeSize then
    let rb := { rb with isStable := mapSet rb.isStable blockID rb.stableHeight }
    let rb := { rb with stableIds := sliceAppend rb.stableIds [blockID] }
    .done ({ rb with stableHeight := (rb.stableHeight + 1) % 2 ^ 64 }, none)
  else
    let rb := { rb with isStable := mapSet rb.isStable blockID rb.stableHeight }
    match elems rb.stableIds with
    | [] => .panic .indexOutOfRange
    | first :: rest =>
      let rb := { rb with isStable := mapDelete rb.isStable first }
      let rb := { rb with stableIds := some rest }
      let rb := { rb with stableIds := sliceAppend rb.stableIds [blockID] }
      .done ({ rb with stableHeight := (rb.stableHeight + 1) % 2 ^ 64 }, none)

/-- The loop `for h := start; h <= height; h++` of `fillRecentIds` (lines
78-86) from the value `h` of the loop variable on.  The first argument bounds
the number of iterations still to run; `height + 1 - start` suffice unless
`height` is the largest `uint64`, for which the loop of the code does not
end. -/
def fillLoop (rw : blockReadWriter) (height : Nat) :
    Nat → Nat → recentBlocks → Outcome (recentBlocks × Option Error)
  | 0, _, rb => .done (rb, none)
  | fuel + 1, h, rb =>
    if h ≤ height then
      match rw.blockIDByHeight h with
      | .error err => .done (rb, some err)
      | .ok id =>
        match rb.addBlockID id with
        | .panic kind => .panic kind
        | .done (rb, some err) => .done (rb, some err)
        | .done (rb, none) => fillLoop rw height fuel ((h + 1) % 2 ^ 64) rb
    else .done (rb, none)

/-- The method `fillRecentIds` (lines 69-88) for a non-nil `rb.rw`;
`uint64(rb.rangeSize)` is the conversion of an `int`. -/
def recentBlocks.fillRecentIds (rb : recentBlocks) (rw : blockReadWriter) :
    Outcome (recentBlocks × Option Error) :=
  match rw.currentHeight with
  | .error err => .done (rb, some err)
  | .ok height =>
    let start :=
      if height > (rb.rangeSize % 2 ^ 64).toNat then
        (height + 2 ^ 64 - (rb.rangeSize % 2 ^ 64).toNat) % 2 ^ 64
      else 1
    let rb := { rb with stableHeight := start }
    fillLoop rw height (height + 1 - start) start rb

/-- The method `height` (lines 29-36): the receiver afterwards and the values
returned. -/
def recentBlocks.height (rb : recentBlocks) : Outcome (recentBlocks × Nat × Option Error) :=
  match rb.stableIds, rb.rw with
  | none, some rw =>
    match rb.fillRecentIds rw with
    | .panic kind => .panic kind
    | .done (rb, some err) => .done (rb, 0, some err)
    | .done (rb, none) => .done (rb, rb.stableHeight, none)
  | _, _ => .done (rb, rb.stableHeight, none)

/-- The statements of `addNewBlockID` after the optional call of
`fillRecentIds` (lines 45-51). -/
def recentBlocks.addNewest (rb : recentBlocks) (blockID : Signature) : recentBlocks :=
  let rb := if rb.newestHeight = 0 then { rb with newestHeight := rb.stableHeight } else rb
  let rb := { rb with isNewest := mapSet rb.isNewest blockID rb.newestHeight }
  let rb := { rb with newestIds := sliceAppend rb.newestIds [blockID] }
  { rb with newestHeight := (rb.newestHeight + 1) % 2 ^ 64 }

/-- The method `addNewBlockID` (lines 39-52): the receiver afterwards and the
error returned. -/
def recentBlocks.addNewBlockID (rb : recentBlocks) (blockID : Signature) :
    Outcome (recentBlocks × Option Error) :=
  match rb.stableIds, rb.rw with
  | none, some rw =>
    match rb.fillRecentIds rw with
    | .panic kind => .panic kind
    | .done (rb, some err) => .done (rb, some err)
    | .done (rb, none) => .done (rb.addNewest blockID, none)
  | _, _ => .done (rb.addNewest blockID, none)

/-- The method `removeOutdated` (lines 130-134). -/
def recentBlocks.removeOutdated (rb : recentBlocks) (ids : List Signature) : recentBlocks :=
  { rb with isStable := ids.foldl (fun m id => mapDelete m id) rb.isStable }

/-- The method `addNewIds` (lines 136-140): every entry of `isNewest` is
stored in `isStable`. -/
def recentBlocks.addNewIds (rb : recentBlocks) : recentBlocks :=
  { rb with isStable := fun id =>
      match rb.isNewest id with
      | some height => some height
      | none => rb.isStable id }

/-- The method `flush` (lines 143-153).  With a negative `rangeSize` the slice
expression `rb.stableIds[len(rb.stableIds)-rb.rangeSize:]` is out of range. -/
def recentBlocks.flush (rb : recentBlocks) : Outcome recentBlocks :=
  let rb := { rb with stableIds := sliceAppend rb.stableIds (elems rb.newestIds) }
  let rb := rb.addNewIds
  let rb := { rb with newestIds := none }
  let rb := { rb with isNewest := fun _ => none }
  if ((elems rb.stableIds).length : Int) > rb.rangeSize then
    if rb.rangeSize < 0 then .panic .sliceBounds
    else
      let k := (elems rb.stableIds).length - rb.rangeSize.toNat
      let rb := rb.removeOutdated ((elems rb.stableIds).take k)
      let rb := { rb with stableIds := some ((elems rb.stableIds).drop k) }
      .done { rb with stableHeight := rb.newestHeight }
  else .done { rb with stableHeight := rb.newestHeight }

/-- A call of one of the two methods that write the stable window. -/
inductive WindowCall where
  | addBlockID (blockID : Signature)
  | flush
deriving DecidableEq, Repr

/-- The block IDs passed to `addBlockID` in a sequence of calls, in order. -/
def addedIDs : List WindowCall → List Signature
  | [] => []
  | .addBlockID id :: rest => id :: addedIDs rest
  | .flush :: rest => addedIDs rest

/-- Running a sequence of `addBlockID` and `flush` calls on `rb`. -/
def runCalls (rb : recentBlocks) : List WindowCall → Outcome recentBlocks
  | [] => .done rb
  | .addBlockID id :: rest =>
    match rb.addBlockID id with
    | .panic kind => .panic kind
    | .done (rb1, _) => runCalls rb1 rest
  | .flush :: rest =>
    match rb.flush with
    | .panic kind => .panic kind
    | .done rb1 => runCalls rb1 rest

/-- The invariant of the window for the range size `r`: at most `r` stable
IDs, the keys of `isStable` are the stable IDs, the keys of `isNewest` are the
pending newest IDs, and the stable and the newest IDs are pairwise distinct. -/
def windowInvariant (r : Int) (rb : recentBlocks) : Prop :=
  rb.rangeSize = r ∧ ((elems rb.stableIds).length : Int) ≤ r ∧
    (∀ id, (rb.isStable id).isSome ↔ id ∈ elems rb.stableIds) ∧
    (∀ id, (rb.isNewest id).isSome ↔ id ∈ elems rb.newestIds) ∧
    (elems rb.stableIds ++ elems rb.newestIds).Nodup

/-- A block reader whose current height is 3 and whose block at height `h` has
the ID `100 + h`. -/
def rwThree : blockReadWriter :=
  { currentHeight := .ok 3, blockIDByHeight := fun h => .ok (100 + h) }

/-- The state reached from `newRecentBlocks(2, nil)` by `addBlockID(1)`,
`addBlockID(2)` and `addNewBlockID(3)`: a full window and one pending newest
ID. -/
def windowPending : recentBlocks :=
  { stableHeight := 2, newestHeight := 3, rangeSize := 2, stableIds := some [1, 2],
    isStable := mapSet (mapSet (fun _ => none) 1 0) 2 1, newestIds := some [3],
    isNewest := mapSet (fun _ => none) 3 2, rw := none }

/-! ## The NG state with nil pointers (`pkg/ng/state.go`)

The three operations once more, this time with the pointer
`a.prevAddedBlock` handled the way the code handles it: a nil test where the
code has one, and a dereference that panics when the pointer is nil.  The block
or micro-block passed in and the blocks returned by a collaborator together
with a nil error are non-nil.  An operation yields the state and the trace, or
a panic. -/

namespace WithPanics

/-- A dereference of the pointer `p` to a block: a nil pointer panics. -/
def deref (p : Option Block) : Outcome Block :=
  match p with
  | some b => .done b
  | none => .panic .nilDereference

/-- The condition of line 41 as it is evaluated:
`a.prevAddedBlock != nil`, and only when it holds the call
`a.prevAddedBlock.BlockID()`, which dereferences the pointer. -/
def sameAsPrev (prevAddedBlock : Option Block) (block : Block) : Outcome Bool :=
  if prevAddedBlock ≠ none then
    match deref prevAddedBlock with
    | .panic kind => .panic kind
    | .done prev => .done (prev.BlockID == block.BlockID)
  else .done false

/-- The method `State.AddBlock` (lines 32-108).  Lines 51-107 do not
dereference `a.prevAddedBlock` (line 100 passes the pointer on after the nil
test of line 99) and are taken from `addBlockRollback`. -/
def AddBlock {S K W : Type} (so : StorageOps S) (ko : KnownOps K) (lo : LedgerOps W)
    (a : State S K W) (block : Block) : Outcome (State S K W × List Event) :=
  let k := ko.add a.knownBlocks block
  let a1 := { a with knownBlocks := k.2 }
  let tr1 := [Event.muLock, .knownAdd block k.1]
  if k.1 = false then .done (a1, tr1 ++ [.muUnlock])
  else
    match sameAsPrev a1.prevAddedBlock block with
    | .panic kind => .panic kind
    | .done true => .done (a1, tr1 ++ [.muUnlock])
    | .done false =>
      let p := so.PushBlock a1.storage block
      let a2 := { a1 with storage := p.2 }
      match p.1 with
      | some _ => .done (a2, tr1 ++ [.PushBlock block false, .muUnlock])
      | none => .done (addBlockRollback so lo a2 block (tr1 ++ [.PushBlock block true]))

/-- The method `State.AddMicroblock` (lines 110-175): the nil test of line 113
and the dereference `a.prevAddedBlock.Parent` of line 130. -/
def AddMicroblock {S K W : Type} (so : StorageOps S) (lo : LedgerOps W) (a : State S K W)
    (micro : MicroBlock) : Outcome (State S K W × List Event) :=
  if a.prevAddedBlock = none then .done (a, [.muLock, .muUnlock])
  else
    let p := so.PushMicro a.storage micro
    let a1 := { a with storage := p.2 }
    match p.1 with
    | some _ => .done (a1, [.muLock, .PushMicro micro false, .muUnlock])
    | none =>
      let tr1 := [Event.muLock, .PushMicro micro true]
      match so.Block a1.storage with
      | .error _ => .done (a1, tr1 ++ [.StorageBlock false, .muUnlock])
      | .ok block =>
        let tr2 := tr1 ++ [.StorageBlock true]
        match deref a1.prevAddedBlock with
        | .panic kind => .panic kind
        | .done prev =>
          if prev.Parent ≠ block.Parent then .done (a1, tr2 ++ [.muUnlock])
          else
            match lo.Height a1.ledger with
            | .error _ => .done (a1, tr2 ++ [.Height none, .muUnlock])
            | .ok curHeight =>
              let tr3 := tr2 ++ [.Height (some curHeight)]
              match lo.BlockByHeight a1.ledger curHeight with
              | .error _ => .done (a1, tr3 ++ [.BlockByHeight curHeight false, .muUnlock])
              | .ok curBlock =>
                let tr4 := tr3 ++ [.BlockByHeight curHeight true]
                if curBlock.Parent ≠ block.Parent then .done (a1, tr4 ++ [.muUnlock])
                else
                  let rb := lo.RollbackTo a1.ledger curBlock.Parent
                  let a2 := { a1 with ledger := rb.2 }
                  let tr5 := tr4 ++ [.Mutex, .Lock, .RollbackTo curBlock.Parent rb.1, .Unlock]
                  match rb.1 with
                  | some _ => .done (a2, tr5 ++ [.muUnlock])
                  | none =>
                    let r := lo.Apply a2.ledger [block]
                    match r.1 with
                    | some _ =>
                      .done ({ a2 with ledger := r.2, storage := so.Pop a2.storage },
                        tr5 ++ [.Apply [block] false, .Pop, .muUnlock])
                    | none =>
                      .done ({ a2 with ledger := r.2, prevAddedBlock := some block },
                        tr5 ++ [.Apply [block] true, .muUnlock])

/-- The method `State.blockApplied` (lines 192-208): the nil test of line 196
and the dereference in `a.prevAddedBlock.BlockID()` of line 202; `tr` is the
trace so far. -/
def blockApplied {S K W : Type} (so : StorageOps S) (a : State S K W) (block : Block)
    (tr : List Event) : Outcome (State S K W × List Event) :=
  if a.prevAddedBlock = none then
    .done ({ a with prevAddedBlock := some block, storage := so.newFromBlock a.storage block },
      tr ++ [.muLock, .newFromBlock block, .muUnlock])
  else
    match deref a.prevAddedBlock with
    | .panic kind => .panic kind
    | .done prev =>
      if prev.BlockID = block.BlockID then .done (a, tr ++ [.muLock, .muUnlock])
      else
        .done ({ a with prevAddedBlock := some block,
                        storage := so.newFromBlock a.storage block },
          tr ++ [.muLock, .newFromBlock block, .muUnlock])

/-- The method `State.BlockApplied` (lines 177-189). -/
def BlockApplied {S K W : Type} (so : StorageOps S) (lo : LedgerOps W) (a : State S K W) :
    Outcome (State S K W × List Event) :=
  match lo.Height a.ledger with
  | .error _ => .done (a, [.Height none])
  | .ok h =>
    match lo.BlockByHeight a.ledger h with
    | .error _ => .done (a, [.Height (some h), .BlockByHeight h false])
    | .ok block => blockApplied so a block [.Height (some h), .BlockByHeight h true]

end WithPanics

/-! ## Block synthesis: proofs -/

theorem microLoop_fst_foldl (acc : Transactions × Signature) (ms : List MicroBlock) :
    (microLoop acc ms).1 = ms.foldl (fun t row => t.Join row.Transactions) acc.1 := by
  induction ms generalizing acc with
  | nil => rfl
  | cons row rest ih => simp [microLoop, ih]

theorem foldl_Join_eq_append (t : Transactions) (ms : List MicroBlock) :
    ms.foldl (fun t row => t.Join row.Transactions) t
      = t ++ (ms.map (fun row => row.Transactions)).flatten := by
  induction ms generalizing t with
  | nil => simp
  | cons row rest ih =>
    simp only [List.foldl_cons, List.map_cons, List.flatten_cons]
    rw [ih]
    simp [Transactions.Join]

theorem microLoop_snd (acc : Transactions × Signature) (ms : List MicroBlock) :
    (microLoop acc ms).2 =
      match ms.getLast? with
      | some m => m.TotalResBlockSigField
      | none => acc.2 := by
  induction ms generalizing acc with
  | nil => rfl
  | cons row rest ih =>
    rw [microLoop, ih]
    cases rest with
    | nil => rfl
    | cons r2 rest2 =>
      have hlast := List.getLast?_eq_getLast (r2 :: rest2) (by simp)
      simp [hlast]

theorem microLoop_congr (acc : Transactions × Signature) (ms ms2 : List MicroBlock)
    (h : ms2.map (fun m => (m.Transactions, m.TotalResBlockSigField))
      = ms.map (fun m => (m.Transactions, m.TotalResBlockSigField))) :
    microLoop acc ms2 = microLoop acc ms := by
  induction ms generalizing acc ms2 with
  | nil =>
    cases ms2 with
    | nil => rfl
    | cons _ _ => simp at h
  | cons row rest ih =>
    cases ms2 with
    | nil => simp at h
    | cons row2 rest2 =>
      simp only [List.map_cons, List.cons.injEq, Prod.mk.injEq] at h
      obtain ⟨⟨h1, h2⟩, h3⟩ := h
      simp only [microLoop, h1, h2]
      exact ih _ _ h3

theorem FromMicroblockRow_ok (create : CreateBlockFn) (s : Scheme) (k : Block)
    (ms : List MicroBlock) (b : Block)
    (h : FromMicroblockRow create s { KeyBlock := k, MicroBlocks := ms } = .ok b) :
    ∃ b0, create (microLoop (k.Transactions, k.BlockSignature) ms).1 k.Timestamp k.Parent
        k.GenPublicKey k.NxtConsensus k.Version k.Features k.RewardVote s = .ok b0 ∧
      b = { b0 with BlockSignature := (microLoop (k.Transactions, k.BlockSignature) ms).2 } := by
  unfold FromMicroblockRow at h
  simp only at h
  split at h
  · cases h
  · next b0 hb0 =>
    refine ⟨b0, hb0, ?_⟩
    injection h with h
    exact h.symm

theorem CreateBlock_contract : CreateBlockContract CreateBlock := by
  intro t timestamp parent genPublicKey nxtConsensus version features rewardVote s b h
  simp only [CreateBlock, Except.ok.injEq] at h
  subst h
  simp

/-- C3: when block creation succeeds, the transactions of the block returned by
`FromMicroblockRow(k, ms)` are the left fold of `Join` over `ms` starting from
`k.Transactions`, that is `k.Transactions` followed by the transactions of
`ms[0]`, `ms[1]`, ... in list order. -/
theorem FromMicroblockRow_transactions (create : CreateBlockFn)
    (hc : CreateBlockContract create) (s : Scheme) (k : Block) (ms : List MicroBlock)
    (b : Block) (h : FromMicroblockRow create s { KeyBlock := k, MicroBlocks := ms } = .ok b) :
    b.Transactions = ms.foldl (fun t row => t.Join row.Transactions) k.Transactions ∧
    b.Transactions = k.Transactions ++ (ms.map (fun row => row.Transactions)).flatten := by
  obtain ⟨b0, hb0, rfl⟩ := FromMicroblockRow_ok create s k ms b h
  have h1 := (hc _ _ _ _ _ _ _ _ _ _ hb0).1
  have h2 : b0.Transactions = ms.foldl (fun t row => t.Join row.Transactions) k.Transactions := by
    rw [h1, microLoop_fst_foldl]
  refine ⟨h2, ?_⟩
  show b0.Transactions = _
  rw [h2, foldl_Join_eq_append]

/-- Scenario 2 of section 8 extended by a second micro-block: the synthesised
block carries the transactions 7, 8, 9, 10 in this order. -/
theorem FromMicroblockRow_transactions_witness :
    CreateBlockContract CreateBlock ∧
    FromMicroblockRow CreateBlock 84
      { KeyBlock := mkBlock 3 2 [7], MicroBlocks := [mkMicro 3 4 [8], mkMicro 4 5 [9, 10]] }
      = .ok (mkBlock 5 2 [7, 8, 9, 10]) ∧
    (mkBlock 5 2 [7, 8, 9, 10]).Transactions
      = [7] ++ ([mkMicro 3 4 [8], mkMicro 4 5 [9, 10]].map (fun row => row.Transactions)).flatten :=
  ⟨CreateBlock_contract, rfl,
    (FromMicroblockRow_transactions CreateBlock CreateBlock_contract 84 (mkBlock 3 2 [7])
      [mkMicro 3 4 [8], mkMicro 4 5 [9, 10]] _ rfl).2⟩

/-- C4: when block creation succeeds, the BlockSignature of the block returned
by `FromMicroblockRow(k, ms)` is the `TotalResBlockSigField` of the last
element of `ms` when `ms` is non-empty, and `k.BlockSignature` when `ms` is
empty (whatever `CreateBlock` computes). -/
theorem FromMicroblockRow_signature (create : CreateBlockFn) (s : Scheme) (k : Block)
    (ms : List MicroBlock) (b : Block)
    (h : FromMicroblockRow create s { KeyBlock := k, MicroBlocks := ms } = .ok b) :
    b.BlockSignature =
      match ms.getLast? with
      | some m => m.TotalResBlockSigField
      | none => k.BlockSignature := by
  obtain ⟨b0, _, rfl⟩ := FromMicroblockRow_ok create s k ms b h
  exact microLoop_snd (k.Transactions, k.BlockSignature) ms

/-- With two micro-blocks the synthesised block has the updated signature of the
second one. -/
theorem FromMicroblockRow_signature_witness :
    FromMicroblockRow CreateBlock 84
      { KeyBlock := mkBlock 3 2 [7], MicroBlocks := [mkMicro 3 4 [8], mkMicro 4 5 [9, 10]] }
      = .ok (mkBlock 5 2 [7, 8, 9, 10]) ∧
    (mkBlock 5 2 [7, 8, 9, 10]).BlockSignature =
      match [mkMicro 3 4 [8], mkMicro 4 5 [9, 10]].getLast? with
      | some m => m.TotalResBlockSigField
      | none => (mkBlock 3 2 [7]).BlockSignature :=
  ⟨rfl, FromMicroblockRow_signature CreateBlock 84 (mkBlock 3 2 [7])
    [mkMicro 3 4 [8], mkMicro 4 5 [9, 10]] _ rfl⟩

/-- C5: when block creation succeeds, the block returned by
`FromMicroblockRow(k, ms)` carries the version, timestamp, parent, generator
public key, consensus parameters, feature votes and reward vote of `k`, and no
field of a micro-block other than its transactions and its
`TotalResBlockSigField` influences the result: any list `ms2` that agrees with
`ms` on these two fields yields the same block. -/
theorem FromMicroblockRow_frame (create : CreateBlockFn) (hc : CreateBlockContract create)
    (s : Scheme) (k : Block) (ms : List MicroBlock) (b : Block)
    (h : FromMicroblockRow create s { KeyBlock := k, MicroBlocks := ms } = .ok b) :
    (b.Version = k.Version ∧ b.Timestamp = k.Timestamp ∧ b.Parent = k.Parent ∧
      b.GenPublicKey = k.GenPublicKey ∧ b.NxtConsensus = k.NxtConsensus ∧
      b.Features = k.Features ∧ b.RewardVote = k.RewardVote) ∧
    ∀ ms2 : List MicroBlock,
      ms2.map (fun m => (m.Transactions, m.TotalResBlockSigField))
        = ms.map (fun m => (m.Transactions, m.TotalResBlockSigField)) →
      FromMicroblockRow create s { KeyBlock := k, MicroBlocks := ms2 } = .ok b := by
  constructor
  · obtain ⟨b0, hb0, rfl⟩ := FromMicroblockRow_ok create s k ms b h
    obtain ⟨_, h2, h3, h4, h5, h6, h7, h8⟩ := hc _ _ _ _ _ _ _ _ _ _ hb0
    exact ⟨h6, h2, h3, h4, h5, h7, h8⟩
  · intro ms2 hms
    rw [← h]
    unfold FromMicroblockRow
    simp only [microLoop_congr _ ms ms2 hms]

/-- Changing the reference, version, sender and signature of the micro-block
does not change the synthesised block. -/
theorem FromMicroblockRow_frame_witness :
    CreateBlockContract CreateBlock ∧
    FromMicroblockRow CreateBlock 84
      { KeyBlock := mkBlock 3 2 [7], MicroBlocks := [mkMicro 3 4 [8]] }
      = .ok (mkBlock 4 2 [7, 8]) ∧
    FromMicroblockRow CreateBlock 84
      { KeyBlock := mkBlock 3 2 [7],
        MicroBlocks := [{ mkMicro 99 4 [8] with VersionField := 5, SenderPK := 6, Signature := 7 }] }
      = .ok (mkBlock 4 2 [7, 8]) :=
  ⟨CreateBlock_contract, rfl,
    (FromMicroblockRow_frame CreateBlock CreateBlock_contract 84 (mkBlock 3 2 [7])
      [mkMicro 3 4 [8]] _ rfl).2
      [{ mkMicro 99 4 [8] with VersionField := 5, SenderPK := 6, Signature := 7 }] rfl⟩

/-! ## The NG state: proofs -/

section StateProofs

variable {S K W : Type}

/-- C6: if `knownBlocks.add(b)` returns false, `AddBlock(b)` returns at once:
its whole trace is lock, `add`, unlock, so it calls neither
`storage.PushBlock`, nor a ledger method, nor the applier, and it leaves
`storage`, `prevAddedBlock` and the ledger unchanged. -/
theorem AddBlock_known (so : StorageOps S) (ko : KnownOps K) (lo : LedgerOps W)
    (a : State S K W) (block : Block) (h : (ko.add a.knownBlocks block).1 = false) :
    (AddBlock so ko lo a block).2 = [.muLock, .knownAdd block false, .muUnlock] ∧
    (∀ e ∈ (AddBlock so ko lo a block).2,
      e.isStorageWrite = false ∧ e.isLedger = false ∧ e.isApply = false) ∧
    (AddBlock so ko lo a block).1.storage = a.storage ∧
    (AddBlock so ko lo a block).1.prevAddedBlock = a.prevAddedBlock ∧
    (AddBlock so ko lo a block).1.ledger = a.ledger := by
  have hrun : AddBlock so ko lo a block =
      ({ a with knownBlocks := (ko.add a.knownBlocks block).2 },
        [.muLock, .knownAdd block false, .muUnlock]) := by
    simp [AddBlock, h]
  rw [hrun]
  simp [Event.isStorageWrite, Event.isLedger, Event.isApply]

/-- Scenario 3 of section 8: a block whose id is remembered is dropped at once. -/
theorem AddBlock_known_witness :
    (knownOps.add { capacity := 64, ids := [3] } (mkBlock 3 2 [7])).1 = false ∧
    (AddBlock (liquidOps CreateBlock) knownOps (chainLedger 100)
      { stateAfterB0 with knownBlocks := { capacity := 64, ids := [3] } } (mkBlock 3 2 [7])).2
      = [.muLock, .knownAdd (mkBlock 3 2 [7]) false, .muUnlock] :=
  ⟨by decide,
    (AddBlock_known (liquidOps CreateBlock) knownOps (chainLedger 100)
      { stateAfterB0 with knownBlocks := { capacity := 64, ids := [3] } } (mkBlock 3 2 [7])
      (by decide)).1⟩

/-- C7: if `prevAddedBlock` is set and has the BlockID of `b`, `AddBlock(b)`
returns after the call of `knownBlocks.add`, whatever that call reported: its
whole trace is lock, `add`, unlock, so there is no push to storage, no ledger
rollback and no call of the applier, and `storage`, `prevAddedBlock` and the
ledger are unchanged. -/
theorem AddBlock_same (so : StorageOps S) (ko : KnownOps K) (lo : LedgerOps W)
    (a : State S K W) (block prev : Block) (hprev : a.prevAddedBlock = some prev)
    (hid : block.BlockID = prev.BlockID) :
    (AddBlock so ko lo a block).2
      = [.muLock, .knownAdd block (ko.add a.knownBlocks block).1, .muUnlock] ∧
    (∀ e ∈ (AddBlock so ko lo a block).2,
      e.isStorageWrite = false ∧ e.isRollback = false ∧ e.isLedger = false ∧
      e.isApply = false) ∧
    (AddBlock so ko lo a block).1.storage = a.storage ∧
    (AddBlock so ko lo a block).1.prevAddedBlock = a.prevAddedBlock ∧
    (AddBlock so ko lo a block).1.ledger = a.ledger := by
  have hsame : sameAsPrev a.prevAddedBlock block = true := by
    simp [sameAsPrev, hprev, hid]
  have hrun : AddBlock so ko lo a block =
      ({ a with knownBlocks := (ko.add a.knownBlocks block).2 },
        [.muLock, .knownAdd block (ko.add a.knownBlocks block).1, .muUnlock]) := by
    unfold AddBlock
    by_cases hk : (ko.add a.knownBlocks block).1 = false
    · simp [hk]
    · simp [hk, hsame]
  rw [hrun]
  simp [Event.isStorageWrite, Event.isLedger, Event.isApply, Event.isRollback]

/-- A block with the id of `prevAddedBlock` is dropped although `knownBlocks.add`
reported it as new. -/
theorem AddBlock_same_witness :
    stateAfterB0.prevAddedBlock = some (mkBlock 2 1 []) ∧
    (mkBlock 2 1 [5]).BlockID = (mkBlock 2 1 []).BlockID ∧
    (AddBlock (liquidOps CreateBlock) knownOps (chainLedger 100) stateAfterB0 (mkBlock 2 1 [5])).2
      = [.muLock, .knownAdd (mkBlock 2 1 [5]) true, .muUnlock] :=
  ⟨rfl, rfl,
    (AddBlock_same (liquidOps CreateBlock) knownOps (chainLedger 100) stateAfterB0 (mkBlock 2 1 [5])
      (mkBlock 2 1 []) rfl rfl).1⟩

end StateProofs

section StateLemmas

variable {S K W : Type}

theorem addBlockApply_ok (so : StorageOps S) (lo : LedgerOps W) (a : State S K W)
    (block : Block) (tr : List Event) (h : (lo.Apply a.ledger [block]).1 = none) :
    addBlockApply so lo a block tr =
      ({ a with ledger := (lo.Apply a.ledger [block]).2, prevAddedBlock := some block },
        tr ++ [.Apply [block] true, .muUnlock]) := by
  simp [addBlockApply, h]

theorem addBlockApply_fail_some (so : StorageOps S) (lo : LedgerOps W) (a : State S K W)
    (block prev : Block) (tr : List Event) (err : Error)
    (h : (lo.Apply a.ledger [block]).1 = some err) (hp : a.prevAddedBlock = some prev) :
    addBlockApply so lo a block tr =
      ({ a with
          ledger := (lo.Apply (lo.Apply a.ledger [block]).2 [prev]).2
          storage := so.Pop a.storage },
        tr ++ [.Apply [block] false, .Pop,
          .Apply [prev] (lo.Apply (lo.Apply a.ledger [block]).2 [prev]).1.isNone, .muUnlock]) := by
  simp [addBlockApply, h, hp]

theorem addBlockApply_fail_none (so : StorageOps S) (lo : LedgerOps W) (a : State S K W)
    (block : Block) (tr : List Event) (err : Error)
    (h : (lo.Apply a.ledger [block]).1 = some err) (hp : a.prevAddedBlock = none) :
    addBlockApply so lo a block tr =
      ({ a with ledger := (lo.Apply a.ledger [block]).2, storage := so.Pop a.storage },
        tr ++ [.Apply [block] false, .Pop, .muUnlock]) := by
  simp [addBlockApply, h, hp]

/-- The three ways in which `AddBlock` leaves lines 32-49: an early return
after `knownBlocks.add`, a return after a failed push, or the rollback stage
entered with the block pushed. -/
theorem AddBlock_stage (so : StorageOps S) (ko : KnownOps K) (lo : LedgerOps W)
    (a : State S K W) (block : Block) :
    (AddBlock so ko lo a block =
        ({ a with knownBlocks := (ko.add a.knownBlocks block).2 },
          [.muLock, .knownAdd block (ko.add a.knownBlocks block).1, .muUnlock]) ∧
      ((ko.add a.knownBlocks block).1 = false ∨ sameAsPrev a.prevAddedBlock block = true)) ∨
    (AddBlock so ko lo a block =
        ({ a with
            knownBlocks := (ko.add a.knownBlocks block).2
            storage := (so.PushBlock a.storage block).2 },
          [.muLock, .knownAdd block true, .PushBlock block false, .muUnlock]) ∧
      (so.PushBlock a.storage block).1 ≠ none) ∨
    (AddBlock so ko lo a block =
        addBlockRollback so lo
          { a with
            knownBlocks := (ko.add a.knownBlocks block).2
            storage := (so.PushBlock a.storage block).2 }
          block [.muLock, .knownAdd block true, .PushBlock block true] ∧
      (ko.add a.knownBlocks block).1 = true ∧ sameAsPrev a.prevAddedBlock block = false ∧
      (so.PushBlock a.storage block).1 = none) := by
  unfold AddBlock
  by_cases hk : (ko.add a.knownBlocks block).1 = false
  · left
    simp [hk]
  · by_cases hs : sameAsPrev a.prevAddedBlock block = true
    · left
      simp [hk, hs]
    · right
      have hk1 : (ko.add a.knownBlocks block).1 = true := by simpa using hk
      have hs1 : sameAsPrev a.prevAddedBlock block = false := by simpa using hs
      cases hp : (so.PushBlock a.storage block).1 with
      | some e =>
        left
        simp [hk1, hs1, hp]
      | none =>
        right
        simp [hk1, hs1, hp]

end StateLemmas

section StateLemmas2

variable {S K W : Type}

theorem addBlockApply_rollbackTo_mem (so : StorageOps S) (lo : LedgerOps W) (a : State S K W)
    (block : Block) (tr : List Event) (id : BlockID) (err : Option Error)
    (he : Event.RollbackTo id err ∈ (addBlockApply so lo a block tr).2) :
    Event.RollbackTo id err ∈ tr := by
  cases hap : (lo.Apply a.ledger [block]).1 with
  | none =>
    rw [addBlockApply_ok so lo a block tr hap] at he
    simpa using he
  | some e =>
    cases hp : a.prevAddedBlock with
    | none =>
      rw [addBlockApply_fail_none so lo a block tr e hap hp] at he
      simpa using he
    | some prev =>
      rw [addBlockApply_fail_some so lo a block prev tr e hap hp] at he
      simpa using he

theorem addBlockRebase_rollbackTo_mem (so : StorageOps S) (lo : LedgerOps W) (a : State S K W)
    (block : Block) (tr : List Event) (id : BlockID) (err : Option Error)
    (he : Event.RollbackTo id err ∈ (addBlockRebase so lo a block tr).2) :
    Event.RollbackTo id err ∈ tr := by
  unfold addBlockRebase at he
  cases h1 : so.PreviousBlock a.storage with
  | error e1 => simpa [h1] using he
  | ok prevBlock =>
    cases h2 : lo.Height a.ledger with
    | error e2 => simpa [h1, h2] using he
    | ok height =>
      cases h3 : (lo.RollbackToHeight a.ledger (heightMinusOne height)).1 with
      | some e3 => simpa [h1, h2, h3] using he
      | none =>
        cases h4 : (lo.AddDeserializedBlock
            (lo.RollbackToHeight a.ledger (heightMinusOne height)).2 prevBlock).1 with
        | some e4 => simpa [h1, h2, h3, h4] using he
        | none =>
          simp only [h1, h2, h3, h4] at he
          have := addBlockApply_rollbackTo_mem so lo _ block _ id err he
          simpa using this

theorem addBlockRollback_ok (so : StorageOps S) (lo : LedgerOps W) (a : State S K W)
    (block : Block) (tr : List Event) (h : (lo.RollbackTo a.ledger block.Parent).1 = none) :
    addBlockRollback so lo a block tr =
      addBlockApply so lo { a with ledger := (lo.RollbackTo a.ledger block.Parent).2 } block
        (tr ++ [.Mutex, .Lock, .RollbackTo block.Parent none, .Unlock]) := by
  simp [addBlockRollback, h]

theorem addBlockRollback_rebase (so : StorageOps S) (lo : LedgerOps W) (a : State S K W)
    (block : Block) (tr : List Event) (err : Error)
    (h : (lo.RollbackTo a.ledger block.Parent).1 = some err) (hnf : IsNotFound err = true)
    (hc : so.ContainsID a.storage block.Parent = true) :
    addBlockRollback so lo a block tr =
      addBlockRebase so lo { a with ledger := (lo.RollbackTo a.ledger block.Parent).2 } block
        (tr ++ [.Mutex, .Lock, .RollbackTo block.Parent (some err), .Unlock,
          .ContainsID block.Parent true]) := by
  simp [addBlockRollback, h, hnf, hc]

theorem addBlockRollback_notFound (so : StorageOps S) (lo : LedgerOps W) (a : State S K W)
    (block : Block) (tr : List Event) (err : Error)
    (h : (lo.RollbackTo a.ledger block.Parent).1 = some err) (hnf : IsNotFound err = true)
    (hc : so.ContainsID a.storage block.Parent = false) :
    addBlockRollback so lo a block tr =
      addBlockApply so lo { a with ledger := (lo.RollbackTo a.ledger block.Parent).2 } block
        (tr ++ [.Mutex, .Lock, .RollbackTo block.Parent (some err), .Unlock,
          .ContainsID block.Parent false]) := by
  simp [addBlockRollback, h, hnf, hc]

theorem addBlockRollback_other (so : StorageOps S) (lo : LedgerOps W) (a : State S K W)
    (block : Block) (tr : List Event) (err : Error)
    (h : (lo.RollbackTo a.ledger block.Parent).1 = some err) (hnf : IsNotFound err = false) :
    addBlockRollback so lo a block tr =
      ({ a with
          ledger := (lo.RollbackTo a.ledger block.Parent).2
          storage := so.Pop a.storage },
        tr ++ [.Mutex, .Lock, .RollbackTo block.Parent (some err), .Unlock, .Pop, .muUnlock]) := by
  simp [addBlockRollback, h, hnf]

/-- If the rollback stage records a failed `RollbackTo` with an error that is
not NotFound, and the trace before it has no `RollbackTo`, the stage took its
last branch. -/
theorem addBlockRollback_of_mem (so : StorageOps S) (lo : LedgerOps W) (a : State S K W)
    (block : Block) (tr : List Event) (err : Error) (hnf : IsNotFound err = false)
    (htr : Event.RollbackTo block.Parent (some err) ∉ tr)
    (he : Event.RollbackTo block.Parent (some err) ∈ (addBlockRollback so lo a block tr).2) :
    (lo.RollbackTo a.ledger block.Parent).1 = some err := by
  cases hrb : (lo.RollbackTo a.ledger block.Parent).1 with
  | none =>
    rw [addBlockRollback_ok so lo a block tr hrb] at he
    have := addBlockApply_rollbackTo_mem so lo _ block _ _ _ he
    simp [htr] at this
  | some e1 =>
    by_cases hnf1 : IsNotFound e1 = true
    · have hne : err ≠ e1 := by
        intro h
        rw [← h, hnf] at hnf1
        cases hnf1
      by_cases hc : so.ContainsID a.storage block.Parent = true
      · rw [addBlockRollback_rebase so lo a block tr e1 hrb hnf1 hc] at he
        have := addBlockRebase_rollbackTo_mem so lo _ block _ _ _ he
        simp [htr, hne] at this
      · have hc1 : so.ContainsID a.storage block.Parent = false := by simpa using hc
        rw [addBlockRollback_notFound so lo a block tr e1 hrb hnf1 hc1] at he
        have := addBlockApply_rollbackTo_mem so lo _ block _ _ _ he
        simp [htr, hne] at this
    · have hnf2 : IsNotFound e1 = false := by simpa using hnf1
      rw [addBlockRollback_other so lo a block tr e1 hrb hnf2] at he
      simp [htr] at he
      rw [he]

end StateLemmas2

section StateProofs2

variable {S K W : Type}

/-- C9: in `AddBlock(b)`, whenever `ledger.RollbackTo(b.Parent)` fails with an
error that is not NotFound, the operation ends with one `storage.Pop()` that
undoes the key-block push: `Pop` occurs exactly once in the trace,
`applier.Apply` is never called, `prevAddedBlock` is unchanged and the storage
is the pushed storage popped once. -/
theorem AddBlock_rollback_error (so : StorageOps S) (ko : KnownOps K) (lo : LedgerOps W)
    (a : State S K W) (block : Block) (err : Error) (hnf : IsNotFound err = false)
    (h : Event.RollbackTo block.Parent (some err) ∈ (AddBlock so ko lo a block).2) :
    (AddBlock so ko lo a block).2 =
      [.muLock, .knownAdd block true, .PushBlock block true, .Mutex, .Lock,
        .RollbackTo block.Parent (some err), .Unlock, .Pop, .muUnlock] ∧
    (AddBlock so ko lo a block).2.count .Pop = 1 ∧
    (∀ e ∈ (AddBlock so ko lo a block).2, e.isApply = false) ∧
    (AddBlock so ko lo a block).1.prevAddedBlock = a.prevAddedBlock ∧
    (AddBlock so ko lo a block).1.storage = so.Pop (so.PushBlock a.storage block).2 := by
  rcases AddBlock_stage so ko lo a block with ⟨hrun, _⟩ | ⟨hrun, _⟩ | ⟨hrun, _, _, _⟩
  · rw [hrun] at h
    simp at h
  · rw [hrun] at h
    simp at h
  · rw [hrun] at h ⊢
    have hrb := addBlockRollback_of_mem so lo _ block _ err hnf (by simp) h
    rw [addBlockRollback_other so lo _ block _ err hrb hnf]
    simp [Event.isApply, List.count_cons]

/-- A fork from the genesis block on a ledger that allows no rollback: the
rollback fails with the error of code 5 and the push is undone. -/
theorem AddBlock_rollback_error_witness :
    IsNotFound (.other 5) = false ∧
    (AddBlock (liquidOps CreateBlock) knownOps (chainLedger 0) stateAfterB0 (mkBlock 3 1 [7])).2 =
      [.muLock, .knownAdd (mkBlock 3 1 [7]) true, .PushBlock (mkBlock 3 1 [7]) true, .Mutex, .Lock,
        .RollbackTo 1 (some (.other 5)), .Unlock, .Pop, .muUnlock] :=
  ⟨rfl,
    (AddBlock_rollback_error (liquidOps CreateBlock) knownOps (chainLedger 0) stateAfterB0
      (mkBlock 3 1 [7]) (.other 5) rfl (by decide)).1⟩

end StateProofs2

section StateLemmas3

variable {S K W : Type}

/-- The liquid rebase either returns early, having called neither the applier
nor `Pop`, or hands over to the apply step with `prevAddedBlock` and the
storage as they were. -/
theorem addBlockRebase_stage (so : StorageOps S) (lo : LedgerOps W) (a : State S K W)
    (block : Block) (tr : List Event) :
    (∃ suffix, (addBlockRebase so lo a block tr).2 = tr ++ suffix ∧
      (∀ e ∈ suffix, e.isApply = false ∧ e ≠ .Pop) ∧
      (addBlockRebase so lo a block tr).1.prevAddedBlock = a.prevAddedBlock ∧
      (addBlockRebase so lo a block tr).1.storage = a.storage) ∨
    (∃ a1 suffix, addBlockRebase so lo a block tr = addBlockApply so lo a1 block (tr ++ suffix) ∧
      (∀ e ∈ suffix, e.isApply = false ∧ e ≠ .Pop) ∧
      a1.prevAddedBlock = a.prevAddedBlock ∧ a1.storage = a.storage) := by
  unfold addBlockRebase
  cases h1 : so.PreviousBlock a.storage with
  | error e1 =>
    left
    exact ⟨_, rfl, by simp [Event.isApply], rfl, rfl⟩
  | ok prevBlock =>
    cases h2 : lo.Height a.ledger with
    | error e2 =>
      left
      exact ⟨_, rfl, by simp [Event.isApply], rfl, rfl⟩
    | ok height =>
      cases h3 : (lo.RollbackToHeight a.ledger (heightMinusOne height)).1 with
      | some e3 =>
        left
        refine ⟨[.PreviousBlock true, .Lock, .Height (some height),
          .RollbackToHeight (heightMinusOne height) false, .Unlock, .muUnlock], ?_, ?_, ?_, ?_⟩
        · simp [h3]
        · simp [Event.isApply]
        · simp [h3]
        · simp [h3]
      | none =>
        cases h4 : (lo.AddDeserializedBlock
            (lo.RollbackToHeight a.ledger (heightMinusOne height)).2 prevBlock).1 with
        | some e4 =>
          left
          refine ⟨[.PreviousBlock true, .Lock, .Height (some height),
            .RollbackToHeight (heightMinusOne height) true,
            .AddDeserializedBlock prevBlock false, .Unlock, .muUnlock], ?_, ?_, ?_, ?_⟩
          · simp [h3, h4]
          · simp [Event.isApply]
          · simp [h3, h4]
          · simp [h3, h4]
        | none =>
          right
          refine ⟨{ a with ledger := (lo.AddDeserializedBlock
              (lo.RollbackToHeight a.ledger (heightMinusOne height)).2 prevBlock).2 },
            [.PreviousBlock true, .Lock, .Height (some height),
              .RollbackToHeight (heightMinusOne height) true,
              .AddDeserializedBlock prevBlock true, .Unlock], ?_, ?_, rfl, rfl⟩
          · simp [h3, h4]
          · simp [Event.isApply]

/-- The rollback stage either returns without calling the applier, leaving
`prevAddedBlock` as it was, or hands over to the apply step with
`prevAddedBlock` and the storage as they were and a trace, after `tr`, without
`Apply` and `Pop`. -/
theorem addBlockRollback_stage (so : StorageOps S) (lo : LedgerOps W) (a : State S K W)
    (block : Block) (tr : List Event) :
    (∃ suffix, (addBlockRollback so lo a block tr).2 = tr ++ suffix ∧
      (∀ e ∈ suffix, e.isApply = false) ∧
      (addBlockRollback so lo a block tr).1.prevAddedBlock = a.prevAddedBlock) ∨
    (∃ a1 suffix, addBlockRollback so lo a block tr = addBlockApply so lo a1 block (tr ++ suffix) ∧
      (∀ e ∈ suffix, e.isApply = false ∧ e ≠ .Pop) ∧
      a1.prevAddedBlock = a.prevAddedBlock ∧ a1.storage = a.storage) := by
  cases hrb : (lo.RollbackTo a.ledger block.Parent).1 with
  | none =>
    right
    rw [addBlockRollback_ok so lo a block tr hrb]
    exact ⟨_, _, rfl, by simp [Event.isApply], rfl, rfl⟩
  | some e1 =>
    by_cases hnf : IsNotFound e1 = true
    · by_cases hc : so.ContainsID a.storage block.Parent = true
      · rw [addBlockRollback_rebase so lo a block tr e1 hrb hnf hc]
        rcases addBlockRebase_stage so lo
            { a with ledger := (lo.RollbackTo a.ledger block.Parent).2 } block
            (tr ++ [.Mutex, .Lock, .RollbackTo block.Parent (some e1), .Unlock,
              .ContainsID block.Parent true]) with
          ⟨suffix, h1, h2, h3, _⟩ | ⟨a1, suffix, h1, h2, h3, h4⟩
        · left
          refine ⟨_, by rw [h1, List.append_assoc], ?_, h3⟩
          intro e he
          simp only [List.mem_append, List.mem_cons, List.mem_singleton, List.not_mem_nil,
            or_false] at he
          rcases he with (he | he | he | he | he) | he
          · subst he; rfl
          · subst he; rfl
          · subst he; rfl
          · subst he; rfl
          · subst he; rfl
          · exact (h2 e he).1
        · right
          refine ⟨a1, _, by rw [h1, List.append_assoc], ?_, h3, h4⟩
          intro e he
          simp only [List.mem_append, List.mem_cons, List.mem_singleton, List.not_mem_nil,
            or_false] at he
          rcases he with (he | he | he | he | he) | he
          · subst he; simp [Event.isApply]
          · subst he; simp [Event.isApply]
          · subst he; simp [Event.isApply]
          · subst he; simp [Event.isApply]
          · subst he; simp [Event.isApply]
          · exact h2 e he
      · have hc1 : so.ContainsID a.storage block.Parent = false := by simpa using hc
        right
        rw [addBlockRollback_notFound so lo a block tr e1 hrb hnf hc1]
        exact ⟨_, _, rfl, by simp [Event.isApply], rfl, rfl⟩
    · have hnf1 : IsNotFound e1 = false := by simpa using hnf
      left
      rw [addBlockRollback_other so lo a block tr e1 hrb hnf1]
      exact ⟨_, rfl, by simp [Event.isApply], rfl⟩

/-- Every run of `AddBlock` either never calls the applier and keeps
`prevAddedBlock`, or reaches the apply step (lines 94-107) with
`prevAddedBlock` as it was, the storage being the pushed storage, and a trace
so far without `Apply` and `Pop`. -/
theorem AddBlock_reaches_apply (so : StorageOps S) (ko : KnownOps K) (lo : LedgerOps W)
    (a : State S K W) (block : Block) :
    ((∀ e ∈ (AddBlock so ko lo a block).2, e.isApply = false) ∧
      (AddBlock so ko lo a block).1.prevAddedBlock = a.prevAddedBlock) ∨
    (∃ a1 pre, AddBlock so ko lo a block = addBlockApply so lo a1 block pre ∧
      (∀ e ∈ pre, e.isApply = false ∧ e ≠ .Pop) ∧
      a1.prevAddedBlock = a.prevAddedBlock ∧
      a1.storage = (so.PushBlock a.storage block).2 ∧
      sameAsPrev a.prevAddedBlock block = false) := by
  rcases AddBlock_stage so ko lo a block with ⟨hrun, _⟩ | ⟨hrun, _⟩ | ⟨hrun, _, hnew, _⟩
  · left
    rw [hrun]
    simp [Event.isApply]
  · left
    rw [hrun]
    simp [Event.isApply]
  · rw [hrun]
    rcases addBlockRollback_stage so lo
        { a with
          knownBlocks := (ko.add a.knownBlocks block).2
          storage := (so.PushBlock a.storage block).2 }
        block [.muLock, .knownAdd block true, .PushBlock block true] with
      ⟨suffix, h1, h2, h3⟩ | ⟨a1, suffix, h1, h2, h3, h4⟩
    · left
      refine ⟨?_, h3⟩
      rw [h1]
      intro e he
      simp only [List.mem_append, List.mem_cons, List.mem_singleton, List.not_mem_nil,
        or_false] at he
      rcases he with (he | he | he) | he
      · subst he; rfl
      · subst he; rfl
      · subst he; rfl
      · exact h2 e he
    · right
      refine ⟨a1, _, h1, ?_, h3, h4, hnew⟩
      intro e he
      simp only [List.mem_append, List.mem_cons, List.mem_singleton, List.not_mem_nil,
        or_false] at he
      rcases he with (he | he | he) | he
      · subst he; simp [Event.isApply]
      · subst he; simp [Event.isApply]
      · subst he; simp [Event.isApply]
      · exact h2 e he

end StateLemmas3

section StateProofs3

variable {S K W : Type}

theorem sameAsPrev_ne (prev block : Block) (h : sameAsPrev (some prev) block = false) :
    prev ≠ block := by
  intro hpb
  subst hpb
  simp [sameAsPrev] at h

/-- C10: in `AddBlock(b)`, whenever `applier.Apply([b])` fails, the rest of the
operation is `storage.Pop()`, then `applier.Apply([prevAddedBlock])` if and
only if `prevAddedBlock` is set, then the return; nothing before the failed
apply is an `Apply` or a `Pop`; and whatever the outcome `ok` of the second
apply, `prevAddedBlock` on return is the block it was before the call. -/
theorem AddBlock_apply_failure (so : StorageOps S) (ko : KnownOps K) (lo : LedgerOps W)
    (a : State S K W) (block : Block)
    (h : Event.Apply [block] false ∈ (AddBlock so ko lo a block).2) :
    (∃ pre ok, (∀ e ∈ pre, e.isApply = false ∧ e ≠ .Pop) ∧
      (AddBlock so ko lo a block).2 =
        pre ++ [.Apply [block] false, .Pop] ++
          (match a.prevAddedBlock with
            | some prev => [.Apply [prev] ok]
            | none => []) ++ [.muUnlock]) ∧
    (AddBlock so ko lo a block).1.prevAddedBlock = a.prevAddedBlock ∧
    (AddBlock so ko lo a block).1.storage = so.Pop (so.PushBlock a.storage block).2 := by
  rcases AddBlock_reaches_apply so ko lo a block with
    ⟨hno, _⟩ | ⟨a1, pre, hrun, hpre, hprev, hsto, _⟩
  · have := hno _ h
    simp [Event.isApply] at this
  · rw [hrun] at h ⊢
    cases hap : (lo.Apply a1.ledger [block]).1 with
    | none =>
      rw [addBlockApply_ok so lo a1 block pre hap] at h
      simp only [List.mem_append, List.mem_cons, List.mem_singleton, List.not_mem_nil,
        or_false] at h
      rcases h with h | h | h
      · have := (hpre _ h).1
        simp [Event.isApply] at this
      · simp at h
      · cases h
    | some err =>
      cases hp : a1.prevAddedBlock with
      | none =>
        rw [addBlockApply_fail_none so lo a1 block pre err hap hp]
        rw [← hprev, hp]
        exact ⟨⟨pre, true, hpre, by simp⟩, rfl, by simp [hsto]⟩
      | some prev =>
        rw [addBlockApply_fail_some so lo a1 block prev pre err hap hp]
        rw [← hprev, hp]
        exact ⟨⟨pre, (lo.Apply (lo.Apply a1.ledger [block]).2 [prev]).1.isNone, hpre, by simp⟩,
          rfl, by simp [hsto]⟩

/-- A block with an unknown parent is rejected by the applier: the push is
undone, the previous block is re-applied (in vain) and `prevAddedBlock` stays. -/
theorem AddBlock_apply_failure_witness :
    (AddBlock (liquidOps CreateBlock) knownOps (chainLedger 100) stateAfterB0
      (mkBlock 5 9 [7])).1.prevAddedBlock = stateAfterB0.prevAddedBlock ∧
    (AddBlock (liquidOps CreateBlock) knownOps (chainLedger 100) stateAfterB0
      (mkBlock 5 9 [7])).2 =
      [.muLock, .knownAdd (mkBlock 5 9 [7]) true, .PushBlock (mkBlock 5 9 [7]) true, .Mutex,
        .Lock, .RollbackTo 9 (some .notFound), .Unlock, .ContainsID 9 false,
        .Apply [mkBlock 5 9 [7]] false, .Pop, .Apply [mkBlock 2 1 []] false, .muUnlock] :=
  ⟨(AddBlock_apply_failure (liquidOps CreateBlock) knownOps (chainLedger 100) stateAfterB0
      (mkBlock 5 9 [7]) (by decide)).2.1, by decide⟩

/-- C1: if `AddBlock(b)` runs to the point where `applier.Apply([b])` succeeds,
then on return `prevAddedBlock` is `b` (so its BlockID is that of `b`), and
for every notion `tip` of ledger tip for which a successful `Apply([b])` makes
`b` the tip (the Applier contract), the ledger tip on return has BlockID
`b.BlockID`. -/
theorem AddBlock_success (so : StorageOps S) (ko : KnownOps K) (lo : LedgerOps W)
    (a : State S K W) (block : Block)
    (h : Event.Apply [block] true ∈ (AddBlock so ko lo a block).2) :
    (AddBlock so ko lo a block).1.prevAddedBlock = some block ∧
    (∀ p, (AddBlock so ko lo a block).1.prevAddedBlock = some p → p.BlockID = block.BlockID) ∧
    (∀ tip : W → Option BlockID,
      (∀ w, (lo.Apply w [block]).1 = none → tip (lo.Apply w [block]).2 = some block.BlockID) →
      tip (AddBlock so ko lo a block).1.ledger = some block.BlockID) := by
  rcases AddBlock_reaches_apply so ko lo a block with
    ⟨hno, _⟩ | ⟨a1, pre, hrun, hpre, hprev, _, hnew⟩
  · have := hno _ h
    simp [Event.isApply] at this
  · rw [hrun] at h ⊢
    cases hap : (lo.Apply a1.ledger [block]).1 with
    | none =>
      rw [addBlockApply_ok so lo a1 block pre hap]
      refine ⟨rfl, ?_, ?_⟩
      · intro p hp
        simp only [Option.some.injEq] at hp
        rw [hp]
      · intro tip htip
        exact htip a1.ledger hap
    | some err =>
      exfalso
      cases hp : a1.prevAddedBlock with
      | none =>
        rw [addBlockApply_fail_none so lo a1 block pre err hap hp] at h
        simp only [List.mem_append, List.mem_cons, List.mem_singleton, List.not_mem_nil,
          or_false] at h
        rcases h with h | h | h | h
        · have := (hpre _ h).1
          simp [Event.isApply] at this
        · simp at h
        · cases h
        · cases h
      | some prev =>
        rw [addBlockApply_fail_some so lo a1 block prev pre err hap hp] at h
        simp only [List.mem_append, List.mem_cons, List.mem_singleton, List.not_mem_nil,
          or_false] at h
        rcases h with h | h | h | h | h
        · have := (hpre _ h).1
          simp [Event.isApply] at this
        · simp at h
        · cases h
        · simp only [Event.Apply.injEq, List.cons.injEq, and_true] at h
          rw [← hprev, hp] at hnew
          exact sameAsPrev_ne prev block hnew h.1.symm
        · cases h

theorem chainLedger_apply_tip (n : Nat) (block : Block) (w : List Block)
    (h : ((chainLedger n).Apply w [block]).1 = none) :
    chainTip ((chainLedger n).Apply w [block]).2 = some block.BlockID := by
  by_cases ht : chainTip w = some block.Parent
  · simp only [chainLedger, chainApply, ht, if_true]
    simp [chainTip]
  · simp [chainLedger, chainApply, ht] at h

/-- Scenario 1 of section 8: `B1` extends the tip, is applied and becomes both
`prevAddedBlock` and the tip of the ledger. -/
theorem AddBlock_success_witness :
    Event.Apply [mkBlock 3 2 [7]] true ∈
      (AddBlock (liquidOps CreateBlock) knownOps (chainLedger 100) stateAfterB0
        (mkBlock 3 2 [7])).2 ∧
    (AddBlock (liquidOps CreateBlock) knownOps (chainLedger 100) stateAfterB0
      (mkBlock 3 2 [7])).1.prevAddedBlock = some (mkBlock 3 2 [7]) ∧
    chainTip (AddBlock (liquidOps CreateBlock) knownOps (chainLedger 100) stateAfterB0
      (mkBlock 3 2 [7])).1.ledger = some 3 :=
  ⟨by decide,
    (AddBlock_success (liquidOps CreateBlock) knownOps (chainLedger 100) stateAfterB0
      (mkBlock 3 2 [7]) (by decide)).1,
    (AddBlock_success (liquidOps CreateBlock) knownOps (chainLedger 100) stateAfterB0
      (mkBlock 3 2 [7]) (by decide)).2.2 chainTip
      (chainLedger_apply_tip 100 (mkBlock 3 2 [7]))⟩

end StateProofs3

section MicroProofs

variable {S K W : Type}

/-- A successful `Apply` in the trace of `AddMicroblock` means that the
micro-block was pushed, the synthesised block `blk` was read from the pushed
storage and applied, and the state on return holds the pushed storage and
`blk` as `prevAddedBlock`. -/
theorem AddMicroblock_success_path (so : StorageOps S) (lo : LedgerOps W) (a : State S K W)
    (micro : MicroBlock) (blk : Block)
    (h : Event.Apply [blk] true ∈ (AddMicroblock so lo a micro).2) :
    (so.PushMicro a.storage micro).1 = none ∧
    so.Block (so.PushMicro a.storage micro).2 = .ok blk ∧
    (AddMicroblock so lo a micro).1.storage = (so.PushMicro a.storage micro).2 ∧
    (AddMicroblock so lo a micro).1.prevAddedBlock = some blk := by
  unfold AddMicroblock at h ⊢
  cases hprev : a.prevAddedBlock with
  | none => simp [hprev] at h
  | some prev =>
    cases hpush : (so.PushMicro a.storage micro).1 with
    | some e => simp [hprev, hpush] at h
    | none =>
      cases hblock : so.Block (so.PushMicro a.storage micro).2 with
      | error e => simp [hprev, hpush, hblock] at h
      | ok block =>
        by_cases hA : prev.Parent = block.Parent
        · cases hh : lo.Height a.ledger with
          | error e => simp [hprev, hpush, hblock, hA, hh] at h
          | ok curHeight =>
            cases hcur : lo.BlockByHeight a.ledger curHeight with
            | error e => simp [hprev, hpush, hblock, hA, hh, hcur] at h
            | ok curBlock =>
              by_cases hB : curBlock.Parent = block.Parent
              · cases hrb : (lo.RollbackTo a.ledger block.Parent).1 with
                | some e => simp [hprev, hpush, hblock, hA, hh, hcur, hB, hrb] at h
                | none =>
                  cases hap : (lo.Apply (lo.RollbackTo a.ledger block.Parent).2 [block]).1 with
                  | some e => simp [hprev, hpush, hblock, hA, hh, hcur, hB, hrb, hap] at h
                  | none =>
                    simp [hprev, hpush, hblock, hA, hh, hcur, hB, hrb, hap] at h
                    simp [hprev, hpush, hblock, hA, hh, hcur, hB, hrb, hap, h]
              · simp [hprev, hpush, hblock, hA, hh, hcur, hB] at h
        · simp [hprev, hpush, hblock, hA] at h

end MicroProofs

section MicroProofs2

variable {K W : Type}

theorem storage_PushMicro_ok (a : storage) (m : MicroBlock) (h : (a.PushMicro m).1 = none) :
    (a.PushMicro m).2 = { a with micros := a.micros ++ [m] } := by
  unfold storage.PushMicro at h ⊢
  cases ht : a.tipID with
  | none => simp [ht] at h
  | some tip =>
    by_cases hr : m.PrevResBlockSigField = tip
    · simp [hr]
    · simp [ht, hr] at h

theorem storage_Block_pushed_signature (create : CreateBlockFn) (a : storage) (m : MicroBlock)
    (blk : Block) (h : storage.Block create { a with micros := a.micros ++ [m] } = .ok blk) :
    blk.BlockSignature = m.TotalResBlockSigField := by
  unfold storage.Block at h
  cases hk : a.keyBlock with
  | none => simp [hk] at h
  | some k =>
    simp only [hk] at h
    obtain ⟨b0, _, rfl⟩ := FromMicroblockRow_ok create a.scheme k (a.micros ++ [m]) blk h
    have := microLoop_snd (k.Transactions, k.BlockSignature) (a.micros ++ [m])
    simpa using this

/-- C2: with the liquid storage of the spec, if `AddMicroblock(m)` succeeds
(its trace records a successful `Apply` of a block `blk`), then on return
`prevAddedBlock` is `blk`, `storage.Block()` returns `blk`, and the BlockID of
`blk` is `m.TotalResBlockSigField`; hence
`prevAddedBlock.BlockID == storage.Block().BlockID == m.updatedSignature`. -/
theorem AddMicroblock_success (create : CreateBlockFn) (lo : LedgerOps W)
    (a : State storage K W) (micro : MicroBlock) (blk : Block)
    (h : Event.Apply [blk] true ∈ (AddMicroblock (liquidOps create) lo a micro).2) :
    (AddMicroblock (liquidOps create) lo a micro).1.prevAddedBlock = some blk ∧
    storage.Block create (AddMicroblock (liquidOps create) lo a micro).1.storage = .ok blk ∧
    blk.BlockID = micro.TotalResBlockSigField := by
  obtain ⟨hpush, hblock, hsto, hprev⟩ :=
    AddMicroblock_success_path (liquidOps create) lo a micro blk h
  have hpushed := storage_PushMicro_ok a.storage micro hpush
  refine ⟨hprev, ?_, ?_⟩
  · rw [hsto]
    exact hblock
  · have hb : storage.Block create (a.storage.PushMicro micro).2 = .ok blk := hblock
    rw [hpushed] at hb
    exact storage_Block_pushed_signature create a.storage micro blk hb

/-- Scenario 2 of section 8: after the micro-block with updated signature 4 the
synthesised block of id 4 is `prevAddedBlock` and the storage tip. -/
theorem AddMicroblock_success_witness :
    Event.Apply [mkBlock 4 2 [7, 8]] true ∈
      (AddMicroblock (liquidOps CreateBlock) (chainLedger 100) stateAfterB1
        (mkMicro 3 4 [8])).2 ∧
    (AddMicroblock (liquidOps CreateBlock) (chainLedger 100) stateAfterB1
      (mkMicro 3 4 [8])).1.prevAddedBlock = some (mkBlock 4 2 [7, 8]) ∧
    storage.Block CreateBlock (AddMicroblock (liquidOps CreateBlock) (chainLedger 100)
      stateAfterB1 (mkMicro 3 4 [8])).1.storage = .ok (mkBlock 4 2 [7, 8]) ∧
    (mkBlock 4 2 [7, 8]).BlockID = (mkMicro 3 4 [8]).TotalResBlockSigField :=
  ⟨by decide,
    AddMicroblock_success CreateBlock (chainLedger 100) stateAfterB1 (mkMicro 3 4 [8])
      (mkBlock 4 2 [7, 8]) (by decide)⟩

/-- C8 (the code at the failing input): with the ledger at `[1, 2]` and the
liquid storage anchored at block 2, `AddBlock` of a block with unknown parent 9
gets NotFound from `RollbackTo(9)` and `false` from `ContainsID(9)`, and then
does call `applier.Apply([b])`; the storage is popped only because that apply
fails, after which `Apply([prevAddedBlock])` is attempted as well. -/
theorem AddBlock_notFound_falls_through :
    (AddBlock (liquidOps CreateBlock) knownOps (chainLedger 100) stateAfterB0
      (mkBlock 5 9 [7])).2 =
      [.muLock, .knownAdd (mkBlock 5 9 [7]) true, .PushBlock (mkBlock 5 9 [7]) true, .Mutex,
        .Lock, .RollbackTo 9 (some .notFound), .Unlock, .ContainsID 9 false,
        .Apply [mkBlock 5 9 [7]] false, .Pop, .Apply [mkBlock 2 1 []] false, .muUnlock] := by
  decide

end MicroProofs2

section MicroProofs3

variable {S K W : Type}

/-- C13: when `prevAddedBlock` is unset, `AddMicroblock(m)` changes nothing: it
returns the state it was given, and its whole trace is the lock and unlock of
`mu`, so the storage is not pushed to and no ledger method and no applier call
is made; `prevAddedBlock` stays unset. -/
theorem AddMicroblock_unset (so : StorageOps S) (lo : LedgerOps W) (a : State S K W)
    (micro : MicroBlock) (h : a.prevAddedBlock = none) :
    (AddMicroblock so lo a micro).1 = a ∧
    (AddMicroblock so lo a micro).2 = [.muLock, .muUnlock] ∧
    (∀ e ∈ (AddMicroblock so lo a micro).2,
      e.isStorageWrite = false ∧ e.isLedger = false ∧ e.isApply = false) ∧
    (AddMicroblock so lo a micro).1.prevAddedBlock = none := by
  have hrun : AddMicroblock so lo a micro = (a, [.muLock, .muUnlock]) := by
    simp [AddMicroblock, h]
  rw [hrun]
  simp [Event.isStorageWrite, Event.isLedger, Event.isApply, h]

/-- A micro-block sent to a freshly started node is ignored. -/
theorem AddMicroblock_unset_witness :
    stateFresh.prevAddedBlock = none ∧
    (AddMicroblock (liquidOps CreateBlock) (chainLedger 100) stateFresh (mkMicro 3 4 [8])).2
      = [.muLock, .muUnlock] :=
  ⟨rfl,
    (AddMicroblock_unset (liquidOps CreateBlock) (chainLedger 100) stateFresh (mkMicro 3 4 [8])
      rfl).2.1⟩

/-- C14: in `AddMicroblock(m)`, once the micro-block is pushed and the
candidate `block` synthesised, if the candidate's parent differs from
`prevAddedBlock.Parent` (check A) or from the parent of the ledger block at the
current height (check B), the operation returns with no `RollbackTo`, no
`Apply` and no `Pop` in its trace; `prevAddedBlock` and the ledger are
unchanged and the storage is the storage as `PushMicro` left it (the
micro-block stays). -/
theorem AddMicroblock_sanity (so : StorageOps S) (lo : LedgerOps W) (a : State S K W)
    (micro : MicroBlock) (prev block : Block) (hprev : a.prevAddedBlock = some prev)
    (hpush : (so.PushMicro a.storage micro).1 = none)
    (hblock : so.Block (so.PushMicro a.storage micro).2 = .ok block)
    (hcheck : prev.Parent ≠ block.Parent ∨
      ∃ curHeight curBlock, lo.Height a.ledger = .ok curHeight ∧
        lo.BlockByHeight a.ledger curHeight = .ok curBlock ∧
        curBlock.Parent ≠ block.Parent) :
    (∀ e ∈ (AddMicroblock so lo a micro).2,
      e.isRollback = false ∧ e.isApply = false ∧ e ≠ .Pop) ∧
    (AddMicroblock so lo a micro).2.getLast? = some .muUnlock ∧
    (AddMicroblock so lo a micro).1.prevAddedBlock = a.prevAddedBlock ∧
    (AddMicroblock so lo a micro).1.storage = (so.PushMicro a.storage micro).2 ∧
    (AddMicroblock so lo a micro).1.ledger = a.ledger := by
  unfold AddMicroblock
  by_cases hA : prev.Parent = block.Parent
  · rcases hcheck with hne | ⟨curHeight, curBlock, hh, hcur, hB⟩
    · exact absurd hA hne
    · simp [hprev, hpush, hblock, hA, hh, hcur, hB, Event.isRollback, Event.isApply]
  · simp [hprev, hpush, hblock, hA, Event.isRollback, Event.isApply]

/-- Scenario 6 of section 8: the ledger block at the current height has
parent 8 while the candidate has parent 2; check B fires and the pushed
micro-block stays in the storage. -/
theorem AddMicroblock_sanity_witness :
    (AddMicroblock (liquidOps CreateBlock) (chainLedger 100)
      { stateAfterB1 with ledger := [mkBlock 1 0 [], mkBlock 2 1 [], mkBlock 3 8 [7]] }
      (mkMicro 3 4 [8])).1.storage
      = { scheme := 84, keyBlock := some (mkBlock 3 2 [7]), micros := [mkMicro 3 4 [8]] } :=
  (AddMicroblock_sanity (liquidOps CreateBlock) (chainLedger 100)
    { stateAfterB1 with ledger := [mkBlock 1 0 [], mkBlock 2 1 [], mkBlock 3 8 [7]] }
    (mkMicro 3 4 [8]) (mkBlock 3 2 [7]) (mkBlock 4 2 [7, 8]) rfl rfl rfl
    (Or.inr ⟨3, mkBlock 3 8 [7], rfl, rfl, by decide⟩)).2.2.2.1

/-- The state and trace of `AddMicroblock` when the applier rejects the
candidate: a failed `Apply` in the trace means that the micro-block was
pushed, the candidate `blk` synthesised, the ledger rolled back to the parent
of the candidate, and after the failed apply the storage popped once. -/
theorem AddMicroblock_failure_path (so : StorageOps S) (lo : LedgerOps W) (a : State S K W)
    (micro : MicroBlock) (blk : Block)
    (h : Event.Apply [blk] false ∈ (AddMicroblock so lo a micro).2) :
    ∃ curHeight,
      (AddMicroblock so lo a micro).2 =
        [.muLock, .PushMicro micro true, .StorageBlock true, .Height (some curHeight),
          .BlockByHeight curHeight true, .Mutex, .Lock, .RollbackTo blk.Parent none, .Unlock,
          .Apply [blk] false, .Pop, .muUnlock] ∧
      (AddMicroblock so lo a micro).1.prevAddedBlock = a.prevAddedBlock ∧
      (AddMicroblock so lo a micro).1.storage = so.Pop (so.PushMicro a.storage micro).2 ∧
      (AddMicroblock so lo a micro).1.ledger =
        (lo.Apply (lo.RollbackTo a.ledger blk.Parent).2 [blk]).2 ∧
      a.prevAddedBlock ≠ none := by
  unfold AddMicroblock at h ⊢
  cases hprev : a.prevAddedBlock with
  | none => simp [hprev] at h
  | some prev =>
    cases hpush : (so.PushMicro a.storage micro).1 with
    | some e => simp [hprev, hpush] at h
    | none =>
      cases hblock : so.Block (so.PushMicro a.storage micro).2 with
      | error e => simp [hprev, hpush, hblock] at h
      | ok block =>
        by_cases hA : prev.Parent = block.Parent
        · cases hh : lo.Height a.ledger with
          | error e => simp [hprev, hpush, hblock, hA, hh] at h
          | ok curHeight =>
            cases hcur : lo.BlockByHeight a.ledger curHeight with
            | error e => simp [hprev, hpush, hblock, hA, hh, hcur] at h
            | ok curBlock =>
              by_cases hB : curBlock.Parent = block.Parent
              · cases hrb : (lo.RollbackTo a.ledger block.Parent).1 with
                | some e => simp [hprev, hpush, hblock, hA, hh, hcur, hB, hrb] at h
                | none =>
                  cases hap : (lo.Apply (lo.RollbackTo a.ledger block.Parent).2 [block]).1 with
                  | none => simp [hprev, hpush, hblock, hA, hh, hcur, hB, hrb, hap] at h
                  | some e =>
                    simp [hprev, hpush, hblock, hA, hh, hcur, hB, hrb, hap] at h
                    subst h
                    refine ⟨curHeight, ?_⟩
                    simp [hpush, hblock, hA, hh, hcur, hB, hrb, hap]
              · simp [hprev, hpush, hblock, hA, hh, hcur, hB] at h
        · simp [hprev, hpush, hblock, hA] at h

/-- C15: in `AddMicroblock(m)`, whenever `applier.Apply([candidate])` fails,
`storage.Pop()` is called exactly once, right after the failed apply;
`prevAddedBlock` is unchanged on return and the storage is the storage as
`PushMicro` left it, popped once. -/
theorem AddMicroblock_apply_failure (so : StorageOps S) (lo : LedgerOps W) (a : State S K W)
    (micro : MicroBlock) (blk : Block)
    (h : Event.Apply [blk] false ∈ (AddMicroblock so lo a micro).2) :
    (AddMicroblock so lo a micro).2.count .Pop = 1 ∧
    (∃ pre, (AddMicroblock so lo a micro).2 = pre ++ [.Apply [blk] false, .Pop, .muUnlock]) ∧
    (AddMicroblock so lo a micro).1.prevAddedBlock = a.prevAddedBlock ∧
    (AddMicroblock so lo a micro).1.storage = so.Pop (so.PushMicro a.storage micro).2 := by
  obtain ⟨curHeight, htr, hprev, hsto, _, _⟩ := AddMicroblock_failure_path so lo a micro blk h
  refine ⟨?_, ?_, hprev, hsto⟩
  · rw [htr]
    simp [List.count_cons]
  · rw [htr]
    exact ⟨[.muLock, .PushMicro micro true, .StorageBlock true, .Height (some curHeight),
      .BlockByHeight curHeight true, .Mutex, .Lock, .RollbackTo blk.Parent none, .Unlock], rfl⟩

/-- With an applier that rejects the candidate, the micro-block pushed by the
call is dropped again: the storage is back at `(B1, [])`. -/
theorem AddMicroblock_apply_failure_witness :
    Event.Apply [mkBlock 4 2 [7, 8]] false ∈
      (AddMicroblock (liquidOps CreateBlock) (rejectingLedger 100) stateAfterB1
        (mkMicro 3 4 [8])).2 ∧
    (AddMicroblock (liquidOps CreateBlock) (rejectingLedger 100) stateAfterB1
      (mkMicro 3 4 [8])).2.count .Pop = 1 ∧
    (AddMicroblock (liquidOps CreateBlock) (rejectingLedger 100) stateAfterB1
      (mkMicro 3 4 [8])).1.storage = stateAfterB1.storage :=
  ⟨by decide,
    (AddMicroblock_apply_failure (liquidOps CreateBlock) (rejectingLedger 100) stateAfterB1
      (mkMicro 3 4 [8]) (mkBlock 4 2 [7, 8]) (by decide)).1,
    by decide⟩

end MicroProofs3

section AppliedProofs

variable {S K W : Type}

theorem blockApplied_same (so : StorageOps S) (a : State S K W) (block : Block)
    (tr : List Event) (h : sameAsPrev a.prevAddedBlock block = true) :
    blockApplied so a block tr = (a, tr ++ [.muLock, .muUnlock]) := by
  unfold blockApplied
  cases hp : a.prevAddedBlock with
  | none => simp [sameAsPrev, hp] at h
  | some prev =>
    have hid : prev.BlockID = block.BlockID := by simpa [sameAsPrev, hp] using h
    simp [hid]

theorem blockApplied_other (so : StorageOps S) (a : State S K W) (block : Block)
    (tr : List Event) (h : sameAsPrev a.prevAddedBlock block = false) :
    blockApplied so a block tr =
      ({ a with prevAddedBlock := some block, storage := so.newFromBlock a.storage block },
        tr ++ [.muLock, .newFromBlock block, .muUnlock]) := by
  unfold blockApplied
  cases hp : a.prevAddedBlock with
  | none => rfl
  | some prev =>
    have hid : ¬ prev.BlockID = block.BlockID := by simpa [sameAsPrev, hp] using h
    simp [hid]

theorem blockApplied_sameAsPrev (so : StorageOps S) (a : State S K W) (block : Block)
    (tr : List Event) : sameAsPrev (blockApplied so a block tr).1.prevAddedBlock block = true := by
  cases h : sameAsPrev a.prevAddedBlock block with
  | true =>
    rw [blockApplied_same so a block tr h]
    exact h
  | false =>
    rw [blockApplied_other so a block tr h]
    simp [sameAsPrev]

/-- C17: `blockApplied(b)` leaves the state unchanged if `prevAddedBlock` is
set and has the BlockID of `b`; otherwise `prevAddedBlock` becomes `b` and the
storage becomes `newFromBlock(b)` (the ledger and `knownBlocks` stay).  Hence
afterwards `prevAddedBlock` is set and has the BlockID of `b`, and calling
`blockApplied(b)` a second time yields the state of the first call. -/
theorem blockApplied_spec (so : StorageOps S) (a : State S K W) (block : Block)
    (tr tr2 : List Event) :
    (sameAsPrev a.prevAddedBlock block = true → (blockApplied so a block tr).1 = a) ∧
    (sameAsPrev a.prevAddedBlock block = false →
      (blockApplied so a block tr).1 =
        { a with prevAddedBlock := some block, storage := so.newFromBlock a.storage block }) ∧
    (∃ p, (blockApplied so a block tr).1.prevAddedBlock = some p ∧ p.BlockID = block.BlockID) ∧
    (blockApplied so (blockApplied so a block tr).1 block tr2).1 = (blockApplied so a block tr).1 := by
  refine ⟨?_, ?_, ?_, ?_⟩
  · intro h
    rw [blockApplied_same so a block tr h]
  · intro h
    rw [blockApplied_other so a block tr h]
  · have h := blockApplied_sameAsPrev so a block tr
    cases hp : (blockApplied so a block tr).1.prevAddedBlock with
    | none => simp [sameAsPrev, hp] at h
    | some p =>
      refine ⟨p, rfl, ?_⟩
      simpa [sameAsPrev, hp] using h
  · rw [blockApplied_same so _ block tr2 (blockApplied_sameAsPrev so a block tr)]

end AppliedProofs

/-- Scenario 1 of section 8, cold start: `blockApplied(B0)` on a freshly
started node sets `prevAddedBlock` to `B0` and anchors the storage at `B0`. -/
theorem blockApplied_spec_witness :
    sameAsPrev stateFresh.prevAddedBlock (mkBlock 2 1 []) = false ∧
    (blockApplied (liquidOps CreateBlock) stateFresh (mkBlock 2 1 []) []).1 =
      { stateFresh with
        prevAddedBlock := some (mkBlock 2 1 [])
        storage := { scheme := 84, keyBlock := some (mkBlock 2 1 []), micros := [] } } :=
  ⟨rfl, (blockApplied_spec (liquidOps CreateBlock) stateFresh (mkBlock 2 1 []) [] []).2.1 rfl⟩

section RebaseLemmas

variable {S K W : Type}

theorem addBlockApply_mem (so : StorageOps S) (lo : LedgerOps W) (a : State S K W)
    (block : Block) (tr : List Event) (e : Event)
    (he : e ∈ (addBlockApply so lo a block tr).2) :
    e ∈ tr ∨ e.isApply = true ∨ e = .Pop ∨ e = .muUnlock := by
  cases hap : (lo.Apply a.ledger [block]).1 with
  | none =>
    rw [addBlockApply_ok so lo a block tr hap] at he
    simp only [List.mem_append, List.mem_cons, List.mem_singleton, List.not_mem_nil,
      or_false] at he
    rcases he with he | he | he
    · exact Or.inl he
    · subst he; exact Or.inr (Or.inl rfl)
    · exact Or.inr (Or.inr (Or.inr he))
  | some err =>
    cases hp : a.prevAddedBlock with
    | none =>
      rw [addBlockApply_fail_none so lo a block tr err hap hp] at he
      simp only [List.mem_append, List.mem_cons, List.mem_singleton, List.not_mem_nil,
        or_false] at he
      rcases he with he | he | he | he
      · exact Or.inl he
      · subst he; exact Or.inr (Or.inl rfl)
      · exact Or.inr (Or.inr (Or.inl he))
      · exact Or.inr (Or.inr (Or.inr he))
    | some prev =>
      rw [addBlockApply_fail_some so lo a block prev tr err hap hp] at he
      simp only [List.mem_append, List.mem_cons, List.mem_singleton, List.not_mem_nil,
        or_false] at he
      rcases he with he | he | he | he | he
      · exact Or.inl he
      · subst he; exact Or.inr (Or.inl rfl)
      · exact Or.inr (Or.inr (Or.inl he))
      · subst he; exact Or.inr (Or.inl rfl)
      · exact Or.inr (Or.inr (Or.inr he))

theorem addBlockRebase_prev_fail (so : StorageOps S) (lo : LedgerOps W) (a : State S K W)
    (block : Block) (tr : List Event) (e1 : Error)
    (h1 : so.PreviousBlock a.storage = .error e1) :
    addBlockRebase so lo a block tr = (a, tr ++ [.PreviousBlock false, .muUnlock]) := by
  simp [addBlockRebase, h1]

theorem addBlockRebase_height_fail (so : StorageOps S) (lo : LedgerOps W) (a : State S K W)
    (block prevBlock : Block) (tr : List Event) (e2 : Error)
    (h1 : so.PreviousBlock a.storage = .ok prevBlock) (h2 : lo.Height a.ledger = .error e2) :
    addBlockRebase so lo a block tr =
      (a, tr ++ [.PreviousBlock true, .Lock, .Height none, .Unlock, .muUnlock]) := by
  simp [addBlockRebase, h1, h2]

theorem addBlockRebase_rollback_fail (so : StorageOps S) (lo : LedgerOps W) (a : State S K W)
    (block prevBlock : Block) (tr : List Event) (height : Nat) (e3 : Error)
    (h1 : so.PreviousBlock a.storage = .ok prevBlock) (h2 : lo.Height a.ledger = .ok height)
    (h3 : (lo.RollbackToHeight a.ledger (heightMinusOne height)).1 = some e3) :
    addBlockRebase so lo a block tr =
      ({ a with ledger := (lo.RollbackToHeight a.ledger (heightMinusOne height)).2 },
        tr ++ [.PreviousBlock true, .Lock, .Height (some height),
          .RollbackToHeight (heightMinusOne height) false, .Unlock, .muUnlock]) := by
  simp [addBlockRebase, h1, h2, h3]

theorem addBlockRebase_add_fail (so : StorageOps S) (lo : LedgerOps W) (a : State S K W)
    (block prevBlock : Block) (tr : List Event) (height : Nat) (e4 : Error)
    (h1 : so.PreviousBlock a.storage = .ok prevBlock) (h2 : lo.Height a.ledger = .ok height)
    (h3 : (lo.RollbackToHeight a.ledger (heightMinusOne height)).1 = none)
    (h4 : (lo.AddDeserializedBlock (lo.RollbackToHeight a.ledger (heightMinusOne height)).2
      prevBlock).1 = some e4) :
    addBlockRebase so lo a block tr =
      ({ a with ledger := (lo.AddDeserializedBlock
          (lo.RollbackToHeight a.ledger (heightMinusOne height)).2 prevBlock).2 },
        tr ++ [.PreviousBlock true, .Lock, .Height (some height),
          .RollbackToHeight (heightMinusOne height) true,
          .AddDeserializedBlock prevBlock false, .Unlock, .muUnlock]) := by
  simp [addBlockRebase, h1, h2, h3, h4]

theorem addBlockRebase_ok (so : StorageOps S) (lo : LedgerOps W) (a : State S K W)
    (block prevBlock : Block) (tr : List Event) (height : Nat)
    (h1 : so.PreviousBlock a.storage = .ok prevBlock) (h2 : lo.Height a.ledger = .ok height)
    (h3 : (lo.RollbackToHeight a.ledger (heightMinusOne height)).1 = none)
    (h4 : (lo.AddDeserializedBlock (lo.RollbackToHeight a.ledger (heightMinusOne height)).2
      prevBlock).1 = none) :
    addBlockRebase so lo a block tr =
      addBlockApply so lo
        { a with ledger := (lo.AddDeserializedBlock
          (lo.RollbackToHeight a.ledger (heightMinusOne height)).2 prevBlock).2 }
        block
        (tr ++ [.PreviousBlock true, .Lock, .Height (some height),
          .RollbackToHeight (heightMinusOne height) true,
          .AddDeserializedBlock prevBlock true, .Unlock]) := by
  simp [addBlockRebase, h1, h2, h3, h4]

/-- An event `x` that only the liquid rebase can emit (it is no `Apply`, `Pop`
or `muUnlock` and not among the events of lines 32-59) occurs in the trace of
`AddBlock` only if the rebase was entered: `RollbackTo` failed with NotFound
and `ContainsID` held on the pushed storage. -/
theorem AddBlock_rebase_entry (so : StorageOps S) (ko : KnownOps K) (lo : LedgerOps W)
    (a : State S K W) (block : Block) (x : Event)
    (hx : x ∈ (AddBlock so ko lo a block).2)
    (hx1 : x.isApply = false) (hx2 : x ≠ .Pop) (hx3 : x ≠ .muUnlock) (hx4 : x ≠ .muLock)
    (hx5 : ∀ ok, x ≠ .knownAdd block ok) (hx6 : ∀ ok, x ≠ .PushBlock block ok)
    (hx7 : x ≠ .Mutex) (hx8 : x ≠ .Lock) (hx9 : x ≠ .Unlock)
    (hx10 : ∀ err, x ≠ .RollbackTo block.Parent err)
    (hx11 : x ≠ .ContainsID block.Parent false) :
    ∃ err, IsNotFound err = true ∧
      (lo.RollbackTo a.ledger block.Parent).1 = some err ∧
      AddBlock so ko lo a block =
        addBlockRebase so lo
          { storage := (so.PushBlock a.storage block).2
            prevAddedBlock := a.prevAddedBlock
            ledger := (lo.RollbackTo a.ledger block.Parent).2
            knownBlocks := (ko.add a.knownBlocks block).2 }
          block
          [.muLock, .knownAdd block true, .PushBlock block true, .Mutex, .Lock,
            .RollbackTo block.Parent (some err), .Unlock, .ContainsID block.Parent true] := by
  rcases AddBlock_stage so ko lo a block with ⟨hrun, _⟩ | ⟨hrun, _⟩ | ⟨hrun, _, _, _⟩
  · rw [hrun] at hx
    simp [hx3, hx4, hx5] at hx
  · rw [hrun] at hx
    simp [hx3, hx4, hx5, hx6] at hx
  · rw [hrun] at hx ⊢
    generalize ha2 : ({ a with
        knownBlocks := (ko.add a.knownBlocks block).2
        storage := (so.PushBlock a.storage block).2 } : State S K W) = a2 at hx ⊢
    have hl : a2.ledger = a.ledger := by rw [← ha2]
    have hs : a2.storage = (so.PushBlock a.storage block).2 := by rw [← ha2]
    have hp : a2.prevAddedBlock = a.prevAddedBlock := by rw [← ha2]
    have hk : a2.knownBlocks = (ko.add a.knownBlocks block).2 := by rw [← ha2]
    rw [← hl, ← hs, ← hp, ← hk]
    cases hrb : (lo.RollbackTo a2.ledger block.Parent).1 with
    | none =>
      exfalso
      rw [addBlockRollback_ok so lo a2 block _ hrb] at hx
      rcases addBlockApply_mem so lo _ block _ x hx with h | h | h | h
      · have := hx10 none
        simp [hx4, hx5, hx6, hx7, hx8, hx9, this] at h
      · rw [hx1] at h; cases h
      · exact hx2 h
      · exact hx3 h
    | some err =>
      by_cases hnf : IsNotFound err = true
      · by_cases hc : so.ContainsID a2.storage block.Parent = true
        · refine ⟨err, hnf, rfl, ?_⟩
          rw [addBlockRollback_rebase so lo a2 block _ err hrb hnf hc]
          rfl
        · exfalso
          have hc1 : so.ContainsID a2.storage block.Parent = false := by simpa using hc
          rw [addBlockRollback_notFound so lo a2 block _ err hrb hnf hc1] at hx
          rcases addBlockApply_mem so lo _ block _ x hx with h | h | h | h
          · have := hx10 (some err)
            simp [hx4, hx5, hx6, hx7, hx8, hx9, hx11, this] at h
          · rw [hx1] at h; cases h
          · exact hx2 h
          · exact hx3 h
      · exfalso
        have hnf1 : IsNotFound err = false := by simpa using hnf
        rw [addBlockRollback_other so lo a2 block _ err hrb hnf1] at hx
        have := hx10 (some err)
        simp [hx2, hx3, hx4, hx5, hx6, hx7, hx8, hx9, this] at hx

end RebaseLemmas

section RebaseProofs

variable {S K W : Type}

/-- The apply step appends the call `Apply([block])` with its outcome to the
trace so far; when the call succeeds only the unlock of `mu` follows and
`prevAddedBlock` is the block. -/
theorem addBlockApply_head (so : StorageOps S) (lo : LedgerOps W) (a : State S K W)
    (block : Block) (tr : List Event) :
    ∃ rest, (addBlockApply so lo a block tr).2 =
        tr ++ [.Apply [block] (lo.Apply a.ledger [block]).1.isNone] ++ rest ∧
      ((lo.Apply a.ledger [block]).1 = none →
        rest = [.muUnlock] ∧ (addBlockApply so lo a block tr).1.prevAddedBlock = some block) := by
  cases hap : (lo.Apply a.ledger [block]).1 with
  | none =>
    rw [addBlockApply_ok so lo a block tr hap]
    exact ⟨[.muUnlock], by simp, fun _ => ⟨rfl, rfl⟩⟩
  | some e =>
    cases hp : a.prevAddedBlock with
    | none =>
      rw [addBlockApply_fail_none so lo a block tr e hap hp]
      exact ⟨[.Pop, .muUnlock], by simp, fun hc => by cases hc⟩
    | some prev =>
      rw [addBlockApply_fail_some so lo a block prev tr e hap hp]
      exact ⟨[.Pop, .Apply [prev] (lo.Apply (lo.Apply a.ledger [block]).2 [prev]).1.isNone,
        .muUnlock], by simp, fun hc => by cases hc⟩

/-- C11: in `AddBlock(b)`, when `RollbackTo(b.Parent)` fails with NotFound and
`storage.ContainsID(b.Parent)` holds (the trace records `ContainsID` with
`true`), and `PreviousBlock`, `Height`, `RollbackToHeight` and
`AddDeserializedBlock` all succeed, the operation performs exactly these calls
in this order: `PreviousBlock()`, lock, `Height()`, `RollbackToHeight(h-1)`
with the 64-bit unsigned subtraction, `AddDeserializedBlock(prev)`, unlock,
and continues with `Apply([b])`; when that succeeds the operation returns with
`prevAddedBlock = b`. -/
theorem AddBlock_rebase (so : StorageOps S) (ko : KnownOps K) (lo : LedgerOps W)
    (a : State S K W) (block prevBlock : Block) (height : Nat)
    (h : Event.ContainsID block.Parent true ∈ (AddBlock so ko lo a block).2)
    (hprev : so.PreviousBlock (so.PushBlock a.storage block).2 = .ok prevBlock)
    (hheight : lo.Height (lo.RollbackTo a.ledger block.Parent).2 = .ok height)
    (hrbh : (lo.RollbackToHeight (lo.RollbackTo a.ledger block.Parent).2
      (heightMinusOne height)).1 = none)
    (hadd : (lo.AddDeserializedBlock (lo.RollbackToHeight (lo.RollbackTo a.ledger block.Parent).2
      (heightMinusOne height)).2 prevBlock).1 = none) :
    ∃ err rest, IsNotFound err = true ∧
      (AddBlock so ko lo a block).2 =
        [.muLock, .knownAdd block true, .PushBlock block true, .Mutex, .Lock,
          .RollbackTo block.Parent (some err), .Unlock, .ContainsID block.Parent true,
          .PreviousBlock true, .Lock, .Height (some height),
          .RollbackToHeight (heightMinusOne height) true,
          .AddDeserializedBlock prevBlock true, .Unlock,
          .Apply [block] (lo.Apply (lo.AddDeserializedBlock (lo.RollbackToHeight
            (lo.RollbackTo a.ledger block.Parent).2 (heightMinusOne height)).2
            prevBlock).2 [block]).1.isNone] ++ rest ∧
      heightMinusOne height = (height + 2 ^ 64 - 1) % 2 ^ 64 ∧
      ((lo.Apply (lo.AddDeserializedBlock (lo.RollbackToHeight
          (lo.RollbackTo a.ledger block.Parent).2 (heightMinusOne height)).2
          prevBlock).2 [block]).1 = none →
        rest = [.muUnlock] ∧ (AddBlock so ko lo a block).1.prevAddedBlock = some block) := by
  obtain ⟨err, hnf, _, hrun⟩ := AddBlock_rebase_entry so ko lo a block _ h rfl
    (by simp) (by simp) (by simp) (by simp) (by simp) (by simp) (by simp) (by simp) (by simp)
    (by simp)
  rw [hrun, addBlockRebase_ok so lo _ block prevBlock _ height hprev hheight hrbh hadd]
  obtain ⟨rest, htr, hok⟩ := addBlockApply_head so lo
    { storage := (so.PushBlock a.storage block).2
      prevAddedBlock := a.prevAddedBlock
      ledger := (lo.AddDeserializedBlock (lo.RollbackToHeight
        (lo.RollbackTo a.ledger block.Parent).2 (heightMinusOne height)).2 prevBlock).2
      knownBlocks := (ko.add a.knownBlocks block).2 }
    block
    ([.muLock, .knownAdd block true, .PushBlock block true, .Mutex, .Lock,
      .RollbackTo block.Parent (some err), .Unlock, .ContainsID block.Parent true] ++
      [.PreviousBlock true, .Lock, .Height (some height),
        .RollbackToHeight (heightMinusOne height) true,
        .AddDeserializedBlock prevBlock true, .Unlock])
  refine ⟨err, rest, hnf, ?_, rfl, hok⟩
  rw [htr]
  simp

end RebaseProofs

section RebaseProofs2

variable {S K W : Type}

/-- A block that names itself as parent: the ledger does not know its id
while the storage, holding the block just pushed, does.  The rebase rolls the
ledger back from height 2 to height 1, re-appends the previous block and the
block is applied. -/
theorem AddBlock_rebase_witness :
    Event.ContainsID 5 true ∈
      (AddBlock (liquidOps CreateBlock) knownOps (chainLedger 100) stateAfterB0
        (mkBlock 5 5 [7])).2 ∧
    (AddBlock (liquidOps CreateBlock) knownOps (chainLedger 100) stateAfterB0
      (mkBlock 5 5 [7])).1.prevAddedBlock = some (mkBlock 5 5 [7]) ∧
    (AddBlock (liquidOps CreateBlock) knownOps (chainLedger 100) stateAfterB0
      (mkBlock 5 5 [7])).2 =
      [.muLock, .knownAdd (mkBlock 5 5 [7]) true, .PushBlock (mkBlock 5 5 [7]) true, .Mutex,
        .Lock, .RollbackTo 5 (some .notFound), .Unlock, .ContainsID 5 true,
        .PreviousBlock true, .Lock, .Height (some 2), .RollbackToHeight 1 true,
        .AddDeserializedBlock (mkBlock 5 5 [7]) true, .Unlock,
        .Apply [mkBlock 5 5 [7]] true, .muUnlock] :=
  ⟨by decide,
    (AddBlock_rebase (liquidOps CreateBlock) knownOps (chainLedger 100) stateAfterB0
      (mkBlock 5 5 [7]) (mkBlock 5 5 [7]) 2 (by decide) rfl rfl rfl rfl).elim
      fun _ h1 => h1.elim fun _ h2 => (h2.2.2.2 rfl).2,
    by decide⟩

/-- C12: in the liquid-rebase branch of `AddBlock`, if `PreviousBlock`,
`Height`, `RollbackToHeight` or `AddDeserializedBlock` fails (the trace
records the failure `x`), the operation returns immediately: the trace is the
calls up to the failing one followed only by the unlocks, so no later rebase
step, no `Apply` and no `Pop` is executed; `prevAddedBlock` is unchanged and
the storage is the storage as `PushBlock` left it. -/
theorem AddBlock_rebase_failure (so : StorageOps S) (ko : KnownOps K) (lo : LedgerOps W)
    (a : State S K W) (block : Block) (x : Event) (hx : x.isRebaseFailure = true)
    (h : x ∈ (AddBlock so ko lo a block).2) :
    (∃ err, IsNotFound err = true ∧ ∃ steps,
      (AddBlock so ko lo a block).2 =
        [.muLock, .knownAdd block true, .PushBlock block true, .Mutex, .Lock,
          .RollbackTo block.Parent (some err), .Unlock, .ContainsID block.Parent true] ++ steps ∧
      (steps = [.PreviousBlock false, .muUnlock] ∨
        steps = [.PreviousBlock true, .Lock, .Height none, .Unlock, .muUnlock] ∨
        (∃ height, steps = [.PreviousBlock true, .Lock, .Height (some height),
          .RollbackToHeight (heightMinusOne height) false, .Unlock, .muUnlock]) ∨
        (∃ height prevBlock, steps = [.PreviousBlock true, .Lock, .Height (some height),
          .RollbackToHeight (heightMinusOne height) true,
          .AddDeserializedBlock prevBlock false, .Unlock, .muUnlock]))) ∧
    (∀ e ∈ (AddBlock so ko lo a block).2, e.isApply = false ∧ e ≠ .Pop) ∧
    (AddBlock so ko lo a block).1.prevAddedBlock = a.prevAddedBlock ∧
    (AddBlock so ko lo a block).1.storage = (so.PushBlock a.storage block).2 := by
  have hx1 : x.isApply = false := by cases x <;> simp_all [Event.isRebaseFailure, Event.isApply]
  obtain ⟨err, hnf, _, hrun⟩ := AddBlock_rebase_entry so ko lo a block x h hx1
    (by rintro rfl; simp [Event.isRebaseFailure] at hx)
    (by rintro rfl; simp [Event.isRebaseFailure] at hx)
    (by rintro rfl; simp [Event.isRebaseFailure] at hx)
    (by rintro ok rfl; simp [Event.isRebaseFailure] at hx)
    (by rintro ok rfl; simp [Event.isRebaseFailure] at hx)
    (by rintro rfl; simp [Event.isRebaseFailure] at hx)
    (by rintro rfl; simp [Event.isRebaseFailure] at hx)
    (by rintro rfl; simp [Event.isRebaseFailure] at hx)
    (by rintro e rfl; simp [Event.isRebaseFailure] at hx)
    (by rintro rfl; simp [Event.isRebaseFailure] at hx)
  rw [hrun] at h ⊢
  generalize ha3 : ({ storage := (so.PushBlock a.storage block).2
                      prevAddedBlock := a.prevAddedBlock
                      ledger := (lo.RollbackTo a.ledger block.Parent).2
                      knownBlocks := (ko.add a.knownBlocks block).2 } : State S K W) = a3 at h ⊢
  have hs : a3.storage = (so.PushBlock a.storage block).2 := by rw [← ha3]
  have hp : a3.prevAddedBlock = a.prevAddedBlock := by rw [← ha3]
  rw [← hs, ← hp]
  cases h1 : so.PreviousBlock a3.storage with
  | error e1 =>
    rw [addBlockRebase_prev_fail so lo a3 block _ e1 h1]
    refine ⟨⟨err, hnf, _, rfl, Or.inl rfl⟩, ?_, rfl, rfl⟩
    simp [Event.isApply]
  | ok prevBlock =>
    cases h2 : lo.Height a3.ledger with
    | error e2 =>
      rw [addBlockRebase_height_fail so lo a3 block prevBlock _ e2 h1 h2]
      refine ⟨⟨err, hnf, _, rfl, Or.inr (Or.inl rfl)⟩, ?_, rfl, rfl⟩
      simp [Event.isApply]
    | ok height =>
      cases h3 : (lo.RollbackToHeight a3.ledger (heightMinusOne height)).1 with
      | some e3 =>
        rw [addBlockRebase_rollback_fail so lo a3 block prevBlock _ height e3 h1 h2 h3]
        refine ⟨⟨err, hnf, _, rfl, Or.inr (Or.inr (Or.inl ⟨height, rfl⟩))⟩, ?_, rfl, rfl⟩
        simp [Event.isApply]
      | none =>
        cases h4 : (lo.AddDeserializedBlock
            (lo.RollbackToHeight a3.ledger (heightMinusOne height)).2 prevBlock).1 with
        | some e4 =>
          rw [addBlockRebase_add_fail so lo a3 block prevBlock _ height e4 h1 h2 h3 h4]
          refine ⟨⟨err, hnf, _, rfl,
            Or.inr (Or.inr (Or.inr ⟨height, prevBlock, rfl⟩))⟩, ?_, rfl, rfl⟩
          simp [Event.isApply]
        | none =>
          exfalso
          rw [addBlockRebase_ok so lo a3 block prevBlock _ height h1 h2 h3 h4] at h
          rcases addBlockApply_mem so lo _ block _ x h with h | h | h | h
          · simp only [List.mem_append, List.mem_cons, List.mem_singleton, List.not_mem_nil,
              or_false] at h
            rcases h with (h | h | h | h | h | h | h | h) | h | h | h | h | h | h <;>
              (subst h; simp [Event.isRebaseFailure] at hx)
          · rw [hx1] at h; cases h
          · subst h; simp [Event.isRebaseFailure] at hx
          · subst h; simp [Event.isRebaseFailure] at hx

/-- The same self-parented block sent to a freshly started node with an empty
ledger: the height is 0, `0 - 1` wraps to `2^64 - 1`, `RollbackToHeight`
fails and `AddBlock` returns with the block still in the storage. -/
theorem AddBlock_rebase_failure_witness :
    (Event.RollbackToHeight 18446744073709551615 false).isRebaseFailure = true ∧
    Event.RollbackToHeight 18446744073709551615 false ∈
      (AddBlock (liquidOps CreateBlock) knownOps (chainLedger 100) stateFresh
        (mkBlock 5 5 [7])).2 ∧
    (AddBlock (liquidOps CreateBlock) knownOps (chainLedger 100) stateFresh
      (mkBlock 5 5 [7])).1.storage =
      { scheme := 84, keyBlock := some (mkBlock 5 5 [7]), micros := [] } :=
  ⟨rfl, by decide,
    (AddBlock_rebase_failure (liquidOps CreateBlock) knownOps (chainLedger 100) stateFresh
      (mkBlock 5 5 [7]) (.RollbackToHeight 18446744073709551615 false) rfl (by decide)).2.2.2⟩

end RebaseProofs2

section LockLemmas

variable {S K W : Type}

theorem AddBlock_ledger_lock (so : StorageOps S) (ko : KnownOps K) (lo : LedgerOps W)
    (a : State S K W) (block : Block) :
    lockRun ledgerRole false (AddBlock so ko lo a block).2 = some false := by
  unfold AddBlock addBlockRollback addBlockRebase addBlockApply
  simp only []
  repeat' split
  all_goals rfl

theorem AddBlock_lock_count (so : StorageOps S) (ko : KnownOps K) (lo : LedgerOps W)
    (a : State S K W) (block : Block) :
    (AddBlock so ko lo a block).2.count .Unlock = (AddBlock so ko lo a block).2.count .Lock := by
  unfold AddBlock addBlockRollback addBlockRebase addBlockApply
  simp only []
  repeat' split
  all_goals simp [List.count_cons]

theorem AddMicroblock_ledger_lock (so : StorageOps S) (lo : LedgerOps W)
    (a : State S K W) (micro : MicroBlock) :
    lockRun ledgerRole false (AddMicroblock so lo a micro).2 = some false := by
  unfold AddMicroblock
  simp only []
  repeat' split
  all_goals rfl

theorem AddMicroblock_lock_count (so : StorageOps S) (lo : LedgerOps W)
    (a : State S K W) (micro : MicroBlock) :
    (AddMicroblock so lo a micro).2.count .Unlock
      = (AddMicroblock so lo a micro).2.count .Lock := by
  unfold AddMicroblock
  simp only []
  repeat' split
  all_goals simp [List.count_cons]

theorem AddBlock_mu_lock (so : StorageOps S) (ko : KnownOps K) (lo : LedgerOps W)
    (a : State S K W) (block : Block) :
    lockRun muRole false (AddBlock so ko lo a block).2 = some false := by
  unfold AddBlock addBlockRollback addBlockRebase addBlockApply
  simp only []
  repeat' split
  all_goals rfl

theorem AddMicroblock_mu_lock (so : StorageOps S) (lo : LedgerOps W)
    (a : State S K W) (micro : MicroBlock) :
    lockRun muRole false (AddMicroblock so lo a micro).2 = some false := by
  unfold AddMicroblock
  simp only []
  repeat' split
  all_goals rfl

theorem blockApplied_mu_lock (so : StorageOps S) (a : State S K W) (block : Block) :
    lockRun muRole false (blockApplied so a block []).2 = some false := by
  unfold blockApplied
  repeat' split
  all_goals rfl

theorem blockApplied_trace (so : StorageOps S) (a : State S K W) (block : Block)
    (tr : List Event) :
    (blockApplied so a block tr).2 = tr ++ (blockApplied so a block []).2 := by
  unfold blockApplied
  repeat' split
  all_goals simp

theorem BlockApplied_split (so : StorageOps S) (lo : LedgerOps W) (a : State S K W) :
    ∃ reads body, (BlockApplied so lo a).2 = reads ++ body ∧ reads ≠ [] ∧
      (∀ e ∈ reads, e.isLedgerRead = true) ∧ lockRun muRole false body = some false := by
  cases h1 : lo.Height a.ledger with
  | error e =>
    refine ⟨[.Height none], [], ?_, by simp, by simp [Event.isLedgerRead], rfl⟩
    simp [BlockApplied, h1]
  | ok h =>
    cases h2 : lo.BlockByHeight a.ledger h with
    | error e =>
      refine ⟨[.Height (some h), .BlockByHeight h false], [], ?_, by simp,
        by simp [Event.isLedgerRead], rfl⟩
      simp [BlockApplied, h1, h2]
    | ok b =>
      refine ⟨[.Height (some h), .BlockByHeight h true], (blockApplied so a b []).2, ?_,
        by simp, by simp [Event.isLedgerRead], blockApplied_mu_lock so a b⟩
      simp only [BlockApplied, h1, h2]
      exact blockApplied_trace so a b _

theorem BlockApplied_mu_lock (so : StorageOps S) (lo : LedgerOps W) (a : State S K W) :
    lockRun muRole false (BlockApplied so lo a).2 = none := by
  unfold BlockApplied blockApplied
  repeat' split
  all_goals rfl

end LockLemmas

section LockProofs

variable {S K W : Type}

/-- C18: on every execution path of `AddBlock` and of `AddMicroblock`, the
trace respects the ledger mutex: run from "not held", no event breaks its role
(`RollbackTo`, `RollbackToHeight` and `AddDeserializedBlock` occur only while
the mutex is held, `Apply` only while it is not held, `Lock` only while it is
free and `Unlock` only while it is held), the mutex is not held when the
operation returns, and the trace has as many `Unlock` as `Lock` events. -/
theorem ledger_mutex_discipline (so : StorageOps S) (ko : KnownOps K) (lo : LedgerOps W)
    (a : State S K W) (block : Block) (micro : MicroBlock) :
    (lockRun ledgerRole false (AddBlock so ko lo a block).2 = some false ∧
      (AddBlock so ko lo a block).2.count .Unlock = (AddBlock so ko lo a block).2.count .Lock) ∧
    (lockRun ledgerRole false (AddMicroblock so lo a micro).2 = some false ∧
      (AddMicroblock so lo a micro).2.count .Unlock
        = (AddMicroblock so lo a micro).2.count .Lock) :=
  ⟨⟨AddBlock_ledger_lock so ko lo a block, AddBlock_lock_count so ko lo a block⟩,
    AddMicroblock_ledger_lock so lo a micro, AddMicroblock_lock_count so lo a micro⟩

/-- C20 (the code at the failing input): on the state after `blockApplied(B0)`,
`BlockApplied` reads the ledger height and the tip block before it locks `mu`,
so these reads do not execute under the mutex: run against `mu`, its trace
breaks the role of the first event.  The sibling `AddMicroblock` makes the same
two reads between `muLock` and `muUnlock`. -/
theorem BlockApplied_reads_before_lock :
    ((BlockApplied (liquidOps CreateBlock) (chainLedger 100) stateAfterB0).2 =
      [.Height (some 2), .BlockByHeight 2 true, .muLock, .muUnlock] ∧
    lockRun muRole false (BlockApplied (liquidOps CreateBlock) (chainLedger 100) stateAfterB0).2
      ≠ some false) ∧
    ((AddMicroblock (liquidOps CreateBlock) (chainLedger 100) stateAfterB1
        (mkMicro 3 4 [8])).2.take 5 =
      [.muLock, .PushMicro (mkMicro 3 4 [8]) true, .StorageBlock true, .Height (some 3),
        .BlockByHeight 3 true] ∧
    lockRun muRole false (AddMicroblock (liquidOps CreateBlock) (chainLedger 100) stateAfterB1
        (mkMicro 3 4 [8])).2 = some false) := by
  decide

/-- Coverage of the mutex `mu` on every path: the traces of `AddBlock`, of
`AddMicroblock` and of `blockApplied(b)` start by locking it, end by unlocking
it, and every call lies in between; the trace of `BlockApplied` is one or two
ledger reads (`Height`, then `BlockByHeight`) made without holding `mu`,
followed by a part that executes under it, and as a whole it never respects
the mutex. -/
theorem mu_coverage (so : StorageOps S) (ko : KnownOps K) (lo : LedgerOps W)
    (a : State S K W) (block : Block) (micro : MicroBlock) :
    lockRun muRole false (AddBlock so ko lo a block).2 = some false ∧
    lockRun muRole false (AddMicroblock so lo a micro).2 = some false ∧
    lockRun muRole false (blockApplied so a block []).2 = some false ∧
    (∃ reads body, (BlockApplied so lo a).2 = reads ++ body ∧ reads ≠ [] ∧
      (∀ e ∈ reads, e.isLedgerRead = true) ∧ lockRun muRole false body = some false) ∧
    lockRun muRole false (BlockApplied so lo a).2 = none :=
  ⟨AddBlock_mu_lock so ko lo a block, AddMicroblock_mu_lock so lo a micro,
    blockApplied_mu_lock so a block, BlockApplied_split so lo a, BlockApplied_mu_lock so lo a⟩

/-- C16 (the code at the failing input): after scenario 1 of section 8 an
applier that rejects the candidate makes `AddMicroblock` roll the ledger back
to block 2, pop the storage and return: `Apply([prevAddedBlock])` is not
attempted, so the ledger tip is block 2 while `prevAddedBlock` still is block
3. -/
theorem AddMicroblock_no_restore :
    (AddMicroblock (liquidOps CreateBlock) (rejectingLedger 100) stateAfterB1
      (mkMicro 3 4 [8])).2 =
      [.muLock, .PushMicro (mkMicro 3 4 [8]) true, .StorageBlock true, .Height (some 3),
        .BlockByHeight 3 true, .Mutex, .Lock, .RollbackTo 2 none, .Unlock,
        .Apply [mkBlock 4 2 [7, 8]] false, .Pop, .muUnlock] ∧
    (AddMicroblock (liquidOps CreateBlock) (rejectingLedger 100) stateAfterB1
      (mkMicro 3 4 [8])).1.prevAddedBlock = some (mkBlock 3 2 [7]) ∧
    chainTip stateAfterB1.ledger = some 3 ∧
    chainTip (AddMicroblock (liquidOps CreateBlock) (rejectingLedger 100) stateAfterB1
      (mkMicro 3 4 [8])).1.ledger = some 2 := by
  decide

end LockProofs

/-! ## Block synthesis: composition -/

theorem microLoop_append (acc : Transactions × Signature) (ms1 ms2 : List MicroBlock) :
    microLoop acc (ms1 ++ ms2) = microLoop (microLoop acc ms1) ms2 := by
  induction ms1 generalizing acc with
  | nil => rfl
  | cons row rest ih => exact ih _

/-- C25: synthesis composes over list concatenation.  When the three block
creations succeed, `FromMicroblockRow(FromMicroblockRow(k, ms1), ms2)` has the
same transactions, BlockSignature, version, timestamp, parent, generator key,
consensus, features and reward vote as `FromMicroblockRow(k, ms1 ++ ms2)`; and
a successful `FromMicroblockRow(k, [])` agrees with `k` on all of these
fields. -/
theorem FromMicroblockRow_append (create : CreateBlockFn) (hc : CreateBlockContract create)
    (s : Scheme) (k : Block) (ms1 ms2 : List MicroBlock) (b1 b12 b : Block)
    (h1 : FromMicroblockRow create s { KeyBlock := k, MicroBlocks := ms1 } = .ok b1)
    (h12 : FromMicroblockRow create s { KeyBlock := b1, MicroBlocks := ms2 } = .ok b12)
    (h : FromMicroblockRow create s { KeyBlock := k, MicroBlocks := ms1 ++ ms2 } = .ok b) :
    (b12.Transactions = b.Transactions ∧ b12.BlockSignature = b.BlockSignature ∧
      b12.Version = b.Version ∧ b12.Timestamp = b.Timestamp ∧ b12.Parent = b.Parent ∧
      b12.GenPublicKey = b.GenPublicKey ∧ b12.NxtConsensus = b.NxtConsensus ∧
      b12.Features = b.Features ∧ b12.RewardVote = b.RewardVote) ∧
    ∀ b0 : Block, FromMicroblockRow create s { KeyBlock := k, MicroBlocks := [] } = .ok b0 →
      b0.Transactions = k.Transactions ∧ b0.BlockSignature = k.BlockSignature ∧
      b0.Version = k.Version ∧ b0.Timestamp = k.Timestamp ∧ b0.Parent = k.Parent ∧
      b0.GenPublicKey = k.GenPublicKey ∧ b0.NxtConsensus = k.NxtConsensus ∧
      b0.Features = k.Features ∧ b0.RewardVote = k.RewardVote := by
  constructor
  · obtain ⟨c1, hb1, rfl⟩ := FromMicroblockRow_ok create s k ms1 b1 h1
    obtain ⟨c12, hb12, rfl⟩ := FromMicroblockRow_ok create s _ ms2 b12 h12
    obtain ⟨c, hb, rfl⟩ := FromMicroblockRow_ok create s k (ms1 ++ ms2) b h
    obtain ⟨t1, g2, g3, g4, g5, g6, g7, g8⟩ := hc _ _ _ _ _ _ _ _ _ _ hb1
    obtain ⟨t12, e2, e3, e4, e5, e6, e7, e8⟩ := hc _ _ _ _ _ _ _ _ _ _ hb12
    obtain ⟨t, f2, f3, f4, f5, f6, f7, f8⟩ := hc _ _ _ _ _ _ _ _ _ _ hb
    simp only at t12 e2 e3 e4 e5 e6 e7 e8
    have hloop : microLoop (k.Transactions, k.BlockSignature) (ms1 ++ ms2)
        = microLoop (c1.Transactions,
            (microLoop (k.Transactions, k.BlockSignature) ms1).2) ms2 := by
      rw [microLoop_append, t1]
    refine ⟨?_, ?_, ?_, ?_, ?_, ?_, ?_, ?_, ?_⟩
    · show c12.Transactions = c.Transactions
      rw [t12, t, hloop]
    · show (microLoop _ ms2).2 = (microLoop _ (ms1 ++ ms2)).2
      rw [hloop]
    · show c12.Version = c.Version
      rw [e6, f6, g6]
    · show c12.Timestamp = c.Timestamp
      rw [e2, f2, g2]
    · show c12.Parent = c.Parent
      rw [e3, f3, g3]
    · show c12.GenPublicKey = c.GenPublicKey
      rw [e4, f4, g4]
    · show c12.NxtConsensus = c.NxtConsensus
      rw [e5, f5, g5]
    · show c12.Features = c.Features
      rw [e7, f7, g7]
    · show c12.RewardVote = c.RewardVote
      rw [e8, f8, g8]
  · intro b0 h0
    obtain ⟨c0, hb0, rfl⟩ := FromMicroblockRow_ok create s k [] b0 h0
    obtain ⟨t0, d2, d3, d4, d5, d6, d7, d8⟩ := hc _ _ _ _ _ _ _ _ _ _ hb0
    exact ⟨t0, rfl, d6, d2, d3, d4, d5, d7, d8⟩

/-- Synthesising over `[m1]` and then over `[m2]` gives the block synthesised
over `[m1, m2]`, and synthesis over the empty list gives back the key-block's
fields. -/
theorem FromMicroblockRow_append_witness :
    CreateBlockContract CreateBlock ∧
    FromMicroblockRow CreateBlock 84
      { KeyBlock := mkBlock 3 2 [7], MicroBlocks := [mkMicro 3 4 [8]] }
      = .ok (mkBlock 4 2 [7, 8]) ∧
    FromMicroblockRow CreateBlock 84
      { KeyBlock := mkBlock 4 2 [7, 8], MicroBlocks := [mkMicro 4 5 [9, 10]] }
      = .ok (mkBlock 5 2 [7, 8, 9, 10]) ∧
    FromMicroblockRow CreateBlock 84
      { KeyBlock := mkBlock 3 2 [7], MicroBlocks := [mkMicro 3 4 [8]] ++ [mkMicro 4 5 [9, 10]] }
      = .ok (mkBlock 5 2 [7, 8, 9, 10]) ∧
    (mkBlock 5 2 [7, 8, 9, 10]).Transactions = (mkBlock 5 2 [7, 8, 9, 10]).Transactions ∧
    (mkBlock 3 2 [7]).BlockSignature = (mkBlock 3 2 [7]).BlockSignature :=
  ⟨CreateBlock_contract, rfl, rfl, rfl,
    (FromMicroblockRow_append CreateBlock CreateBlock_contract 84 (mkBlock 3 2 [7])
      [mkMicro 3 4 [8]] [mkMicro 4 5 [9, 10]] (mkBlock 4 2 [7, 8]) (mkBlock 5 2 [7, 8, 9, 10])
      (mkBlock 5 2 [7, 8, 9, 10]) rfl rfl rfl).1.1,
    ((FromMicroblockRow_append CreateBlock CreateBlock_contract 84 (mkBlock 3 2 [7])
      [mkMicro 3 4 [8]] [mkMicro 4 5 [9, 10]] (mkBlock 4 2 [7, 8]) (mkBlock 5 2 [7, 8, 9, 10])
      (mkBlock 5 2 [7, 8, 9, 10]) rfl rfl rfl).2 (mkBlock 3 2 [7]) rfl).2.1⟩

/-! ## Wire header: proofs -/

theorem uint32_putUint32 (v : Nat) (hv : v < 2 ^ 32) : uint32 (putUint32 v) = v := by
  simp only [uint32, putUint32, List.getD_cons_succ, List.getD_cons_zero]
  omega

theorem putUint32_uint32 (a b c d : Nat) (ha : a < 256) (hb : b < 256) (hc : c < 256)
    (hd : d < 256) : putUint32 (uint32 [a, b, c, d]) = [a, b, c, d] := by
  simp only [uint32, putUint32, List.getD_cons_succ, List.getD_cons_zero]
  refine List.cons_eq_cons.2 ⟨by omega, List.cons_eq_cons.2 ⟨by omega,
    List.cons_eq_cons.2 ⟨by omega, List.cons_eq_cons.2 ⟨by omega, rfl⟩⟩⟩⟩

theorem uint32_lt (a b c d : Nat) (ha : a < 256) (hb : b < 256) (hc : c < 256)
    (hd : d < 256) : uint32 [a, b, c, d] < 2 ^ 32 := by
  simp only [uint32, List.getD_cons_succ, List.getD_cons_zero]
  omega

theorem Header_MarshalBinary_eq (h : Header) :
    h.MarshalBinary = .ok (putUint32 h.Length ++ [0x12, 0x34, 0x56, 0x78] ++ [h.ContentID] ++
      putUint32 h.PayloadLength ++ putUint32 h.PayloadCsum) := by
  simp [Header.MarshalBinary, writeAt, putUint32, headerMagic]

/-- C21: for every Header `h` (with field values that fit their Go types),
`Header.MarshalBinary` returns no error and exactly 17 bytes: bytes 0..3 are
`h.Length` big-endian, bytes 4..7 are `0x12 0x34 0x56 0x78` (the constant
`0x12345678`, whatever `h.Magic` is), byte 8 is `h.ContentID`, bytes 9..12 are
`h.PayloadLength` and bytes 13..16 are `h.PayloadCsum`, both big-endian. -/
theorem Header_MarshalBinary_layout (h : Header) (hw : h.wellTyped) :
    ∃ data, h.MarshalBinary = .ok data ∧ data.length = 17 ∧
      slice data 0 4 = putUint32 h.Length ∧ uint32 (slice data 0 4) = h.Length ∧
      slice data 4 8 = [0x12, 0x34, 0x56, 0x78] ∧ uint32 (slice data 4 8) = 0x12345678 ∧
      data.getD 8 0 = h.ContentID ∧
      slice data 9 13 = putUint32 h.PayloadLength ∧
      uint32 (slice data 9 13) = h.PayloadLength ∧
      slice data 13 17 = putUint32 h.PayloadCsum ∧
      uint32 (slice data 13 17) = h.PayloadCsum := by
  obtain ⟨h1, _, _, h4, h5⟩ := hw
  refine ⟨_, Header_MarshalBinary_eq h, ?_, ?_, ?_, ?_, ?_, ?_, ?_, ?_, ?_, ?_⟩
  · simp [putUint32]
  · simp [slice, putUint32]
  · have := uint32_putUint32 h.Length h1
    simpa [slice, putUint32] using this
  · simp [slice, putUint32]
  · simp [slice, putUint32, uint32]
  · simp [putUint32]
  · simp [slice, putUint32]
  · have := uint32_putUint32 h.PayloadLength h4
    simpa [slice, putUint32] using this
  · simp [slice, putUint32]
  · have := uint32_putUint32 h.PayloadCsum h5
    simpa [slice, putUint32] using this

/-- The header of a Peers message with two peers: the magic field of the
value (0) is not what is written. -/
theorem Header_MarshalBinary_layout_witness :
    peersHeader.wellTyped ∧
    peersHeader.MarshalBinary =
      .ok [0, 0, 0, 29, 0x12, 0x34, 0x56, 0x78, 2, 0, 0, 0, 12, 0xDE, 0xAD, 0xBE, 0xEF] ∧
    ∃ data, peersHeader.MarshalBinary = .ok data ∧ data.length = 17 :=
  ⟨by decide, rfl,
    (Header_MarshalBinary_layout peersHeader (by decide)).imp fun _ h => ⟨h.1, h.2.1⟩⟩

theorem Header_UnmarshalBinary_long (h : Header) (data : List Nat) (hlen : 17 ≤ data.length) :
    h.UnmarshalBinary data =
      if uint32 (slice data 4 8) ≠ headerMagic then
        .done ({ h with Length := uint32 (slice data 0 4), Magic := uint32 (slice data 4 8) },
          some (.other 20))
      else
        .done ({ Length := uint32 (slice data 0 4), Magic := uint32 (slice data 4 8),
                 ContentID := data.getD 8 0, PayloadLength := uint32 (slice data 9 13),
                 PayloadCsum := uint32 (slice data 13 17) }, none) := by
  unfold Header.UnmarshalBinary
  have h4 : ¬ data.length < 4 := by omega
  have h8 : ¬ data.length < 8 := by omega
  have h9 : ¬ data.length < 9 := by omega
  have h13 : ¬ data.length < 13 := by omega
  have h17 : ¬ data.length < 17 := by omega
  simp only [h4, h8, h9, h13, h17, if_false]

/-- C23: for every input of at least 17 bytes, `Header.UnmarshalBinary`
returns (it does not panic), and it returns an error if and only if bytes 4..7
read big-endian differ from `0x12345678`; when it returns an error,
`ContentID`, `PayloadLength` and `PayloadCsum` of the receiver are left
unchanged and `Length` and `Magic` hold the values read from bytes 0..7. -/
theorem Header_UnmarshalBinary_error (h : Header) (data : List Nat)
    (hlen : 17 ≤ data.length) :
    ∃ h1 err, h.UnmarshalBinary data = .done (h1, err) ∧
      (err ≠ none ↔ uint32 (slice data 4 8) ≠ 0x12345678) ∧
      (err ≠ none →
        h1.ContentID = h.ContentID ∧ h1.PayloadLength = h.PayloadLength ∧
        h1.PayloadCsum = h.PayloadCsum ∧
        h1.Length = uint32 (slice data 0 4) ∧ h1.Magic = uint32 (slice data 4 8)) := by
  rw [Header_UnmarshalBinary_long h data hlen]
  by_cases hm : uint32 (slice data 4 8) = headerMagic
  · rw [if_neg (not_not.mpr hm)]
    refine ⟨_, none, rfl, ?_, ?_⟩
    · simp [hm, headerMagic]
    · simp
  · rw [if_pos hm]
    refine ⟨_, some (.other 20), rfl, ?_, ?_⟩
    · simpa [headerMagic] using hm
    · simp

/-- Seventeen bytes with a wrong magic: the decoder reports an error after
having overwritten `Length` and `Magic` only. -/
theorem Header_UnmarshalBinary_error_witness :
    peersHeader.UnmarshalBinary [0, 0, 0, 7, 0, 0, 0, 1, 9, 9, 9, 9, 9, 9, 9, 9, 9] =
      .done ({ peersHeader with Length := 7, Magic := 1 }, some (.other 20)) ∧
    ∃ h1 err, peersHeader.UnmarshalBinary [0, 0, 0, 7, 0, 0, 0, 1, 9, 9, 9, 9, 9, 9, 9, 9, 9] =
      .done (h1, err) ∧
      (err ≠ none ↔ uint32 (slice [0, 0, 0, 7, 0, 0, 0, 1, 9, 9, 9, 9, 9, 9, 9, 9, 9] 4 8)
        ≠ 0x12345678) :=
  ⟨by decide,
    (Header_UnmarshalBinary_error peersHeader [0, 0, 0, 7, 0, 0, 0, 1, 9, 9, 9, 9, 9, 9, 9, 9, 9]
      (by decide)).imp fun _ h => h.imp fun _ h => ⟨h.1, h.2.1⟩⟩

theorem slice_of_length_17 (d : List Nat) (hlen : d.length = 17) :
    ∃ b0 b1 b2 b3 b4 b5 b6 b7 b8 b9 b10 b11 b12 b13 b14 b15 b16,
      d = [b0, b1, b2, b3, b4, b5, b6, b7, b8, b9, b10, b11, b12, b13, b14, b15, b16] := by
  match d, hlen with
  | [b0, b1, b2, b3, b4, b5, b6, b7, b8, b9, b10, b11, b12, b13, b14, b15, b16], _ =>
    exact ⟨b0, b1, b2, b3, b4, b5, b6, b7, b8, b9, b10, b11, b12, b13, b14, b15, b16, rfl⟩

/-- C22: the header encoding round-trips.  For every Header `h` (with field
values that fit their Go types) and any receiver `r`, decoding
`MarshalBinary(h)` succeeds and yields `Length`, `ContentID`, `PayloadLength`
and `PayloadCsum` of `h` and `Magic = 0x12345678`; conversely, for every
17-byte input `d` whose bytes 4..7 encode `0x12345678`, decoding `d` succeeds
and `MarshalBinary` of the decoded header is `d`. -/
theorem Header_roundtrip (h r : Header) (hw : h.wellTyped) (d : List Nat)
    (hlen : d.length = 17) (hbytes : ∀ x ∈ d, x < 256)
    (hmagic : uint32 (slice d 4 8) = 0x12345678) :
    (∃ data, h.MarshalBinary = .ok data ∧
      r.UnmarshalBinary data =
        .done ({ Length := h.Length, Magic := 0x12345678, ContentID := h.ContentID,
                 PayloadLength := h.PayloadLength, PayloadCsum := h.PayloadCsum }, none)) ∧
    (∃ h1, r.UnmarshalBinary d = .done (h1, none) ∧ h1.MarshalBinary = .ok d) := by
  obtain ⟨h1, _, _, h4, h5⟩ := hw
  constructor
  · refine ⟨_, Header_MarshalBinary_eq h, ?_⟩
    rw [Header_UnmarshalBinary_long _ _ (by simp [putUint32])]
    simp [slice, putUint32, headerMagic, uint32]
    refine ⟨by omega, by omega, by omega⟩
  · obtain ⟨b0, b1, b2, b3, b4, b5, b6, b7, b8, b9, b10, b11, b12, b13, b14, b15, b16, rfl⟩ :=
      slice_of_length_17 d hlen
    rw [Header_UnmarshalBinary_long _ _ (by simp)]
    simp only [List.mem_cons, List.mem_singleton, List.not_mem_nil, or_false, forall_eq_or_imp,
      forall_eq] at hbytes
    obtain ⟨c0, c1, c2, c3, c4, c5, c6, c7, _, c9, c10, c11, c12, c13, c14, c15, c16⟩ := hbytes
    have hm : uint32 (slice [b0, b1, b2, b3, b4, b5, b6, b7, b8, b9, b10, b11, b12, b13, b14,
        b15, b16] 4 8) = headerMagic := hmagic
    simp only [hm, ne_eq, not_true_eq_false, if_false]
    refine ⟨_, rfl, ?_⟩
    rw [Header_MarshalBinary_eq]
    have m1 : uint32 [b4, b5, b6, b7] = 0x12345678 := by simpa [slice] using hmagic
    have p0 := putUint32_uint32 b0 b1 b2 b3 c0 c1 c2 c3
    have p1 := putUint32_uint32 b4 b5 b6 b7 c4 c5 c6 c7
    have p2 := putUint32_uint32 b9 b10 b11 b12 c9 c10 c11 c12
    have p3 := putUint32_uint32 b13 b14 b15 b16 c13 c14 c15 c16
    rw [m1] at p1
    simp only [putUint32] at p1
    simp only [List.cons.injEq, and_true] at p1
    simp [slice, p0, p2, p3]
    omega


/-- The 17 bytes of the header of a Peers message decode to a header whose
encoding is these bytes again. -/
theorem Header_roundtrip_witness :
    peersHeader.wellTyped ∧
    (∃ data, peersHeader.MarshalBinary = .ok data ∧
      peersHeader.UnmarshalBinary data =
        .done ({ Length := 29, Magic := 0x12345678, ContentID := 2, PayloadLength := 12,
                 PayloadCsum := 0xDEADBEEF }, none)) ∧
    ∃ h1, peersHeader.UnmarshalBinary
        [0, 0, 0, 29, 0x12, 0x34, 0x56, 0x78, 2, 0, 0, 0, 12, 0xDE, 0xAD, 0xBE, 0xEF]
          = .done (h1, none) ∧
      h1.MarshalBinary
        = .ok [0, 0, 0, 29, 0x12, 0x34, 0x56, 0x78, 2, 0, 0, 0, 12, 0xDE, 0xAD, 0xBE, 0xEF] :=
  ⟨by decide,
    Header_roundtrip peersHeader peersHeader (by decide)
      [0, 0, 0, 29, 0x12, 0x34, 0x56, 0x78, 2, 0, 0, 0, 12, 0xDE, 0xAD, 0xBE, 0xEF]
      (by decide) (by decide) (by decide)⟩

/-! ## Protobuf converter: proofs -/

namespace ProtobufConverter

theorem post_pure {α : Type} (a : α) (c : Converter) (Q : α → Converter → Prop) :
    post (pure a) c Q ↔ Q a c := Iff.rfl

theorem post_bind {α β : Type} (m : Conv α) (f : α → Conv β) (c : Converter)
    (Q : β → Converter → Prop) :
    post (m >>= f) c Q ↔ post m c (fun a c1 => post (f a) c1 Q) := by
  unfold post
  show (match (match m c with
      | .done (a, c1) => f a c1
      | .panic kind => .panic kind) with
    | .done (a, c1) => Q a c1
    | .panic kind => kind ≠ .unsupportedTransaction) ↔ _
  cases h : m c with
  | done r => rfl
  | panic kind => rfl

theorem post_mono {α : Type} (m : Conv α) (c : Converter) (Q R : α → Converter → Prop)
    (h : post m c Q) (hQR : ∀ a c1, Q a c1 → R a c1) : post m c R := by
  unfold post at h ⊢
  cases hm : m c with
  | done r =>
    rw [hm] at h
    exact hQR _ _ h
  | panic kind =>
    rw [hm] at h
    exact h

theorem Step_refl (c : Converter) : Step c c := Or.inl rfl

theorem Step_trans {c c1 c2 : Converter} (h1 : Step c c1) (h2 : Step c1 c2) : Step c c2 := by
  rcases h2 with h2 | h2
  · rw [h2]; exact h1
  · exact Or.inr h2

theorem sticky_pure {α : Type} (a : α) : Sticky (pure a : Conv α) :=
  fun c => Step_refl c

theorem sticky_bind {α β : Type} {m : Conv α} {f : α → Conv β} (hm : Sticky m)
    (hf : ∀ a, Sticky (f a)) : Sticky (m >>= f) := by
  intro c
  rw [post_bind]
  refine post_mono _ _ _ _ (hm c) ?_
  intro a c1 h1
  exact post_mono _ _ _ _ (hf a c1) (fun _ c2 h2 => Step_trans h1 h2)

theorem sticky_getErr : Sticky getErr :=
  fun c => Step_refl c

theorem sticky_setErr (err : Error) : Sticky (setErr err) :=
  fun _ => Or.inr ⟨by simp, rfl⟩

theorem sticky_deref {α : Type} (p : Option α) : Sticky (deref p) := by
  intro c
  cases p with
  | none => simp [deref, crash, post]
  | some a => exact Step_refl c

theorem sticky_ite {α : Type} (b : Prop) [Decidable b] {m1 m2 : Conv α} (h1 : Sticky m1)
    (h2 : Sticky m2) : Sticky (if b then m1 else m2) := by
  split
  · exact h1
  · exact h2

theorem sticky_Address (env : Externals) (scheme : Nat) (addr : List Nat) :
    Sticky (Address env scheme addr) :=
  sticky_pure _

theorem sticky_uint64 (value : Int) : Sticky (uint64 value) := by
  unfold uint64
  refine sticky_bind sticky_getErr (fun e => ?_)
  refine sticky_ite _ (sticky_pure _) (sticky_ite _ ?_ (sticky_pure _))
  exact sticky_bind (sticky_setErr _) (fun _ => sticky_pure _)

theorem sticky_byte (value : Int) : Sticky (byte value) := by
  unfold byte
  refine sticky_bind sticky_getErr (fun e => ?_)
  refine sticky_ite _ (sticky_pure _) (sticky_ite _ ?_ (sticky_pure _))
  exact sticky_bind (sticky_setErr _) (fun _ => sticky_pure _)

theorem sticky_digest (env : Externals) (d : List Nat) : Sticky (digest env d) := by
  unfold digest
  refine sticky_bind sticky_getErr (fun e => ?_)
  refine sticky_ite _ (sticky_pure _) ?_
  split
  · exact sticky_bind (sticky_setErr _) (fun _ => sticky_pure _)
  · exact sticky_pure _

theorem sticky_optionalAsset (env : Externals) (asset : List Nat) :
    Sticky (optionalAsset env asset) := by
  unfold optionalAsset
  refine sticky_bind sticky_getErr (fun e => ?_)
  refine sticky_ite _ (sticky_pure _) (sticky_ite _ (sticky_pure _) ?_)
  exact sticky_bind (sticky_digest _ _) (fun _ => sticky_pure _)

theorem sticky_extractOptionalAsset (env : Externals) (a : Option PbAmount) :
    Sticky (extractOptionalAsset env a) := by
  unfold extractOptionalAsset
  refine sticky_bind sticky_getErr (fun e => ?_)
  refine sticky_ite _ (sticky_pure _) ?_
  split
  · exact sticky_bind (sticky_setErr _) (fun _ => sticky_pure _)
  · exact sticky_optionalAsset _ _

theorem sticky_amount (a : Option PbAmount) : Sticky (amount a) := by
  unfold amount
  refine sticky_bind sticky_getErr (fun e => ?_)
  refine sticky_ite _ (sticky_pure _) ?_
  split
  · exact sticky_bind (sticky_setErr _) (fun _ => sticky_pure _)
  · exact sticky_ite _ (sticky_bind (sticky_setErr _) (fun _ => sticky_pure _)) (sticky_pure _)

theorem sticky_convertAmount (env : Externals) (a : Option PbAmount) :
    Sticky (convertAmount env a) := by
  unfold convertAmount
  refine sticky_bind sticky_getErr (fun e => ?_)
  refine sticky_ite _ (sticky_pure _) ?_
  exact sticky_bind (sticky_extractOptionalAsset _ _)
    (fun _ => sticky_bind (sticky_amount _) (fun _ => sticky_pure _))

theorem sticky_convertAssetAmount (env : Externals) (a : Option PbAmount) :
    Sticky (convertAssetAmount env a) := by
  unfold convertAssetAmount
  refine sticky_bind sticky_getErr (fun e => ?_)
  refine sticky_ite _ (sticky_pure _) ?_
  split
  · exact sticky_bind (sticky_setErr _) (fun _ => sticky_pure _)
  · split
    · exact sticky_bind (sticky_setErr _) (fun _ => sticky_pure _)
    · exact sticky_bind (sticky_uint64 _) (fun _ => sticky_pure _)

theorem sticky_publicKey (env : Externals) (pk : List Nat) : Sticky (publicKey env pk) := by
  unfold publicKey
  refine sticky_bind sticky_getErr (fun e => ?_)
  refine sticky_ite _ (sticky_pure _) ?_
  split
  · exact sticky_bind (sticky_setErr _) (fun _ => sticky_pure _)
  · exact sticky_pure _

theorem sticky_string (bytes : List Nat) : Sticky (string bytes) := by
  unfold string
  refine sticky_bind sticky_getErr (fun e => ?_)
  exact sticky_ite _ (sticky_pure _) (sticky_pure _)

theorem sticky_script (s : Option PbScript) : Sticky (script s) := by
  unfold script
  refine sticky_bind sticky_getErr (fun e => ?_)
  refine sticky_ite _ (sticky_pure _) ?_
  split
  · exact sticky_pure _
  · exact sticky_pure _

theorem sticky_alias (env : Externals) (scheme : Nat) (a : List Nat) :
    Sticky (alias_ env scheme a) := by
  unfold alias_
  refine sticky_bind sticky_getErr (fun e => ?_)
  refine sticky_ite _ (sticky_pure _) ?_
  split
  · exact sticky_setErr _
  · exact sticky_pure _

theorem sticky_Recipient (env : Externals) (scheme : Nat) (r : Option PbRecipient) :
    Sticky (Recipient env scheme r) := by
  unfold Recipient
  split
  · exact sticky_pure _
  · refine sticky_bind (sticky_Address _ _ _) (fun x => ?_)
    split
    · exact sticky_pure _
    · exact sticky_pure _
  · exact sticky_bind (sticky_alias _ _ _) (fun _ => sticky_pure _)
  · exact sticky_pure _

theorem sticky_assetPair (env : Externals) (pair : Option PbAssetPair) :
    Sticky (assetPair env pair) := by
  unfold assetPair
  refine sticky_bind sticky_getErr (fun e => ?_)
  refine sticky_ite _ (sticky_pure _) ?_
  refine sticky_bind (sticky_deref _) (fun p => ?_)
  exact sticky_bind (sticky_optionalAsset _ _)
    (fun _ => sticky_bind (sticky_optionalAsset _ _) (fun _ => sticky_pure _))

theorem sticky_proofs (ps : List (List Nat)) : Sticky (proofs ps) := by
  unfold proofs
  refine sticky_bind sticky_getErr (fun e => ?_)
  exact sticky_ite _ (sticky_pure _) (sticky_pure _)

theorem sticky_proof (env : Externals) (ps : List (List Nat)) : Sticky (proof env ps) := by
  unfold proof
  refine sticky_bind sticky_getErr (fun e => ?_)
  refine sticky_ite _ (sticky_pure _) ?_
  split
  · exact sticky_bind (sticky_setErr _) (fun _ => sticky_pure _)
  · split
    · exact sticky_bind (sticky_setErr _) (fun _ => sticky_pure _)
    · exact sticky_pure _

theorem sticky_recordIf (e : Option Error) : Sticky (recordIf e) := by
  unfold recordIf
  split
  · exact sticky_setErr _
  · exact sticky_pure _

theorem sticky_orderByVersion (env : Externals) (o : PbOrder) :
    Sticky (orderByVersion env o) := by
  unfold orderByVersion
  refine sticky_ite _ ?_ (sticky_ite _ ?_ ?_)
  · exact sticky_bind (sticky_byte _) (fun _ => sticky_bind (sticky_proofs _)
      (fun _ => sticky_bind (sticky_extractOptionalAsset _ _) (fun _ => sticky_pure _)))
  · exact sticky_bind (sticky_byte _) (fun _ => sticky_bind (sticky_proofs _)
      (fun _ => sticky_pure _))
  · exact sticky_bind (sticky_proof _ _) (fun _ => sticky_pure _)

theorem sticky_buildOrder (env : Externals) (o : PbOrder) : Sticky (buildOrder env o) := by
  unfold buildOrder
  refine sticky_bind (sticky_publicKey _ _) (fun _ => ?_)
  refine sticky_bind (sticky_publicKey _ _) (fun _ => ?_)
  refine sticky_bind (sticky_assetPair _ _) (fun _ => ?_)
  refine sticky_bind (sticky_byte _) (fun _ => ?_)
  refine sticky_bind (sticky_uint64 _) (fun _ => ?_)
  refine sticky_bind (sticky_uint64 _) (fun _ => ?_)
  refine sticky_bind (sticky_uint64 _) (fun _ => ?_)
  refine sticky_bind (sticky_uint64 _) (fun _ => ?_)
  refine sticky_bind (sticky_amount _) (fun _ => ?_)
  exact sticky_bind (sticky_orderByVersion _ _)
    (fun _ => sticky_bind (sticky_recordIf _) (fun _ => sticky_pure _))

theorem sticky_extractOrderLoop (env : Externals) (side : Int) (orders : List (Option PbOrder)) :
    Sticky (extractOrderLoop env side orders) := by
  induction orders with
  | nil =>
    unfold extractOrderLoop
    exact sticky_bind (sticky_setErr _) (fun _ => sticky_pure _)
  | cons p rest ih =>
    unfold extractOrderLoop
    refine sticky_bind (sticky_deref _) (fun o => ?_)
    refine sticky_ite _ ?_ ih
    exact sticky_bind (sticky_buildOrder _ _) (fun _ => sticky_pure _)

theorem sticky_extractOrder (env : Externals) (orders : List (Option PbOrder)) (side : Int) :
    Sticky (extractOrder env orders side) := by
  unfold extractOrder
  refine sticky_bind sticky_getErr (fun e => ?_)
  exact sticky_ite _ (sticky_pure _) (sticky_extractOrderLoop _ _ _)

theorem sticky_transfersLoop (env : Externals) (scheme : Nat) (ts : List (Option PbTransfer)) :
    Sticky (transfersLoop env scheme ts) := by
  induction ts with
  | nil =>
    unfold transfersLoop
    exact sticky_pure _
  | cons p rest ih =>
    unfold transfersLoop
    split
    · exact sticky_bind (sticky_setErr _) (fun _ => sticky_pure _)
    · refine sticky_bind (sticky_Recipient _ _ _) (fun r => ?_)
      split
      · exact sticky_bind (sticky_setErr _) (fun _ => sticky_pure _)
      · refine sticky_bind (sticky_uint64 _) (fun _ => ?_)
        refine sticky_bind sticky_getErr (fun e => ?_)
        exact sticky_ite _ (sticky_pure _) ih

theorem sticky_transfers (env : Externals) (scheme : Nat) (ts : List (Option PbTransfer)) :
    Sticky (transfers env scheme ts) := by
  unfold transfers
  refine sticky_bind sticky_getErr (fun e => ?_)
  exact sticky_ite _ (sticky_pure _) (sticky_transfersLoop _ _ _)

theorem sticky_entry (e : Option PbDataEntry) : Sticky (entry e) := by
  unfold entry
  refine sticky_bind sticky_getErr (fun e => ?_)
  refine sticky_ite _ (sticky_pure _) ?_
  split
  · exact sticky_setErr _
  · exact sticky_pure _

theorem sticky_entriesLoop (es : List (Option PbDataEntry)) : Sticky (entriesLoop es) := by
  induction es with
  | nil =>
    unfold entriesLoop
    exact sticky_pure _
  | cons e rest ih =>
    unfold entriesLoop
    exact sticky_bind (sticky_entry _) (fun _ => ih)

theorem sticky_entries (es : List (Option PbDataEntry)) : Sticky (entries es) := by
  unfold entries
  refine sticky_bind sticky_getErr (fun e => ?_)
  exact sticky_ite _ (sticky_pure _) (sticky_entriesLoop _)

theorem functionCallBytes_kind (data : List Nat) (kind : PanicKind)
    (h : functionCallBytes data = .panic kind) : kind = .indexOutOfRange := by
  unfold functionCallBytes at h
  split at h
  · cases h
    rfl
  · split at h
    · split at h
      · cases h
        rfl
      · split at h <;> cases h
    · cases h

theorem sticky_functionCall (env : Externals) (data : List Nat) :
    Sticky (functionCall env data) := by
  unfold functionCall
  refine sticky_bind sticky_getErr (fun e => ?_)
  refine sticky_ite _ (sticky_pure _) ?_
  split
  · next kind hk =>
    have := functionCallBytes_kind data kind hk
    subst this
    intro c
    simp [crash, post]
  · split
    · exact sticky_bind (sticky_setErr _) (fun _ => sticky_pure _)
    · exact sticky_pure _

theorem sticky_paymentsLoop (env : Externals) (ps : List (Option PbAmount)) :
    Sticky (paymentsLoop env ps) := by
  induction ps with
  | nil =>
    unfold paymentsLoop
    exact sticky_pure _
  | cons p rest ih =>
    unfold paymentsLoop
    exact sticky_bind (sticky_convertAmount _ _) (fun _ => ih)

theorem sticky_payments (env : Externals) (ps : Option (List (Option PbAmount))) :
    Sticky (payments env ps) := by
  unfold payments
  split
  · exact sticky_pure _
  · exact sticky_paymentsLoop _ _

theorem good_bind {α : Type} {c0 : Converter} {m : Conv α}
    {f : α → Conv (Except Error TxType ⊕ TxType)} (hm : Sticky m) (hf : ∀ a, Good c0 (f a)) :
    Good c0 (m >>= f) := by
  intro c hc
  rw [post_bind]
  refine post_mono _ _ _ _ (hm c) ?_
  intro a c1 h1
  exact hf a c1 (Step_trans hc h1)

theorem good_inr (c0 : Converter) (t : TxType) (ht : handled t) :
    Good c0 (pure (.inr t)) :=
  fun _ hc => ⟨hc, ht⟩

theorem good_early (c0 : Converter) (e : Error) :
    Good c0 (reset >>= fun _ => pure (.inl (.error e))) :=
  fun _ _ => ⟨rfl, e, rfl⟩

theorem good_ite {c0 : Converter} (b : Prop) [Decidable b]
    {m1 m2 : Conv (Except Error TxType ⊕ TxType)} (h1 : Good c0 m1) (h2 : Good c0 m2) :
    Good c0 (if b then m1 else m2) := by
  split
  · exact h1
  · exact h2

theorem handled_byVersion (version : Int) (v2 v1 : TxType) (h2 : handled v2) (h1 : handled v1) :
    handled (byVersion version v2 v1) := by
  unfold byVersion
  split
  · exact h2
  · exact h1

theorem transactionData_good (env : Externals) (tx : PbTransaction) (scheme : Nat)
    (c0 : Converter) : Good c0 (transactionData env tx scheme) := by
  unfold transactionData
  split
  · -- Genesis
    refine good_bind (sticky_deref _) (fun d => ?_)
    refine good_bind (sticky_Address _ _ _) (fun r => ?_)
    split
    · exact good_early _ _
    · exact good_inr _ _ (by unfold handled; decide)
  · -- Payment
    refine good_bind (sticky_deref _) (fun d => ?_)
    refine good_bind (sticky_Address _ _ _) (fun r => ?_)
    split
    · exact good_early _ _
    · refine good_bind (sticky_publicKey _ _) (fun _ => ?_)
      refine good_bind (sticky_uint64 _) (fun _ => ?_)
      refine good_bind (sticky_amount _) (fun _ => ?_)
      exact good_inr _ _ (by unfold handled; decide)
  · -- Issue
    refine good_bind (sticky_publicKey _ _) (fun _ => ?_)
    refine good_bind (sticky_deref _) (fun d => ?_)
    refine good_bind (sticky_string _) (fun _ => ?_)
    refine good_bind (sticky_string _) (fun _ => ?_)
    refine good_bind (sticky_uint64 _) (fun _ => ?_)
    refine good_bind (sticky_byte _) (fun _ => ?_)
    refine good_bind (sticky_amount _) (fun _ => ?_)
    refine good_ite _ ?_ ?_
    · refine good_bind (sticky_script _) (fun _ => ?_)
      exact good_inr _ _ (by unfold handled; decide)
    · exact good_inr _ _ (by unfold handled; decide)
  · -- Transfer
    refine good_bind (sticky_deref _) (fun d => ?_)
    refine good_bind (sticky_convertAmount _ _) (fun _ => ?_)
    refine good_bind (sticky_convertAmount _ _) (fun _ => ?_)
    refine good_bind (sticky_Recipient _ _ _) (fun r => ?_)
    split
    · exact good_early _ _
    · refine good_bind (sticky_publicKey _ _) (fun _ => ?_)
      refine good_bind (sticky_string _) (fun _ => ?_)
      exact good_inr _ _ (handled_byVersion _ _ _ (by unfold handled; decide)
        (by unfold handled; decide))
  · -- Reissue
    refine good_bind (sticky_deref _) (fun d => ?_)
    refine good_bind (sticky_convertAssetAmount _ _) (fun _ => ?_)
    refine good_bind (sticky_publicKey _ _) (fun _ => ?_)
    refine good_bind (sticky_amount _) (fun _ => ?_)
    exact good_inr _ _ (handled_byVersion _ _ _ (by unfold handled; decide)
      (by unfold handled; decide))
  · -- Burn
    refine good_bind (sticky_deref _) (fun d => ?_)
    refine good_bind (sticky_convertAssetAmount _ _) (fun _ => ?_)
    refine good_bind (sticky_publicKey _ _) (fun _ => ?_)
    refine good_bind (sticky_amount _) (fun _ => ?_)
    exact good_inr _ _ (handled_byVersion _ _ _ (by unfold handled; decide)
      (by unfold handled; decide))
  · -- Exchange
    refine good_bind (sticky_amount _) (fun _ => ?_)
    refine good_bind (sticky_deref _) (fun d => ?_)
    refine good_bind (sticky_extractOrder _ _ _) (fun bo => ?_)
    refine good_bind (sticky_extractOrder _ _ _) (fun so => ?_)
    refine good_ite _ ?_ ?_
    · refine good_bind (sticky_publicKey _ _) (fun _ => ?_)
      refine good_bind (sticky_uint64 _) (fun _ => ?_)
      refine good_bind (sticky_uint64 _) (fun _ => ?_)
      refine good_bind (sticky_uint64 _) (fun _ => ?_)
      refine good_bind (sticky_uint64 _) (fun _ => ?_)
      exact good_inr _ _ (by unfold handled; decide)
    · refine good_bind (sticky_deref _) (fun b => ?_)
      refine good_ite _ (good_early _ _) ?_
      refine good_bind (sticky_deref _) (fun s => ?_)
      refine good_ite _ (good_early _ _) (good_ite _ (good_early _ _)
        (good_ite _ (good_early _ _) ?_))
      refine good_bind (sticky_publicKey _ _) (fun _ => ?_)
      refine good_bind (sticky_uint64 _) (fun _ => ?_)
      refine good_bind (sticky_uint64 _) (fun _ => ?_)
      refine good_bind (sticky_uint64 _) (fun _ => ?_)
      refine good_bind (sticky_uint64 _) (fun _ => ?_)
      exact good_inr _ _ (by unfold handled; decide)
  · -- Lease
    refine good_bind (sticky_deref _) (fun d => ?_)
    refine good_bind (sticky_Recipient _ _ _) (fun r => ?_)
    split
    · exact good_early _ _
    · refine good_bind (sticky_publicKey _ _) (fun _ => ?_)
      refine good_bind (sticky_uint64 _) (fun _ => ?_)
      refine good_bind (sticky_amount _) (fun _ => ?_)
      exact good_inr _ _ (handled_byVersion _ _ _ (by unfold handled; decide)
        (by unfold handled; decide))
  · -- LeaseCancel
    refine good_bind (sticky_publicKey _ _) (fun _ => ?_)
    refine good_bind (sticky_deref _) (fun d => ?_)
    refine good_bind (sticky_digest _ _) (fun _ => ?_)
    refine good_bind (sticky_amount _) (fun _ => ?_)
    exact good_inr _ _ (handled_byVersion _ _ _ (by unfold handled; decide)
      (by unfold handled; decide))
  · -- CreateAlias
    refine good_bind (sticky_publicKey _ _) (fun _ => ?_)
    refine good_bind (sticky_deref _) (fun d => ?_)
    refine good_bind (sticky_alias _ _ _) (fun _ => ?_)
    refine good_bind (sticky_amount _) (fun _ => ?_)
    exact good_inr _ _ (handled_byVersion _ _ _ (by unfold handled; decide)
      (by unfold handled; decide))
  · -- MassTransfer
    refine good_bind (sticky_publicKey _ _) (fun _ => ?_)
    refine good_bind (sticky_deref _) (fun d => ?_)
    refine good_bind (sticky_optionalAsset _ _) (fun _ => ?_)
    refine good_bind (sticky_transfers _ _ _) (fun _ => ?_)
    refine good_bind (sticky_amount _) (fun _ => ?_)
    refine good_bind (sticky_string _) (fun _ => ?_)
    exact good_inr _ _ (by unfold handled; decide)
  · -- DataTransaction
    refine good_bind (sticky_publicKey _ _) (fun _ => ?_)
    refine good_bind (sticky_deref _) (fun d => ?_)
    refine good_bind (sticky_entries _) (fun _ => ?_)
    refine good_bind (sticky_amount _) (fun _ => ?_)
    exact good_inr _ _ (by unfold handled; decide)
  · -- SetScript
    refine good_bind (sticky_publicKey _ _) (fun _ => ?_)
    refine good_bind (sticky_deref _) (fun d => ?_)
    refine good_bind (sticky_script _) (fun _ => ?_)
    refine good_bind (sticky_amount _) (fun _ => ?_)
    exact good_inr _ _ (by unfold handled; decide)
  · -- SponsorFee
    refine good_bind (sticky_deref _) (fun d => ?_)
    refine good_bind (sticky_convertAssetAmount _ _) (fun _ => ?_)
    refine good_bind (sticky_publicKey _ _) (fun _ => ?_)
    refine good_bind (sticky_amount _) (fun _ => ?_)
    exact good_inr _ _ (by unfold handled; decide)
  · -- SetAssetScript
    refine good_bind (sticky_publicKey _ _) (fun _ => ?_)
    refine good_bind (sticky_deref _) (fun d => ?_)
    refine good_bind (sticky_digest _ _) (fun _ => ?_)
    refine good_bind (sticky_script _) (fun _ => ?_)
    refine good_bind (sticky_amount _) (fun _ => ?_)
    exact good_inr _ _ (by unfold handled; decide)
  · -- InvokeScript
    refine good_bind (sticky_deref _) (fun d => ?_)
    refine good_bind (sticky_Recipient _ _ _) (fun r => ?_)
    split
    · exact good_early _ _
    · refine good_bind (sticky_convertAmount _ _) (fun _ => ?_)
      refine good_bind (sticky_publicKey _ _) (fun _ => ?_)
      refine good_bind (sticky_functionCall _ _) (fun _ => ?_)
      refine good_bind (sticky_payments _ _) (fun _ => ?_)
      exact good_inr _ _ (by unfold handled; decide)
  · -- no data
    exact good_early _ _

theorem post_of_sticky {α : Type} {m : Conv α} (hm : Sticky m) (c0 c : Converter)
    (hc : Step c0 c) : post m c (fun _ c1 => Step c0 c1) :=
  post_mono _ _ _ _ (hm c) (fun _ _ h => Step_trans hc h)

theorem post_done {α : Type} {m : Conv α} {c : Converter} {Q : α → Converter → Prop}
    (h : post m c Q) {a : α} {c1 : Converter} (hm : m c = .done (a, c1)) : Q a c1 := by
  unfold post at h
  rw [hm] at h
  exact h

theorem post_no_unsupported {α : Type} {m : Conv α} {c : Converter}
    {Q : α → Converter → Prop} (h : post m c Q) : m c ≠ .panic .unsupportedTransaction := by
  unfold post at h
  intro hm
  rw [hm] at h
  exact h rfl

theorem Transaction_post (env : Externals) (tx : PbTransaction) (c0 : Converter) :
    post (Transaction env tx) c0 (fun r c1 =>
      c1.err = none ∧ (c0.recorded = false → c1.recorded = true → ∃ e, r = .error e) ∧
        ∀ t, r = .ok t → handled t) := by
  unfold Transaction
  rw [post_bind]
  refine post_mono _ _ _ _ (post_of_sticky (sticky_uint64 _) c0 c0 (Step_refl c0)) ?_
  intro _ c1 h1
  rw [post_bind]
  refine post_mono _ _ _ _ (post_of_sticky (sticky_byte _) c0 c1 h1) ?_
  intro scheme c2 h2
  rw [post_bind]
  refine post_mono _ _ _ _ (post_of_sticky (sticky_byte _) c0 c2 h2) ?_
  intro _ c3 h3
  rw [post_bind]
  refine post_mono _ _ _ _ (transactionData_good env tx scheme c0 c3 h3) ?_
  intro r c4 h4
  cases r with
  | inl ret =>
    obtain ⟨he, e, hr⟩ := h4
    refine ⟨he, fun _ _ => ⟨e, hr⟩, ?_⟩
    intro t ht
    rw [hr] at ht
    cases ht
  | inr rtx =>
    obtain ⟨hs, hh⟩ := h4
    show post (getErr >>= _) c4 _
    rw [post_bind]
    have hg : ∀ (Q : Option Error → Converter → Prop), post getErr c4 Q = Q c4.err c4 := fun _ => rfl
    rw [hg]
    cases he : c4.err with
    | some err =>
      refine ⟨rfl, fun _ _ => ⟨err, rfl⟩, ?_⟩
      intro t ht
      cases ht
    | none =>
      have hc : c4 = c0 := by
        rcases hs with hs | hs
        · exact hs
        · exact absurd he hs.1
      show post (match env.GenerateID tx rtx with
        | some _ => (pure (Except.error (Error.other 14)) : Conv (Except Error TxType))
        | none => pure (Except.ok rtx)) c4 _
      cases hg : env.GenerateID tx rtx with
      | some _ =>
        refine ⟨he, fun _ _ => ⟨_, rfl⟩, ?_⟩
        intro t ht
        cases ht
      | none =>
        refine ⟨he, ?_, ?_⟩
        · intro h0 hr
          rw [hc, h0] at hr
          cases hr
        · intro t ht
          cases ht
          exact hh

theorem signedSwitch_post (env : Externals) (proofs : Option (List (List Nat))) (t : TxType)
    (ht : handled t) (c : Converter) : post (signedSwitch env proofs t) c (fun _ _ => True) := by
  unfold signedSwitch
  by_cases h1 : signedWithSignature t = true
  · rw [if_pos h1, post_bind]
    unfold post
    cases hm : extractFirstSignature env proofs c with
    | done r => trivial
    | panic kind =>
      show kind ≠ .unsupportedTransaction
      unfold extractFirstSignature at hm
      cases hp : proofs with
      | none =>
        rw [hp] at hm
        cases hc : c.err with
        | none =>
          have : (PanicKind.nilDereference) = kind := by
            simp [bind, getErr, hc, deref, crash] at hm
            exact hm
          rw [← this]
          decide
        | some e => simp [bind, getErr, hc, pure] at hm
      | some ps =>
        rw [hp] at hm
        cases hc : c.err with
        | none =>
          cases ps with
          | nil => simp [bind, getErr, hc, deref, pure, setErr] at hm
          | cons p rest =>
            cases hs : env.NewSignatureFromBytes p with
            | error e => simp [bind, getErr, hc, deref, pure, setErr, hs] at hm
            | ok s => simp [bind, getErr, hc, deref, pure, setErr, hs] at hm
        | some e => simp [bind, getErr, hc, pure] at hm
  · rw [if_neg h1]
    rcases ht with ht | ht
    · exact absurd ht h1
    · rw [if_pos ht]
      trivial

theorem SignedTransaction_post (env : Externals) (stx : PbSignedTransaction) (c : Converter) :
    post (SignedTransaction env stx) c (fun _ _ => True) := by
  unfold SignedTransaction
  rw [post_bind]
  refine post_mono _ _ _ _ (sticky_deref stx.Transaction c) ?_
  intro tx c1 _
  rw [post_bind]
  refine post_mono _ _ _ _ (Transaction_post env tx c1) ?_
  intro r c2 h
  cases r with
  | error err => trivial
  | ok t =>
    have ht : handled t := h.2.2 t rfl
    show post (proofs stx.Proofs >>= _) c2 _
    rw [post_bind]
    refine post_mono _ _ _ _ (sticky_proofs stx.Proofs c2) ?_
    intro ps c3 _
    rw [post_bind]
    have hg : ∀ (Q : Option Error → Converter → Prop), post getErr c3 Q = Q c3.err c3 :=
      fun _ => rfl
    rw [hg]
    cases he : c3.err with
    | some err => trivial
    | none => exact signedSwitch_post env ps t ht c3

/-- C26 (refuted): an Exchange transaction of version 1 whose order list is
empty, or whose negative timestamp has already recorded an error, makes
`Transaction` panic with a nil dereference at `bo.GetVersion()`, whatever the
external functions do; with both orders and a valid timestamp the conversion
succeeds. -/
theorem Transaction_Exchange_nil_order (env : Externals) :
    Transaction env exchangeWithoutOrders freshConverter = .panic .nilDereference ∧
    Transaction env exchangeNegativeTimestamp freshConverter = .panic .nilDereference ∧
    Transaction sizeExternals exchangeGood freshConverter
      = .done (.ok .ExchangeV1, freshConverter) :=
  ⟨rfl, rfl, rfl⟩

/-- C27 (refuted in its first half): on the empty string, and on a string of
three bytes starting with 1, `functionCall` panics with an index out of range,
whatever the decoder does; the second half holds: when `len(data) >= 4`,
`data[0] == 1` and `data[3] == 9`, the bytes handed to the decoder are
`data[0]` followed by `data[3:]`, of total length `len(data) - 2`. -/
theorem functionCall_index_out_of_range (env : Externals) (data : List Nat) :
    functionCall env [] freshConverter = .panic .indexOutOfRange ∧
    functionCall env [1, 0, 0] freshConverter = .panic .indexOutOfRange ∧
    (4 ≤ data.length → data.getD 0 0 = 1 → data.getD 3 0 = 9 →
      functionCallBytes data = .done (data.take 1 ++ data.drop 3) ∧
      (data.take 1 ++ data.drop 3).length = data.length - 2) := by
  refine ⟨rfl, rfl, ?_⟩
  intro hlen h0 h3
  match data, hlen with
  | d0 :: d1 :: d2 :: d3 :: rest, _ =>
    simp only [List.getD_cons_zero, List.getD_cons_succ] at h0 h3
    subst h0
    subst h3
    constructor
    · have hlt : ¬ (rest.length + 1 + 1 + 1 + 1 < 4) := by omega
      simp [functionCallBytes, writeAt, hlt, List.replicate_succ]
      omega
    · simp

/-- The byte string `01 02 03 09 05 06` is handed to the decoder as
`01 09 05 06`. -/
theorem functionCall_index_out_of_range_witness :
    functionCallBytes [1, 2, 3, 9, 5, 6] = .done [1, 9, 5, 6] ∧
    ([1, 2, 3, 9, 5, 6].take 1 ++ [1, 2, 3, 9, 5, 6].drop 3).length = 4 :=
  (functionCall_index_out_of_range sizeExternals [1, 2, 3, 9, 5, 6]).2.2
    (by decide) (by decide) (by decide)

/-- C28 (refuted): from a converter without error, a single payment whose
amount is missing and whose address can be rebuilt makes
`TransferScriptActions` return a result and a nil error (the error stays
recorded in the converter); and a single payment whose address cannot be
rebuilt makes it return `(nil, nil)`, because `c.err` is returned instead of
the error of `Address`. -/
theorem TransferScriptActions_swallows_error (env : Externals) (scheme : Nat)
    (addr a : List Nat) (e : Error) :
    (env.RebuildAddress scheme addr = .ok a →
      TransferScriptActions env scheme [some { Address := addr, Amount := none }] freshConverter
        = .done ((some [{ Recipient := a, Amount := 0, Asset := OptionalAsset.zero }], none),
            { err := some (.other 3), recorded := true })) ∧
    (env.RebuildAddress scheme addr = .error e →
      TransferScriptActions env scheme
          [some { Address := addr, Amount := some { AssetId := [], Amount := 5 } }]
          freshConverter
        = .done ((none, none), freshConverter)) := by
  constructor
  · intro h
    simp [TransferScriptActions, transferScriptActionsLoop, bind, pure, getErr, freshConverter,
      deref, convertAmount, extractOptionalAsset, amount, setErr, Address, h]
  · intro h
    simp [TransferScriptActions, transferScriptActionsLoop, bind, pure, getErr, freshConverter,
      deref, convertAmount, extractOptionalAsset, optionalAsset, amount, setErr, Address, h]

/-- With external functions that accept values by their size: a payment to a
20-byte address without amount, and a payment of 5 to a 2-byte address. -/
theorem TransferScriptActions_swallows_error_witness :
    TransferScriptActions sizeExternals 84
        [some { Address := List.replicate 20 7, Amount := none }] freshConverter
      = .done ((some [{ Recipient := [1, 84] ++ List.replicate 20 7 ++ [0, 0, 0, 0],
                        Amount := 0, Asset := OptionalAsset.zero }], none),
          { err := some (.other 3), recorded := true }) ∧
    TransferScriptActions sizeExternals 84
        [some { Address := [1, 2], Amount := some { AssetId := [], Amount := 5 } }]
        freshConverter
      = .done ((none, none), freshConverter) :=
  ⟨(TransferScriptActions_swallows_error sizeExternals 84 (List.replicate 20 7) _ (.other 0)).1
      rfl,
    (TransferScriptActions_swallows_error sizeExternals 84 [1, 2] [] (.other 30)).2 rfl⟩

/-- C29: `Transaction` neither leaks nor swallows a recorded conversion error.
For every non-nil protobuf transaction on which it returns, from a converter on
which no error has been recorded yet: the field `err` of the converter is nil
afterwards, and if any helper recorded an error during the conversion then the
error returned is non-nil. -/
theorem Transaction_error_discipline (env : Externals) (tx : PbTransaction)
    (c0 c1 : Converter) (r : Except Error TxType) (h0 : c0.recorded = false)
    (h : Transaction env tx c0 = .done (r, c1)) :
    c1.err = none ∧ (c1.recorded = true → ∃ e, r = .error e) := by
  have hp := post_done (Transaction_post env tx c0) h
  exact ⟨hp.1, hp.2.1 h0⟩

/-- A Transfer with a negative amount: `amount` records the error, and
`Transaction` returns it and leaves the converter with `err` nil. -/
theorem Transaction_error_discipline_witness :
    Transaction sizeExternals transferNegative freshConverter
      = .done (.error (.other 4), { err := none, recorded := true }) ∧
    ({ err := none, recorded := true } : Converter).err = none ∧
    (({ err := none, recorded := true } : Converter).recorded = true →
      ∃ e, (Except.error (.other 4) : Except Error TxType) = .error e) :=
  ⟨rfl, Transaction_error_discipline sizeExternals transferNegative freshConverter
    { err := none, recorded := true } (.error (.other 4)) rfl rfl⟩

/-- C30: the branch `panic("unsupported transaction")` of `SignedTransaction`
is unreachable: no run of `SignedTransaction` ends in this panic, and every
transaction type that `Transaction` returns on success is handled by a case of
the type switch. -/
theorem SignedTransaction_supported (env : Externals) (stx : PbSignedTransaction)
    (c : Converter) :
    SignedTransaction env stx c ≠ .panic .unsupportedTransaction ∧
    ∀ (tx : PbTransaction) (t : TxType) (c1 : Converter),
      Transaction env tx c = .done (.ok t, c1) → handled t := by
  refine ⟨post_no_unsupported (SignedTransaction_post env stx c), ?_⟩
  intro tx t c1 h
  exact (post_done (Transaction_post env tx c) h).2.2 t rfl

/-- A well-formed Transfer of version 2 converts to `TransferV2`, which the
type switch handles by storing the proofs. -/
theorem SignedTransaction_supported_witness :
    Transaction sizeExternals transferGood freshConverter
      = .done (.ok .TransferV2, freshConverter) ∧
    SignedTransaction sizeExternals { Transaction := some transferGood, Proofs := [[1]] }
        freshConverter
      = .done ((some .TransferV2, none), freshConverter) ∧
    handled .TransferV2 :=
  ⟨rfl, rfl,
    (SignedTransaction_supported sizeExternals
      { Transaction := some transferGood, Proofs := [[1]] } freshConverter).2
      transferGood .TransferV2 freshConverter rfl⟩

end ProtobufConverter

/-! ## Peers and handshake messages: proofs -/

theorem copy_length (dst src : List Nat) : (copy dst src).length = dst.length := by
  simp only [copy, List.length_append, List.length_take, List.length_drop]
  omega

theorem writeAt_append (A B C bytes : List Nat) (off : Nat) (hA : A.length = off)
    (hB : B.length = bytes.length) : writeAt (A ++ (B ++ C)) off bytes = A ++ (bytes ++ C) := by
  subst hA
  simp [writeAt, ← hB]

theorem slice_append (A B C : List Nat) (lo hi : Nat) (hA : A.length = lo)
    (hB : lo + B.length = hi) : slice (A ++ (B ++ C)) lo hi = B := by
  subst hA
  subst hB
  simp [slice]

theorem marshalBinaryName_eq (h : Handshake) (hn : h.NameLength ≤ 254) :
    h.marshalBinaryName
      = .done (.ok ([h.NameLength] ++ copy (List.replicate h.NameLength 0) h.Name)) := by
  unfold Handshake.marshalBinaryName
  have e1 : (h.NameLength + 1) % 2 ^ 8 = h.NameLength + 1 := by omega
  have e2 : (1 + h.NameLength) % 2 ^ 8 = 1 + h.NameLength := by omega
  simp only [e1, e2, List.length_replicate, List.length_set]
  have c1 : ¬ (h.NameLength + 1 < 1) := by omega
  have c2 : ¬ (1 + h.NameLength < 1 ∨ h.NameLength + 1 < 1 + h.NameLength) := by omega
  rw [if_neg c1, if_neg c2]
  have hd : (List.replicate (h.NameLength + 1) 0).set 0 h.NameLength
      = [h.NameLength] ++ (List.replicate h.NameLength 0 ++ []) := by
    simp [List.replicate_succ]
  rw [hd, slice_append _ _ _ _ _ (by simp) (by simp),
    writeAt_append _ _ _ _ _ (by simp) (by simp [copy_length])]
  simp

theorem marshalBinaryNodeName_eq (h : Handshake) (hn : h.NodeNameLength ≤ 254) :
    h.marshalBinaryNodeName
      = .done (.ok ([h.NodeNameLength] ++ copy (List.replicate h.NodeNameLength 0) h.NodeName)) := by
  unfold Handshake.marshalBinaryNodeName
  have e1 : (h.NodeNameLength + 1) % 2 ^ 8 = h.NodeNameLength + 1 := by omega
  have e2 : (1 + h.NodeNameLength) % 2 ^ 8 = 1 + h.NodeNameLength := by omega
  simp only [e1, e2, List.length_replicate, List.length_set]
  have c1 : ¬ (h.NodeNameLength + 1 < 1) := by omega
  have c2 : ¬ (1 + h.NodeNameLength < 1 ∨ h.NodeNameLength + 1 < 1 + h.NodeNameLength) := by
    omega
  rw [if_neg c1, if_neg c2]
  have hd : (List.replicate (h.NodeNameLength + 1) 0).set 0 h.NodeNameLength
      = [h.NodeNameLength] ++ (List.replicate h.NodeNameLength 0 ++ []) := by
    simp [List.replicate_succ]
  rw [hd, slice_append _ _ _ _ _ (by simp) (by simp),
    writeAt_append _ _ _ _ _ (by simp) (by simp [copy_length])]
  simp

theorem marshalBinaryVersion_eq (h : Handshake) :
    h.marshalBinaryVersion
      = .done (.ok (putUint32 h.VersionMajor ++ putUint32 h.VersionMinor ++
          putUint32 h.VersionPatch)) := by
  simp [Handshake.marshalBinaryVersion, writeAt, putUint32]

theorem marshalBinaryAddr_eq (h : Handshake) (hd : h.DeclaredAddrLength + 20 < 2 ^ 32) :
    h.marshalBinaryAddr
      = .done (.ok (putUint64 h.NodeNonce ++ putUint32 h.DeclaredAddrLength ++
          copy (List.replicate h.DeclaredAddrLength 0) h.DeclaredAddrBytes ++
          putUint64 h.Timestamp)) := by
  unfold Handshake.marshalBinaryAddr
  have e1 : (20 + h.DeclaredAddrLength) % 2 ^ 32 = 20 + h.DeclaredAddrLength := by omega
  have e2 : (12 + h.DeclaredAddrLength) % 2 ^ 32 = 12 + h.DeclaredAddrLength := by omega
  have hrep : List.replicate (20 + h.DeclaredAddrLength) 0
      = List.replicate 8 0 ++ (List.replicate 4 0 ++
          (List.replicate h.DeclaredAddrLength 0 ++ List.replicate 8 0)) := by
    rw [← List.replicate_add, ← List.replicate_add, ← List.replicate_add]
    congr 1
    omega
  have l8 : ∀ v, (putUint64 v).length = 8 := fun _ => rfl
  have l4 : ∀ v, (putUint32 v).length = 4 := fun _ => rfl
  have w1 : writeAt (List.replicate (20 + h.DeclaredAddrLength) 0) 0 (putUint64 h.NodeNonce)
      = putUint64 h.NodeNonce ++ (List.replicate 4 0 ++
          (List.replicate h.DeclaredAddrLength 0 ++ List.replicate 8 0)) := by
    rw [hrep]
    have := writeAt_append [] (List.replicate 8 0) (List.replicate 4 0 ++
      (List.replicate h.DeclaredAddrLength 0 ++ List.replicate 8 0)) (putUint64 h.NodeNonce) 0
      rfl (by simp [l8])
    simpa using this
  have w2 : writeAt (putUint64 h.NodeNonce ++ (List.replicate 4 0 ++
        (List.replicate h.DeclaredAddrLength 0 ++ List.replicate 8 0))) 8
        (putUint32 h.DeclaredAddrLength)
      = (putUint64 h.NodeNonce ++ putUint32 h.DeclaredAddrLength) ++
          (List.replicate h.DeclaredAddrLength 0 ++ (List.replicate 8 0 ++ [])) := by
    rw [writeAt_append _ _ _ _ _ (l8 _) (by simp [l4])]
    simp
  have s3 : slice ((putUint64 h.NodeNonce ++ putUint32 h.DeclaredAddrLength) ++
        (List.replicate h.DeclaredAddrLength 0 ++ (List.replicate 8 0 ++ []))) 12
        (12 + h.DeclaredAddrLength) = List.replicate h.DeclaredAddrLength 0 :=
    slice_append _ _ _ _ _ (by simp [l8, l4]) (by simp)
  have w3 : writeAt ((putUint64 h.NodeNonce ++ putUint32 h.DeclaredAddrLength) ++
        (List.replicate h.DeclaredAddrLength 0 ++ (List.replicate 8 0 ++ []))) 12
        (copy (List.replicate h.DeclaredAddrLength 0) h.DeclaredAddrBytes)
      = (putUint64 h.NodeNonce ++ putUint32 h.DeclaredAddrLength ++
          copy (List.replicate h.DeclaredAddrLength 0) h.DeclaredAddrBytes) ++
          (List.replicate 8 0 ++ []) := by
    rw [writeAt_append _ _ _ _ _ (by simp [l8, l4]) (by simp [copy_length])]
    simp
  have w4 : writeAt ((putUint64 h.NodeNonce ++ putUint32 h.DeclaredAddrLength ++
        copy (List.replicate h.DeclaredAddrLength 0) h.DeclaredAddrBytes) ++
        (List.replicate 8 0 ++ [])) (12 + h.DeclaredAddrLength) (putUint64 h.Timestamp)
      = putUint64 h.NodeNonce ++ putUint32 h.DeclaredAddrLength ++
          copy (List.replicate h.DeclaredAddrLength 0) h.DeclaredAddrBytes ++
          putUint64 h.Timestamp := by
    rw [writeAt_append _ _ _ _ _ (by simp [l8, l4, copy_length]; omega) (by simp [l8])]
    simp
  simp only [e1, e2, w1, w2, s3, w3, w4]
  have c1 : ¬ ((List.replicate (20 + h.DeclaredAddrLength) 0).length < 8) := by
    simp; omega
  rw [if_neg c1, if_neg (by simp [l8]; omega), if_neg (by simp [l8, l4]; omega),
    if_neg (by simp [l8, l4, copy_length]; omega), if_neg (by omega)]

theorem marshalBinaryName_wrap (h : Handshake) (hn : h.NameLength = 255) :
    h.marshalBinaryName = .panic .indexOutOfRange := by
  simp [Handshake.marshalBinaryName, hn]

theorem marshalBinaryNodeName_wrap (h : Handshake) (hn : h.NodeNameLength = 255) :
    h.marshalBinaryNodeName = .panic .indexOutOfRange := by
  simp [Handshake.marshalBinaryNodeName, hn]

theorem writeAt_length (data bytes : List Nat) (off : Nat)
    (h : off + bytes.length ≤ data.length) : (writeAt data off bytes).length = data.length := by
  simp only [writeAt, List.length_append, List.length_take, List.length_drop]
  omega

theorem marshalBinaryAddr_wrap (h : Handshake) (hd : 2 ^ 32 ≤ h.DeclaredAddrLength + 20)
    (hlt : h.DeclaredAddrLength < 2 ^ 32) : h.marshalBinaryAddr = .panic .sliceBounds := by
  unfold Handshake.marshalBinaryAddr
  have e1 : (20 + h.DeclaredAddrLength) % 2 ^ 32 = 20 + h.DeclaredAddrLength - 2 ^ 32 := by
    omega
  have e2 : (12 + h.DeclaredAddrLength) % 2 ^ 32
      = if 2 ^ 32 ≤ 12 + h.DeclaredAddrLength then 12 + h.DeclaredAddrLength - 2 ^ 32
        else 12 + h.DeclaredAddrLength := by
    split <;> omega
  simp only [e1]
  by_cases c1 : (List.replicate (20 + h.DeclaredAddrLength - 2 ^ 32) 0).length < 8
  · rw [if_pos c1]
  · rw [if_neg c1]
    have l1 : (writeAt (List.replicate (20 + h.DeclaredAddrLength - 2 ^ 32) 0) 0
        (putUint64 h.NodeNonce)).length = 20 + h.DeclaredAddrLength - 2 ^ 32 := by
      rw [writeAt_length _ _ _ (by simpa [putUint64] using c1)]
      simp
    by_cases c2 : (writeAt (List.replicate (20 + h.DeclaredAddrLength - 2 ^ 32) 0) 0
        (putUint64 h.NodeNonce)).length < 12
    · rw [if_pos c2]
    · rw [if_neg c2, if_pos]
      left
      rw [l1] at c2
      rw [e2]
      split <;> omega

/-- C32 (refuted for the largest lengths): `Handshake.MarshalBinary` panics
when `NameLength` or `NodeNameLength` is 255, because `length+1` wraps to 0 in
8 bits and the buffer has no first byte, and when `20+DeclaredAddrLength`
wraps in 32 bits; for all smaller lengths it succeeds and returns
`NameLength + NodeNameLength + DeclaredAddrLength + 34` bytes laid out as the
claim says (a string shorter than its declared length is padded with zero
bytes, a longer one is cut). -/
theorem Handshake_MarshalBinary_wraps (h : Handshake) :
    (h.NameLength = 255 → h.MarshalBinary = .panic .indexOutOfRange) ∧
    (h.NameLength ≤ 254 → h.NodeNameLength = 255 →
      h.MarshalBinary = .panic .indexOutOfRange) ∧
    (h.NameLength ≤ 254 → h.NodeNameLength ≤ 254 → 2 ^ 32 ≤ h.DeclaredAddrLength + 20 →
      h.DeclaredAddrLength < 2 ^ 32 → h.MarshalBinary = .panic .sliceBounds) ∧
    (h.NameLength ≤ 254 → h.NodeNameLength ≤ 254 → h.DeclaredAddrLength + 20 < 2 ^ 32 →
      h.MarshalBinary = .done (.ok (
        [h.NameLength] ++ copy (List.replicate h.NameLength 0) h.Name ++
        (putUint32 h.VersionMajor ++ putUint32 h.VersionMinor ++ putUint32 h.VersionPatch) ++
        ([h.NodeNameLength] ++ copy (List.replicate h.NodeNameLength 0) h.NodeName) ++
        (putUint64 h.NodeNonce ++ putUint32 h.DeclaredAddrLength ++
          copy (List.replicate h.DeclaredAddrLength 0) h.DeclaredAddrBytes ++
          putUint64 h.Timestamp))) ∧
      ([h.NameLength] ++ copy (List.replicate h.NameLength 0) h.Name ++
        (putUint32 h.VersionMajor ++ putUint32 h.VersionMinor ++ putUint32 h.VersionPatch) ++
        ([h.NodeNameLength] ++ copy (List.replicate h.NodeNameLength 0) h.NodeName) ++
        (putUint64 h.NodeNonce ++ putUint32 h.DeclaredAddrLength ++
          copy (List.replicate h.DeclaredAddrLength 0) h.DeclaredAddrBytes ++
          putUint64 h.Timestamp)).length
        = h.NameLength + h.NodeNameLength + h.DeclaredAddrLength + 34) := by
  refine ⟨?_, ?_, ?_, ?_⟩
  · intro hn
    unfold Handshake.MarshalBinary
    rw [marshalBinaryName_wrap h hn]
  · intro hn hnn
    unfold Handshake.MarshalBinary
    rw [marshalBinaryName_eq h hn, marshalBinaryVersion_eq, marshalBinaryNodeName_wrap h hnn]
  · intro hn hnn hd hlt
    unfold Handshake.MarshalBinary
    rw [marshalBinaryName_eq h hn, marshalBinaryVersion_eq, marshalBinaryNodeName_eq h hnn,
      marshalBinaryAddr_wrap h hd hlt]
  · intro hn hnn hd
    constructor
    · unfold Handshake.MarshalBinary
      rw [marshalBinaryName_eq h hn, marshalBinaryVersion_eq, marshalBinaryNodeName_eq h hnn,
        marshalBinaryAddr_eq h hd]
    · simp only [List.length_append, copy_length, List.length_replicate, List.length_singleton,
        putUint32, putUint64, List.length_cons, List.length_nil]
      omega

/-- A name of 255 bytes makes `MarshalBinary` panic; the small handshake is
encoded in 2 + 1 + 8 + 34 = 45 bytes. -/
theorem Handshake_MarshalBinary_wraps_witness :
    handshakeLongName.MarshalBinary = .panic .indexOutOfRange ∧
    handshakeSmall.MarshalBinary = .done (.ok
      [2, 119, 97, 0, 0, 0, 0, 0, 0, 0, 13, 0, 0, 0, 1, 1, 110, 0, 0, 0, 0, 0, 0, 0, 5,
        0, 0, 0, 8, 10, 0, 0, 1, 0, 0, 26, 212, 0, 0, 0, 0, 0, 0, 3, 232]) :=
  ⟨(Handshake_MarshalBinary_wraps handshakeLongName).1 rfl,
    ((Handshake_MarshalBinary_wraps handshakeSmall).2.2.2 (by decide) (by decide)
      (by decide)).1⟩

theorem PeerInfo_MarshalBinary_length (k : PeerInfo) :
    ∃ p, k.MarshalBinary = .ok p ∧ p.length = 6 := by
  refine ⟨_, rfl, ?_⟩
  rw [writeAt_length, writeAt_length]
  · simp
  · simp [copy_length, slice]
  · rw [writeAt_length]
    · simp [putUint16]
    · simp [copy_length, slice]

theorem marshalPeers_length (peers : List PeerInfo) (body : List Nat) :
    ∃ b, marshalPeers peers body = .ok b ∧ b.length = body.length + 6 * peers.length := by
  induction peers generalizing body with
  | nil => exact ⟨body, rfl, by simp⟩
  | cons k rest ih =>
    obtain ⟨p, hp, hl⟩ := PeerInfo_MarshalBinary_length k
    obtain ⟨b, hb, hbl⟩ := ih (body ++ p)
    refine ⟨b, ?_, ?_⟩
    · simp only [marshalPeers, hp]
      exact hb
    · rw [hbl, List.length_append, hl, List.length_cons]
      omega

theorem PeerInfo_UnmarshalBinary_ok (m : PeerInfo) (data : List Nat) (h : 6 ≤ data.length) :
    ∃ peer, m.UnmarshalBinary data = (peer, none) := by
  unfold PeerInfo.UnmarshalBinary
  rw [if_neg (by omega)]
  exact ⟨_, rfl⟩

theorem peersLoop_count (data : List Nat) (n : Nat) (hlen : data.length = 21 + 6 * n) :
    ∀ (fuel i : Nat) (m : PeersMessage), m.PayloadLength = 4 + 6 * n →
      m.PayloadLength < 2 ^ 32 → i % 6 = 0 → i ≤ 6 * n + 6 → m.PayloadLength ≤ i + fuel →
      ∃ m1, peersLoop data fuel i m = .done (m1, none) ∧
        m1.Peers.length = m.Peers.length + (6 * n + 6 - i) / 6 ∧
        m1.PeersCount = m.PeersCount ∧ m1.toHeader = m.toHeader := by
  intro fuel
  induction fuel with
  | zero =>
    intro i m hpl _ hi hle hf
    refine ⟨m, rfl, ?_, rfl, rfl⟩
    have : (6 * n + 6 - i) / 6 = 0 := by omega
    rw [this]
    rfl
  | succ fuel ih =>
    intro i m hpl hlt hi hle hf
    unfold peersLoop
    by_cases hc : i < m.PayloadLength
    · rw [if_pos hc]
      have e1 : (i + 6) % 2 ^ 32 = i + 6 := by omega
      simp only [e1]
      rw [if_neg (by omega)]
      have hs : 6 ≤ (slice data i (i + 6)).length := by
        simp only [slice, List.length_take, List.length_drop]
        omega
      obtain ⟨peer, hp⟩ := PeerInfo_UnmarshalBinary_ok ⟨[], 0⟩ _ hs
      rw [hp]
      simp only
      obtain ⟨m1, h1, h2, h3, h4⟩ := ih (i + 6) ⟨m.toHeader, m.PeersCount, m.Peers ++ [peer]⟩
        hpl hlt (by omega) (by omega) (by show m.PayloadLength ≤ _; omega)
      refine ⟨m1, h1, ?_, h3, h4⟩
      rw [h2]
      simp only [List.length_append, List.length_singleton]
      omega
    · rw [if_neg hc]
      refine ⟨m, rfl, ?_, rfl, rfl⟩
      have : (6 * n + 6 - i) / 6 = 0 := by omega
      rw [this]
      rfl

theorem peersLoop_fuel (data : List Nat) :
    ∀ (fuel1 fuel2 i : Nat) (m : PeersMessage), m.PayloadLength ≤ i + fuel1 →
      m.PayloadLength ≤ i + fuel2 → peersLoop data fuel1 i m = peersLoop data fuel2 i m := by
  intro fuel1
  induction fuel1 with
  | zero =>
    intro fuel2 i m h1 _
    cases fuel2 with
    | zero => rfl
    | succ f2 =>
      unfold peersLoop
      rw [if_neg (by omega)]
  | succ f1 ih =>
    intro fuel2 i m h1 h2
    cases fuel2 with
    | zero =>
      unfold peersLoop
      rw [if_neg (by omega)]
    | succ f2 =>
      unfold peersLoop
      by_cases hc : i < m.PayloadLength
      · rw [if_pos hc, if_pos hc]
        simp only
        by_cases hp : (i + 6) % 2 ^ 32 < i ∨ data.length < (i + 6) % 2 ^ 32
        · rw [if_pos hp, if_pos hp]
        · rw [if_neg hp, if_neg hp]
          have e1 : (i + 6) % 2 ^ 32 = i + 6 := by omega
          rw [e1]
          split
          · rfl
          · exact ih f2 (i + 6) _ (by show m.PayloadLength ≤ _; omega)
              (by show m.PayloadLength ≤ _; omega)
      · rw [if_neg hc, if_neg hc]

theorem Header_decode_encoded (h r : Header) (hp : h.PayloadLength < 2 ^ 32) :
    ∃ h1, r.UnmarshalBinary (putUint32 h.Length ++ [0x12, 0x34, 0x56, 0x78] ++ [h.ContentID] ++
        putUint32 h.PayloadLength ++ putUint32 h.PayloadCsum) = .done (h1, none) ∧
      h1.PayloadLength = h.PayloadLength := by
  rw [Header_UnmarshalBinary_long _ _ (by simp [putUint32])]
  have hmagic : uint32 (slice (putUint32 h.Length ++ [0x12, 0x34, 0x56, 0x78] ++ [h.ContentID] ++
      putUint32 h.PayloadLength ++ putUint32 h.PayloadCsum) 4 8) = headerMagic := by
    simp [slice, putUint32, uint32, headerMagic]
  rw [if_neg (not_not.mpr hmagic)]
  refine ⟨_, rfl, ?_⟩
  have := uint32_putUint32 h.PayloadLength hp
  simpa [slice, putUint32] using this

/-- C31 (refuted): the encoding of a Peers message does not round-trip.  For
every message `m` with `PayloadLength = 4 + 6*len(Peers)` and every receiver
`r`, `MarshalBinary` returns `21 + 6*len(Peers)` bytes, and `UnmarshalBinary`
of these bytes returns no error but appends `len(Peers) + 1` peers to those of
the receiver, read from offset 0 of the message, and leaves `PeersCount` of the
receiver as it was. -/
theorem PeersMessage_roundtrip_fails (m r : PeersMessage) (hw : m.toHeader.wellTyped)
    (hpl : m.PayloadLength = 4 + 6 * m.Peers.length) :
    ∃ data r1, m.MarshalBinary.2 = .ok data ∧ data.length = 21 + 6 * m.Peers.length ∧
      r.UnmarshalBinary data = .done (r1, none) ∧
      r1.Peers.length = r.Peers.length + (m.Peers.length + 1) ∧
      r1.PeersCount = r.PeersCount := by
  obtain ⟨_, _, _, h4, _⟩ := hw
  obtain ⟨body, hb, hbl⟩ := marshalPeers_length m.Peers
    (writeAt (List.replicate 4 0) 0 (putUint32 m.PeersCount))
  have hbl2 : body.length = 4 + 6 * m.Peers.length := by
    rw [hbl, writeAt_length _ _ _ (by simp [putUint32])]
    simp
  have hm : m.MarshalBinary.2 = .ok (
      (putUint32 m.Length ++ [0x12, 0x34, 0x56, 0x78] ++ [ContentIDPeers] ++
        putUint32 m.PayloadLength ++ putUint32 m.PayloadCsum) ++ body) := by
    unfold PeersMessage.MarshalBinary
    simp only [Header_MarshalBinary_eq, hb]
  have hlen : ((putUint32 m.Length ++ [0x12, 0x34, 0x56, 0x78] ++ [ContentIDPeers] ++
      putUint32 m.PayloadLength ++ putUint32 m.PayloadCsum) ++ body).length
      = 21 + 6 * m.Peers.length := by
    rw [List.length_append, hbl2]
    simp [putUint32]
    omega
  have hslice : slice ((putUint32 m.Length ++ [0x12, 0x34, 0x56, 0x78] ++ [ContentIDPeers] ++
      putUint32 m.PayloadLength ++ putUint32 m.PayloadCsum) ++ body) 0 17
      = putUint32 m.Length ++ [0x12, 0x34, 0x56, 0x78] ++ [ContentIDPeers] ++
        putUint32 m.PayloadLength ++ putUint32 m.PayloadCsum := by
    simp [slice, putUint32]
  obtain ⟨h1, hdec, hpay⟩ := Header_decode_encoded
    { m.toHeader with ContentID := ContentIDPeers } r.toHeader h4
  obtain ⟨r1, hr1, hpeers, hcount, _⟩ := peersLoop_count _ m.Peers.length hlen
    h1.PayloadLength 0 ⟨h1, r.PeersCount, r.Peers⟩ (hpay.trans hpl)
    (by rw [hpay]; exact h4) rfl (by omega) (by show h1.PayloadLength ≤ _; omega)
  refine ⟨_, r1, hm, hlen, ?_, ?_, hcount⟩
  · unfold PeersMessage.UnmarshalBinary
    rw [if_neg (by rw [hlen]; omega), hslice]
    simp only at hdec
    rw [hdec]
    exact hr1
  · rw [hpeers]
    have hq : (6 * m.Peers.length + 6 - 0) / 6 = m.Peers.length + 1 := by omega
    rw [hq]

/-- A message without peers decodes to one peer made of the first six bytes of
the header (`Length` and half of the magic), and a message with the peer
`10.0.0.1:6868` decodes to two peers, none of them the one sent. -/
theorem PeersMessage_roundtrip_fails_witness :
    peersEmpty.MarshalBinary.2
      = .ok [0, 0, 0, 8, 0x12, 0x34, 0x56, 0x78, 2, 0, 0, 0, 4, 0, 0, 0, 0, 0, 0, 0, 0] ∧
    peersZero.UnmarshalBinary
        [0, 0, 0, 8, 0x12, 0x34, 0x56, 0x78, 2, 0, 0, 0, 4, 0, 0, 0, 0, 0, 0, 0, 0]
      = .done (peersEmptyDecoded, none) ∧
    peersOne.MarshalBinary.2
      = .ok [0, 0, 0, 14, 0x12, 0x34, 0x56, 0x78, 2, 0, 0, 0, 10, 0, 0, 0, 0, 0, 0, 0, 1,
          10, 0, 0, 1, 26, 212] ∧
    peersZero.UnmarshalBinary
        [0, 0, 0, 14, 0x12, 0x34, 0x56, 0x78, 2, 0, 0, 0, 10, 0, 0, 0, 0, 0, 0, 0, 1,
          10, 0, 0, 1, 26, 212]
      = .done (peersOneDecoded, none) ∧
    ∃ data r1, peersOne.MarshalBinary.2 = .ok data ∧ data.length = 21 + 6 * 1 ∧
      peersZero.UnmarshalBinary data = .done (r1, none) ∧
      r1.Peers.length = 0 + (1 + 1) ∧ r1.PeersCount = 0 :=
  ⟨rfl, by decide, rfl, by decide,
    PeersMessage_roundtrip_fails peersOne peersZero (by decide) (by decide)⟩

/-! ## Recent blocks: proofs -/

theorem elems_sliceAppend (s : Option (List Signature)) (xs : List Signature) :
    elems (sliceAppend s xs) = elems s ++ xs := by
  cases s <;> cases xs <;> simp [sliceAppend, elems]

theorem elems_some (l : List Signature) : elems (some l) = l := rfl

theorem foldl_mapDelete (ids : List Signature) (m : Signature → Option Nat) (x : Signature) :
    (ids.foldl (fun m id => mapDelete m id) m) x = if x ∈ ids then none else m x := by
  induction ids generalizing m with
  | nil => simp
  | cons id rest ih =>
    rw [List.foldl_cons, ih]
    by_cases h1 : x ∈ rest
    · simp [h1]
    · by_cases h2 : x = id
      · simp [h1, h2, mapDelete]
      · simp [h1, h2, mapDelete]

theorem addBlockID_window (r : Int) (rb : recentBlocks) (id : Signature) (hr : 1 ≤ r)
    (hinv : windowInvariant r rb) (hid : id ∉ elems rb.stableIds ++ elems rb.newestIds) :
    ∃ rb1, rb.addBlockID id = .done (rb1, none) ∧ windowInvariant r rb1 ∧
      (∀ x ∈ elems rb1.stableIds, x = id ∨ x ∈ elems rb.stableIds) ∧
      rb1.newestIds = rb.newestIds := by
  obtain ⟨hrs, hlen, hkeys, hnkeys, hnd⟩ := hinv
  have hids : id ∉ elems rb.stableIds := fun h => hid (List.mem_append_left _ h)
  have hidn : id ∉ elems rb.newestIds := fun h => hid (List.mem_append_right _ h)
  obtain ⟨hnds, hndn, hdisj⟩ := List.nodup_append.mp hnd
  unfold recentBlocks.addBlockID
  by_cases hc : ((elems rb.stableIds).length : Int) < rb.rangeSize
  · rw [if_pos hc]
    refine ⟨_, rfl, ⟨hrs, ?_, ?_, hnkeys, ?_⟩, ?_, rfl⟩
    · simp only [elems_sliceAppend, List.length_append, List.length_singleton]
      rw [hrs] at hc
      push_cast
      omega
    · intro x
      simp only [elems_sliceAppend, List.mem_append, List.mem_singleton, mapSet]
      by_cases hx : x = id
      · simp [hx]
      · simp [hx, hkeys x]
    · simp only [elems_sliceAppend]
      rw [List.nodup_append]
      refine ⟨List.Nodup.append hnds (List.nodup_singleton id) (by simpa using hids), hndn, ?_⟩
      intro a ha hb
      rcases List.mem_append.mp ha with h | h
      · exact hdisj h hb
      · rw [List.mem_singleton] at h
        exact hidn (h ▸ hb)
    · intro x hx
      simp only [elems_sliceAppend, List.mem_append, List.mem_singleton] at hx
      tauto
  · rw [if_neg hc]
    simp only
    cases hs : elems rb.stableIds with
    | nil =>
      rw [hs, hrs] at hc
      simp at hc
      omega
    | cons first rest =>
      simp only
      rw [hs] at hlen hnds hids hdisj
      have hkeys2 : ∀ x, (rb.isStable x).isSome ↔ x ∈ first :: rest := by
        intro x
        rw [hkeys x, hs]
      have hfr : first ∉ rest := (List.nodup_cons.mp hnds).1
      have hidf : id ≠ first := fun h => hids (by simp [h])
      have hidr : id ∉ rest := fun h => hids (by simp [h])
      refine ⟨_, rfl, ⟨hrs, ?_, ?_, hnkeys, ?_⟩, ?_, rfl⟩
      · simp only [elems_sliceAppend, elems_some, List.length_append, List.length_singleton]
        simp only [List.length_cons] at hlen
        exact hlen
      · intro x
        simp only [elems_sliceAppend, elems_some, List.mem_append, List.mem_singleton,
          mapDelete, mapSet]
        by_cases hx1 : x = first
        · subst hx1
          simp only [if_true, Option.isSome_none, Bool.false_eq_true, false_iff, not_or]
          exact ⟨hfr, fun h => hidf h.symm⟩
        · by_cases hx2 : x = id
          · simp [hx1, hx2]
            subst hx2
            simp [hx1]
          · have := hkeys2 x
            simp only [List.mem_cons, hx1, false_or] at this
            simp [hx1, hx2, this]
      · simp only [elems_sliceAppend, elems_some]
        rw [List.nodup_append]
        refine ⟨List.Nodup.append (List.nodup_cons.mp hnds).2 (List.nodup_singleton id)
          (by simpa using hidr), hndn, ?_⟩
        intro a ha hb
        rcases List.mem_append.mp ha with h | h
        · exact hdisj (List.mem_cons_of_mem _ h) hb
        · rw [List.mem_singleton] at h
          exact hidn (h ▸ hb)
      · intro x hx
        simp only [elems_sliceAppend, elems_some, List.mem_append, List.mem_singleton] at hx
        rcases hx with hx | hx
        · right
          simp [hx]
        · left
          exact hx

theorem flush_window (r : Int) (rb : recentBlocks) (hr : 0 ≤ r)
    (hinv : windowInvariant r rb) :
    ∃ rb1, rb.flush = .done rb1 ∧ windowInvariant r rb1 ∧
      elems rb1.stableIds
        = (elems rb.stableIds ++ elems rb.newestIds).drop
            ((elems rb.stableIds ++ elems rb.newestIds).length - r.toNat) ∧
      elems rb1.newestIds = [] := by
  obtain ⟨hrs, hlen, hkeys, hnkeys, hnd⟩ := hinv
  have hall : ∀ x, (match rb.isNewest x with
      | some height => some height
      | none => rb.isStable x).isSome ↔ x ∈ elems rb.stableIds ++ elems rb.newestIds := by
    intro x
    rw [List.mem_append, ← hkeys x, ← hnkeys x]
    cases rb.isNewest x <;> simp
  unfold recentBlocks.flush
  simp only [recentBlocks.addNewIds, recentBlocks.removeOutdated, elems_sliceAppend]
  by_cases hc : (((elems rb.stableIds ++ elems rb.newestIds).length : Nat) : Int) > rb.rangeSize
  · rw [if_pos hc, if_neg (by omega)]
    refine ⟨_, rfl, ⟨hrs, ?_, ?_, ?_, ?_⟩, ?_, rfl⟩
    · simp only [elems_some, List.length_drop]
      omega
    · intro x
      simp only [elems_some, foldl_mapDelete]
      have hsplit := List.take_append_drop
        ((elems rb.stableIds ++ elems rb.newestIds).length - rb.rangeSize.toNat)
        (elems rb.stableIds ++ elems rb.newestIds)
      have hnd2 := hnd
      rw [← hsplit] at hnd2
      obtain ⟨_, _, hdisj⟩ := List.nodup_append.mp hnd2
      by_cases hx : x ∈ (elems rb.stableIds ++ elems rb.newestIds).take
          ((elems rb.stableIds ++ elems rb.newestIds).length - rb.rangeSize.toNat)
      · rw [if_pos hx]
        simp only [Option.isSome_none, Bool.false_eq_true, false_iff]
        exact fun h => hdisj hx h
      · rw [if_neg hx, hall x]
        constructor
        · intro h
          rw [← hsplit] at h
          rcases List.mem_append.mp h with h | h
          · exact absurd h hx
          · exact h
        · exact fun h => List.mem_of_mem_drop h
    · intro x
      simp [elems]
    · simp only [elems_some]
      have : elems (none : Option (List Signature)) = [] := rfl
      rw [this, List.append_nil]
      exact List.Nodup.sublist (List.drop_sublist _ _) hnd
    · simp only [elems_some, hrs]
  · rw [if_neg hc]
    have hk : (elems rb.stableIds ++ elems rb.newestIds).length - r.toNat = 0 := by
      rw [hrs] at hc
      omega
    refine ⟨_, rfl, ⟨hrs, ?_, ?_, ?_, ?_⟩, ?_, rfl⟩
    · simp only [elems_sliceAppend]
      rw [hrs] at hc
      omega
    · intro x
      simp only [elems_sliceAppend]
      exact hall x
    · intro x
      simp [elems]
    · simp only [elems_sliceAppend]
      have : elems (none : Option (List Signature)) = [] := rfl
      rw [this, List.append_nil]
      exact hnd
    · simp only [elems_sliceAppend, hk, List.drop_zero]

theorem runCalls_window (r : Int) (hr : 1 ≤ r) (calls : List WindowCall) :
    ∀ rb, windowInvariant r rb → (addedIDs calls).Nodup →
      (∀ id ∈ addedIDs calls, id ∉ elems rb.stableIds ++ elems rb.newestIds) →
      ∃ rb1, runCalls rb calls = .done rb1 ∧ windowInvariant r rb1 := by
  induction calls with
  | nil => exact fun rb hinv _ _ => ⟨rb, rfl, hinv⟩
  | cons c rest ih =>
    intro rb hinv hnd hfresh
    cases c with
    | addBlockID id =>
      simp only [addedIDs, List.nodup_cons] at hnd
      have hid : id ∉ elems rb.stableIds ++ elems rb.newestIds :=
        hfresh id (by simp [addedIDs])
      obtain ⟨rb1, h1, hinv1, hsub, hnew⟩ := addBlockID_window r rb id hr hinv hid
      obtain ⟨rb2, h2, hinv2⟩ := ih rb1 hinv1 hnd.2 (by
        intro x hx hmem
        rcases List.mem_append.mp hmem with hm | hm
        · rcases hsub x hm with h | h
          · exact hnd.1 (h ▸ hx)
          · exact hfresh x (by simp [addedIDs, hx]) (List.mem_append_left _ h)
        · rw [hnew] at hm
          exact hfresh x (by simp [addedIDs, hx]) (List.mem_append_right _ hm))
      exact ⟨rb2, by simp only [runCalls, h1]; exact h2, hinv2⟩
    | flush =>
      obtain ⟨rb1, h1, hinv1, hsame, hnone⟩ := flush_window r rb (by omega) hinv
      obtain ⟨rb2, h2, hinv2⟩ := ih rb1 hinv1 (by simpa [addedIDs] using hnd) (by
        intro x hx hmem
        rw [hsame, hnone, List.append_nil] at hmem
        exact hfresh x (by simpa [addedIDs] using hx) (List.mem_of_mem_drop hmem))
      exact ⟨rb2, by simp only [runCalls, h1]; exact h2, hinv2⟩

theorem newRecentBlocks_window (r : Int) (hr : 1 ≤ r) (rw : Option blockReadWriter) :
    windowInvariant r (newRecentBlocks r rw) := by
  refine ⟨rfl, ?_, ?_, ?_, ?_⟩
  · simp [newRecentBlocks, elems]
    omega
  · intro id
    simp [newRecentBlocks, elems]
  · intro id
    simp [newRecentBlocks, elems]
  · simp [newRecentBlocks, elems]

theorem windowPending_invariant : windowInvariant 2 windowPending := by
  refine ⟨rfl, by decide, ?_, ?_, by decide⟩
  · intro id
    simp only [windowPending, mapSet, elems_some, List.mem_cons, List.mem_singleton,
      List.not_mem_nil, or_false]
    by_cases h2 : id = 2
    · simp [h2]
    · by_cases h1 : id = 1
      · simp [h1]
      · simp [h1, h2]
  · intro id
    simp only [windowPending, mapSet, elems_some, List.mem_singleton]
    by_cases h3 : id = 3
    · simp [h3]
    · simp [h3]

theorem addBlockID_full (rb : recentBlocks) (id : Signature) (hr : 1 ≤ rb.rangeSize)
    (hfull : ((elems rb.stableIds).length : Int) = rb.rangeSize) :
    ∃ rb1, rb.addBlockID id = .done (rb1, none) ∧
      elems rb1.stableIds = (elems rb.stableIds).tail ++ [id] := by
  unfold recentBlocks.addBlockID
  rw [if_neg (by omega)]
  simp only
  cases hs : elems rb.stableIds with
  | nil =>
    rw [hs] at hfull
    simp at hfull
    omega
  | cons first rest =>
    exact ⟨_, rfl, by simp [elems_sliceAppend, elems_some]⟩

/-- C33: the bounded window of `recentBlocks`.  Let `rangeSize >= 1` and let
the state satisfy the window invariant (at most `rangeSize` stable IDs, the
keys of `isStable` and of `isNewest` are the stable and the pending newest
IDs), the IDs in the state and those passed to `addBlockID` being pairwise
distinct.  Then every sequence of `addBlockID` and `flush` calls returns
without panic and leaves at most `rangeSize` stable IDs whose set is the key
set of `isStable`.  Eviction is in insertion order: `addBlockID` on the full
window gives the old list without its first element followed by the new ID,
and `flush` keeps the last `rangeSize` of the stable IDs followed by the
pending ones, deleting the keys of the others. -/
theorem recentBlocks_window (r : Int) (rb : recentBlocks) (calls : List WindowCall)
    (hr : 1 ≤ r) (hinv : windowInvariant r rb)
    (hd : (elems rb.stableIds ++ elems rb.newestIds ++ addedIDs calls).Nodup) :
    ∃ rb1, runCalls rb calls = .done rb1 ∧
      ((elems rb1.stableIds).length : Int) ≤ r ∧
      (∀ id, (rb1.isStable id).isSome ↔ id ∈ elems rb1.stableIds) ∧
      (∀ id, ((elems rb1.stableIds).length : Int) = r →
        ∃ rb2, rb1.addBlockID id = .done (rb2, none) ∧
          elems rb2.stableIds = (elems rb1.stableIds).tail ++ [id]) ∧
      ∃ rb2, rb1.flush = .done rb2 ∧
        ((elems rb2.stableIds).length : Int) ≤ r ∧
        (∀ id, (rb2.isStable id).isSome ↔ id ∈ elems rb2.stableIds) ∧
        elems rb2.stableIds
          = (elems rb1.stableIds ++ elems rb1.newestIds).drop
              ((elems rb1.stableIds ++ elems rb1.newestIds).length - r.toNat) := by
  obtain ⟨hnd1, hnd2, hdisj⟩ := List.nodup_append.mp hd
  obtain ⟨rb1, h1, hinv1⟩ := runCalls_window r hr calls rb hinv hnd2
    (fun id hid hmem => hdisj hmem hid)
  obtain ⟨rb2, h2, hinv2, hdrop, _⟩ := flush_window r rb1 (by omega) hinv1
  refine ⟨rb1, h1, hinv1.2.1, hinv1.2.2.1, ?_, rb2, h2, hinv2.2.1, hinv2.2.2.1, hdrop⟩
  intro id hfull
  exact addBlockID_full rb1 id (by rw [hinv1.1]; exact hr) (by rw [hinv1.1]; exact hfull)

/-- With range size 2, the window `[1, 2]` and the pending newest ID 3: the
flush evicts ID 1 and deletes its key, and `addBlockID(4)` then evicts ID 2. -/
theorem recentBlocks_window_witness :
    (∃ a b, (newRecentBlocks 2 none).addBlockID 1 = .done (a, none) ∧
      a.addBlockID 2 = .done (b, none) ∧ b.addNewBlockID 3 = .done (windowPending, none)) ∧
    (∃ rb1, windowPending.flush = .done rb1 ∧ rb1.stableIds = some [2, 3] ∧
      rb1.isStable 1 = none ∧ rb1.isStable 2 = some 1 ∧ rb1.isStable 3 = some 2) ∧
    (∃ rb1, runCalls windowPending [.flush, .addBlockID 4] = .done rb1 ∧
      rb1.stableIds = some [3, 4] ∧ rb1.isStable 1 = none ∧ rb1.isStable 2 = none ∧
      rb1.isStable 3 = some 2 ∧ rb1.isStable 4 = some 3) ∧
    ∃ rb1, runCalls windowPending [.flush, .addBlockID 4] = .done rb1 ∧
      ((elems rb1.stableIds).length : Int) ≤ 2 ∧
      (∀ id, (rb1.isStable id).isSome ↔ id ∈ elems rb1.stableIds) ∧
      (∀ id, ((elems rb1.stableIds).length : Int) = 2 →
        ∃ rb2, rb1.addBlockID id = .done (rb2, none) ∧
          elems rb2.stableIds = (elems rb1.stableIds).tail ++ [id]) ∧
      ∃ rb2, rb1.flush = .done rb2 ∧
        ((elems rb2.stableIds).length : Int) ≤ 2 ∧
        (∀ id, (rb2.isStable id).isSome ↔ id ∈ elems rb2.stableIds) ∧
        elems rb2.stableIds
          = (elems rb1.stableIds ++ elems rb1.newestIds).drop
              ((elems rb1.stableIds ++ elems rb1.newestIds).length - (2 : Int).toNat) :=
  ⟨⟨_, _, rfl, rfl, rfl⟩, ⟨_, rfl, rfl, rfl, rfl, rfl⟩, ⟨_, rfl, rfl, rfl, rfl, rfl, rfl⟩,
    recentBlocks_window 2 windowPending [.flush, .addBlockID 4] (by decide)
      windowPending_invariant (by decide)⟩

/-- C34 (refuted): `flush` assigns `newestHeight` to `stableHeight`, whatever
the number of IDs flushed.  For every state with `rangeSize >= 0` it returns,
`newestIds` and `isNewest` are empty afterwards, `stableHeight` is the
`newestHeight` of before, and when the window does not overflow every flushed
ID keeps the height it had in `isNewest`.  On a state in which no newest ID was
ever added `newestHeight` is 0: a flush after `addBlockID(7)` on a new
`recentBlocks` moves `stableHeight`, and `height()`, from 1 to 0; and a flush
after `height()` has filled the window from a block reader of height 3 moves
them from 4 to 0. -/
theorem flush_stableHeight (rb : recentBlocks) :
    (0 ≤ rb.rangeSize →
      ∃ rb1, rb.flush = .done rb1 ∧ rb1.newestIds = none ∧ (∀ id, rb1.isNewest id = none) ∧
        rb1.stableHeight = rb.newestHeight ∧
        (((elems rb.stableIds).length + (elems rb.newestIds).length : Nat) ≤ rb.rangeSize →
          ∀ id h, rb.isNewest id = some h → rb1.isStable id = some h)) ∧
    (∃ rb0 rb1 rb2, (newRecentBlocks 10 none).addBlockID 7 = .done (rb0, none) ∧
      rb0.height = .done (rb0, 1, none) ∧ rb0.newestIds = none ∧
      rb0.flush = .done rb1 ∧ rb1.stableHeight = 0 ∧ rb1.height = .done (rb2, 0, none)) ∧
    (∃ rb0 rb1 rb2, (newRecentBlocks 10 (some rwThree)).height = .done (rb0, 4, none) ∧
      rb0.newestIds = none ∧ rb0.flush = .done rb1 ∧ rb1.stableHeight = 0 ∧
      rb1.height = .done (rb2, 0, none)) := by
  refine ⟨?_, ⟨_, _, _, rfl, rfl, rfl, rfl, rfl, rfl⟩, ⟨_, _, _, rfl, rfl, rfl, rfl, rfl⟩⟩
  intro h0
  unfold recentBlocks.flush
  simp only [recentBlocks.addNewIds, elems_sliceAppend]
  by_cases hc : (((elems rb.stableIds ++ elems rb.newestIds).length : Nat) : Int) > rb.rangeSize
  · rw [if_pos hc, if_neg (by omega)]
    refine ⟨_, rfl, rfl, fun _ => rfl, rfl, ?_⟩
    intro hle
    rw [List.length_append] at hc
    omega
  · rw [if_neg hc]
    refine ⟨_, rfl, rfl, fun _ => rfl, rfl, ?_⟩
    intro _ id h hid
    simp only [hid]

/-- A new state with one pending newest ID: the flush returns, empties the
newest IDs, sets `stableHeight` to the `newestHeight` of before and keeps the
height of the flushed ID. -/
theorem flush_stableHeight_witness :
    ∃ rb1, ((newRecentBlocks 10 none).addNewest 8).flush = .done rb1 ∧ rb1.newestIds = none ∧
      (∀ id, rb1.isNewest id = none) ∧
      rb1.stableHeight = ((newRecentBlocks 10 none).addNewest 8).newestHeight ∧
      ((((elems ((newRecentBlocks 10 none).addNewest 8).stableIds).length +
          (elems ((newRecentBlocks 10 none).addNewest 8).newestIds).length : Nat) : Int)
            ≤ ((newRecentBlocks 10 none).addNewest 8).rangeSize →
        ∀ id h, ((newRecentBlocks 10 none).addNewest 8).isNewest id = some h →
          rb1.isStable id = some h) :=
  (flush_stableHeight ((newRecentBlocks 10 none).addNewest 8)).1 (by decide)

end NG
